import Mathlib

/-!
# UCX endpoint and tag-rendezvous core: shallow embedding

Embedding of `src/ucp/core/ucp_ep.c`, `src/ucp/tag/tag_rndv.c` and
`src/uct/sm/mm/sysv/mm_sysv.c`.

Conventions.
* Machine integers are natural numbers; a reduction `% 2 ^ w` is written
  wherever the source stores into a narrower object or can wrap.
* C arrays are total functions `Nat → _`; a store `a[i] = v` is
  `Function.update a i v`.
* Calls into collaborators that are not part of the translated files
  (transport lanes, allocators, `shmat`, the wireup layer) are oracles:
  their outcome is an argument of the embedded function.
* Observable effects on collaborators are recorded in event traces.
-/

namespace UCX

/-! ## Status codes -/

/-- Status codes `ucs_status_t` used by the translated functions. `UCS_ERR_OTHER`
stands for every other negative (error) code a collaborator may return. -/
inductive ucs_status_t where
  | UCS_OK
  | UCS_INPROGRESS
  | UCS_ERR_NO_MEMORY
  | UCS_ERR_BUSY
  | UCS_ERR_NO_PROGRESS
  | UCS_ERR_CANCELED
  | UCS_ERR_SHMEM_SEGMENT
  | UCS_ERR_UNSUPPORTED
  | UCS_ERR_EXCEEDS_LIMIT
  | UCS_ERR_OTHER (code : Nat)
  deriving DecidableEq, Repr

open ucs_status_t

/-- The macro `UCS_STATUS_IS_ERR`: a status is an error when it is negative, that is
when it is neither `UCS_OK` (0) nor `UCS_INPROGRESS` (1). -/
def UCS_STATUS_IS_ERR : ucs_status_t → Bool
  | UCS_OK => false
  | UCS_INPROGRESS => false
  | _ => true

/-! ## Constants declared in headers outside the translated files -/

/-- The constant `SIZE_MAX` of a 64-bit `size_t`. -/
def SIZE_MAX : Nat := 2 ^ 64 - 1

/-- The constant `UCP_NULL_LANE`, the all-ones `ucp_lane_index_t` (an 8-bit index). -/
def UCP_NULL_LANE : Nat := 255

/-- The constant `UCP_NULL_RESOURCE`, the all-ones `ucp_rsc_index_t` (an 8-bit index). -/
def UCP_NULL_RESOURCE : Nat := 255

/-- The macro `UCS_BIT(i)`, `1ul << i` in a 64-bit unsigned long. -/
def UCS_BIT (i : Nat) : Nat := (1 <<< i) % 2 ^ 64

/-! ## Endpoint configuration key (`ucp_ep.c`) -/

/-- The structure `ucp_ep_config_key_t`. `lanes` is the array `lanes[UCP_MAX_LANES]`
of resource indices. -/
structure ucp_ep_config_key_t where
  lanes : Nat → Nat
  num_lanes : Nat
  am_lane : Nat
  rma_lanes_map : Nat
  amo_lanes_map : Nat
  wireup_msg_lane : Nat

/-- The loop `for (lane = ...; lane < key1->num_lanes; ++lane)` of
`ucp_ep_config_is_equal`, with `todo` iterations left starting at index `lane`:
returns 0 at the first differing entry and 1 when the loop runs to its end. -/
def ucp_ep_config_is_equal_loop (key1 key2 : ucp_ep_config_key_t) : Nat → Nat → Nat
  | 0, _ => 1
  | todo + 1, lane =>
    if key1.lanes lane ≠ key2.lanes lane then 0
    else ucp_ep_config_is_equal_loop key1 key2 todo (lane + 1)

/-- The function `ucp_ep_config_is_equal`. -/
def ucp_ep_config_is_equal (key1 key2 : ucp_ep_config_key_t) : Nat :=
  if key1.num_lanes ≠ key2.num_lanes ∨
     key1.am_lane ≠ key2.am_lane ∨
     key1.rma_lanes_map ≠ key2.rma_lanes_map ∨
     key1.amo_lanes_map ≠ key2.amo_lanes_map ∨
     key1.wireup_msg_lane ≠ key2.wireup_msg_lane then 0
  else ucp_ep_config_is_equal_loop key1 key2 key1.num_lanes 0

/-! ## Doubles

The auto zero-copy threshold is computed in `double`, taken to be IEEE 754 binary64
with every operation rounded to binary64 in the default rounding mode (to nearest, ties
to even), as on x86-64. A finite double is held as the rational it denotes, the
negative zero apart. -/

/-- A C `double`: a finite value (`fin 0` is the positive zero), the negative zero, plus
or minus infinity, or NaN. -/
inductive cdouble where
  | fin (q : ℚ)
  | nzero
  | pinf
  | ninf
  | nan

namespace cdouble

/-- The integer nearest to a rational that is not negative, the even one of the two when
it lies halfway. -/
def roundHalfEven (m : ℚ) : Nat :=
  if m - (⌊m⌋₊ : ℚ) < 1 / 2 then ⌊m⌋₊
  else if 1 / 2 < m - (⌊m⌋₊ : ℚ) then ⌊m⌋₊ + 1
  else if ⌊m⌋₊ % 2 = 0 then ⌊m⌋₊ else ⌊m⌋₊ + 1

/-- The exponent of the spacing of the doubles around the positive magnitude `a`: 52
below the power of two at or under `a`, and `-1074` in the subnormal range. -/
def ulpExp (a : ℚ) : Int := max (Int.log 2 a) (-1022) - 52

/-- The positive magnitude `a` rounded to 53 significant bits (to the spacing of the
subnormal numbers below `2^-1022`), the exponent being unbounded above. -/
def roundMag (a : ℚ) : ℚ := (roundHalfEven (a / 2 ^ ulpExp a) : ℚ) * 2 ^ ulpExp a

/-- The double nearest to the real number of sign `neg` and positive magnitude `a`:
an infinity on overflow, a zero of that sign on underflow. -/
def nearest (neg : Bool) (a : ℚ) : cdouble :=
  if 2 ^ 1024 ≤ roundMag a then (if neg then ninf else pinf)
  else if roundMag a = 0 then (if neg then nzero else fin 0)
  else fin (if neg then -roundMag a else roundMag a)

/-- The double that a decimal constant denotes. -/
def ofRat (q : ℚ) : cdouble :=
  if q = 0 then fin 0 else nearest (decide (q < 0)) |q|

/-- Whether the double is NaN. -/
def isNan : cdouble → Bool
  | nan => true
  | _ => false

/-- Whether the double is an infinity. -/
def isInf : cdouble → Bool
  | pinf => true
  | ninf => true
  | _ => false

/-- Whether the double is a zero. -/
def isZero : cdouble → Bool
  | fin q => decide (q = 0)
  | nzero => true
  | _ => false

/-- The sign bit of a double that is not NaN. -/
def signBit : cdouble → Bool
  | fin q => decide (q < 0)
  | nzero => true
  | ninf => true
  | _ => false

/-- The value of a finite double. -/
def val : cdouble → ℚ
  | fin q => q
  | _ => 0

/-- Division of doubles: the sign is the exclusive or of the signs; infinity over
infinity and zero over zero are NaN, a non-zero value over zero is an infinity, and the
quotient of finite non-zero values is rounded. -/
def div (x y : cdouble) : cdouble :=
  if x.isNan || y.isNan then nan
  else if x.isInf then
    (if y.isInf then nan else if xor x.signBit y.signBit then ninf else pinf)
  else if y.isInf then (if xor x.signBit y.signBit then nzero else fin 0)
  else if y.isZero then
    (if x.isZero then nan else if xor x.signBit y.signBit then ninf else pinf)
  else if x.isZero then (if xor x.signBit y.signBit then nzero else fin 0)
  else nearest (xor x.signBit y.signBit) (|x.val| / |y.val|)

/-- Subtraction of doubles: the difference of finite values is rounded; an exact zero
difference is the positive zero, except that `(-0) - (+0)` is the negative zero. -/
def sub (x y : cdouble) : cdouble :=
  if x.isNan || y.isNan then nan
  else if x.isInf then (if y.isInf && (x.signBit == y.signBit) then nan else x)
  else if y.isInf then (if y.signBit then pinf else ninf)
  else if x.val - y.val = 0 then (if x.signBit && !y.signBit then nzero else fin 0)
  else nearest (decide (x.val - y.val < 0)) |x.val - y.val|

/-- The comparison `x < 0`; false on NaN and on both zeros. -/
def ltZero : cdouble → Bool
  | fin a => decide (a < 0)
  | ninf => true
  | _ => false

/-- Conversion `double → size_t`: truncation toward zero when the truncated value is
representable, `none` (undefined in C) otherwise. -/
def toSize : cdouble → Option Nat
  | fin a => if -1 < a ∧ a < 2 ^ 64 then some (Int.toNat ⌊a⌋) else none
  | nzero => some 0
  | _ => none

/-- Conversion `double → ssize_t`, used for `sync_zcopy_thresh`: truncation toward zero
when representable, `none` otherwise. Only called on values that are not negative. -/
def toSSize : cdouble → Option Int
  | fin a => if -1 < a ∧ a < 2 ^ 63 then some (Int.ofNat (Int.toNat ⌊a⌋)) else none
  | nzero => some 0
  | _ => none

end cdouble

/-! ## Transport attributes, context and worker -/

/-- Capability bit `UCT_IFACE_FLAG_AM_SHORT` (declared in the UCT API header). -/
def UCT_IFACE_FLAG_AM_SHORT : Nat := UCS_BIT 0
/-- Capability bit `UCT_IFACE_FLAG_AM_BCOPY` (declared in the UCT API header). -/
def UCT_IFACE_FLAG_AM_BCOPY : Nat := UCS_BIT 1
/-- Capability bit `UCT_IFACE_FLAG_AM_ZCOPY` (declared in the UCT API header). -/
def UCT_IFACE_FLAG_AM_ZCOPY : Nat := UCS_BIT 2
/-- Capability bit `UCT_IFACE_FLAG_PUT_SHORT` (declared in the UCT API header). -/
def UCT_IFACE_FLAG_PUT_SHORT : Nat := UCS_BIT 4
/-- Capability bit `UCT_IFACE_FLAG_PUT_BCOPY` (declared in the UCT API header). -/
def UCT_IFACE_FLAG_PUT_BCOPY : Nat := UCS_BIT 5
/-- Capability bit `UCT_IFACE_FLAG_GET_BCOPY` (declared in the UCT API header). -/
def UCT_IFACE_FLAG_GET_BCOPY : Nat := UCS_BIT 9
/-- Capability bit `UCT_PD_FLAG_REG` of a protection domain (declared in the UCT API
header). -/
def UCT_PD_FLAG_REG : Nat := UCS_BIT 1

/-- The sentinel `UCS_CONFIG_MEMUNITS_AUTO`, `(size_t)-2`. -/
def UCS_CONFIG_MEMUNITS_AUTO : Nat := 2 ^ 64 - 2

/-- The size `sizeof(ucp_eager_hdr_t)`: the eager header is the 64-bit tag. -/
def sizeof_ucp_eager_hdr_t : Nat := 8

/-- The size `sizeof(uint64_t)`. -/
def sizeof_uint64_t : Nat := 8

/-- The fields of `uct_iface_attr_t` read by `ucp_ep_config_init`. -/
structure uct_iface_attr_t where
  cap_flags : Nat := 0
  cap_am_max_short : Nat := 0
  cap_am_max_bcopy : Nat := 0
  cap_am_max_zcopy : Nat := 0
  cap_put_max_short : Nat := 0
  cap_put_max_bcopy : Nat := 0
  cap_put_max_zcopy : Nat := 0
  cap_get_max_bcopy : Nat := 0
  cap_get_max_zcopy : Nat := 0
  bandwidth : cdouble := cdouble.fin 0

/-- The fields of `uct_pd_attr_t` read by `ucp_ep_config_init`. -/
structure uct_pd_attr_t where
  cap_flags : Nat := 0
  reg_cost_overhead : cdouble := cdouble.fin 0
  reg_cost_growth : cdouble := cdouble.fin 0

/-- The fields of `ucp_context` read by the translated functions: `config.ext.*`, the
protection-domain attributes and the `pd_index` of each transport resource. -/
structure ucp_context where
  config_ext_bcopy_thresh : Nat := 0
  config_ext_zcopy_thresh : Nat := 0
  config_ext_bcopy_bw : cdouble := cdouble.fin 0
  config_ext_proto_enable : Bool := false
  pd_attrs : Nat → uct_pd_attr_t := fun _ => {}
  tl_rscs_pd_index : Nat → Nat := fun _ => 0

/-- The structure `uct_pending_req_t`, the member `send.uct` of a request: `req` is the
identity of the containing request and `func` the progress function pointer (`none`
is `NULL`). -/
structure uct_pending_req_t where
  req : Nat := 0
  func : Option Nat := none
  deriving DecidableEq, Repr

/-- The part of `ucp_request_t` used by the translated functions: the identity of
the request object, its flags, the members `send.ep` (an endpoint handle) and
`send.uct`, the posted tag of a receive and the fields `recv.tag.info.sender_tag` and
`recv.tag.info.length`. -/
structure ucp_request_t where
  id : Nat := 0
  flags : Nat := 0
  send_ep : Nat := 0
  send_uct : uct_pending_req_t := {}
  recv_tag : Nat := 0
  recv_tag_info_sender_tag : Nat := 0
  recv_tag_info_length : Nat := 0
  deriving DecidableEq, Repr

/-- A transport endpoint (one lane handle `uct_ep_h`): its identity and the requests
parked on its pending queue, oldest first. -/
structure uct_ep_t where
  id : Nat := 0
  pending : List ucp_request_t := []
  deriving DecidableEq, Repr

/-- The structure `ucp_ep_t`; `uct_eps` is the array of lane handles. An endpoint handle
`ucp_ep_h` is the address of such an object in the worker's store `eps`. -/
structure ucp_ep where
  dest_uuid : Nat := 0
  dest_rma_pds : Nat := 0
  dest_amo_pds : Nat := 0
  cfg_index : Nat := 0
  flags : Nat := 0
  am_lane : Nat := 0
  uct_eps : Nat → uct_ep_t := fun _ => {}

/-- The flag `UCP_EP_FLAG_LOCAL_CONNECTED` of `ucp_ep_t.flags` (declared in the endpoint
header). -/
def UCP_EP_FLAG_LOCAL_CONNECTED : Nat := UCS_BIT 0

/-- The structure `ucp_ep_config_t`. The two thresholds that the source assigns from a
`double` are optional: `none` is the indeterminate result of converting a value that the
integer type cannot represent. `sync_zcopy_thresh` is a signed integer, the spec giving
its default `-1` as a sentinel. -/
structure ucp_ep_config_t where
  key : ucp_ep_config_key_t
  rma_lanes : Nat → Nat := fun _ => 0
  amo_lanes : Nat → Nat := fun _ => 0
  zcopy_thresh : Option Nat := some 0
  sync_zcopy_thresh : Option Int := some 0
  bcopy_thresh : Nat := 0
  rndv_thresh : Nat := 0
  sync_rndv_thresh : Nat := 0
  max_eager_short : Nat := 0
  max_am_short : Nat := 0
  max_am_bcopy : Nat := 0
  max_am_zcopy : Nat := 0
  max_put_zcopy : Nat := 0
  max_get_zcopy : Nat := 0
  max_put_short : Nat := 0
  max_put_bcopy : Nat := 0
  max_get_bcopy : Nat := 0

/-- The opcode of a rendezvous RTS header. -/
inductive ucp_rndv_rts_opcode_t where
  | UCP_RNDV_RTS_TAG_OK
  | UCP_RNDV_RTS_TAG_CANCELED
  | UCP_RNDV_RTS_AM
  deriving DecidableEq, Repr

open ucp_rndv_rts_opcode_t

/-- The structure `ucp_rndv_rts_hdr_t`: opcode, size, the sender request
`sreq = (ep_id, req_id)` and the tag of the tag sub-header
(`ucp_tag_hdr_from_rts(hdr)->tag`). -/
structure ucp_rndv_rts_hdr_t where
  opcode : ucp_rndv_rts_opcode_t := UCP_RNDV_RTS_TAG_OK
  size : Nat := 0
  sreq_ep_id : Nat := 0
  sreq_req_id : Nat := 0
  tag : Nat := 0
  deriving DecidableEq, Repr

/-- The structure `ucp_recv_desc_t` of an unexpected message with the header stored
after it (`rdesc + 1`), read as an RTS header. -/
structure ucp_recv_desc_t where
  flags : Nat := 0
  length : Nat := 0
  rts_hdr : ucp_rndv_rts_hdr_t := {}
  deriving DecidableEq, Repr

/-- The flag `UCP_RECV_DESC_FLAG_RNDV` of a receive descriptor (declared in the request
header). -/
def UCP_RECV_DESC_FLAG_RNDV : Nat := UCS_BIT 6

/-- The structure `ucp_worker`. The part used by `ucp_ep.c`:
* `ep_hash`: modelled from the spec, which describes the hashed container as the
  relation `(uuid → ep)`: the entries, newest first, each the key it is stored under
  and the address of the endpoint.
* `eps`: the live endpoint objects by address.
* `ep_config`, `ep_config_count`: the table of interned configurations.

And the part used by `tag_rndv.c`, modelled from the spec.
* `tm_expected`: the expected queue of the tag-match structure, the posted receives,
  oldest first.
* `tm_unexp`: the unexpected descriptors, oldest first; `tm_unexp_hash` is the hash that
  assigns a tag to its bucket (the "per-tag hash bucket").
* `stats_rndv_exp`: the statistics counter `EXP`.
* `ep_ids`: the endpoint that an endpoint id resolves to, if any. -/
structure ucp_worker where
  context : ucp_context := {}
  iface_attrs : Nat → uct_iface_attr_t := fun _ => {}
  ep_hash : List (Nat × Nat) := []
  eps : Nat → Option ucp_ep := fun _ => none
  ep_config : Nat → ucp_ep_config_t :=
    fun _ => { key := { lanes := fun _ => 0, num_lanes := 0, am_lane := 0,
                        rma_lanes_map := 0, amo_lanes_map := 0, wireup_msg_lane := 0 } }
  ep_config_count : Nat := 0
  tm_expected : List ucp_request_t := []
  tm_unexp : List ucp_recv_desc_t := []
  tm_unexp_hash : Nat → Nat := fun tag => tag % 1021
  stats_rndv_exp : Nat := 0
  ep_ids : Nat → Option Nat := fun _ => none

/-- Modelled from the spec: the bit-scan helper `ucs_ffs64` (declared in the bit-operations
header), which the spec describes as scanning a bitmap "in ascending bit order": the
index of the lowest set bit, looked for among `todo` positions starting at `i`. -/
def ucs_ffs64_loop : Nat → Nat → Nat → Nat
  | 0, _, i => i
  | todo + 1, n, i => if n % 2 = 1 then i else ucs_ffs64_loop todo (n / 2) (i + 1)

/-- Modelled from the spec: `ucs_ffs64(n)`, the index of the lowest set bit of a 64-bit
word. -/
def ucs_ffs64 (n : Nat) : Nat := ucs_ffs64_loop 64 n 0

/-- The locals `rma_lanes`, `amo_lanes`, `num_rma_lanes`, `num_amo_lanes` of the first
loop of `ucp_ep_config_init`. -/
structure ucp_lane_scan_t where
  rma_lanes : Nat → Nat
  amo_lanes : Nat → Nat
  num_rma_lanes : Nat
  num_amo_lanes : Nat

/-- The loop `for (lane = ...; lane < config->key.num_lanes; ++lane)` of
`ucp_ep_config_init`, with `todo` iterations left starting at index `lane`. -/
def ucp_ep_config_init_lanes_loop (key : ucp_ep_config_key_t) :
    Nat → Nat → ucp_lane_scan_t → ucp_lane_scan_t
  | 0, _, s => s
  | todo + 1, lane, s =>
    let s1 : ucp_lane_scan_t :=
      if key.rma_lanes_map &&& UCS_BIT lane ≠ 0 then
        { s with rma_lanes := Function.update s.rma_lanes s.num_rma_lanes lane,
                 num_rma_lanes := s.num_rma_lanes + 1 }
      else s
    let s2 : ucp_lane_scan_t :=
      if key.amo_lanes_map &&& UCS_BIT lane ≠ 0 then
        { s1 with amo_lanes := Function.update s1.amo_lanes s1.num_amo_lanes lane,
                  num_amo_lanes := s1.num_amo_lanes + 1 }
      else s1
    ucp_ep_config_init_lanes_loop key todo (lane + 1) s2

/-- The first loop of `ucp_ep_config_init`, started with both counters at 0 on the
arrays found in `config`. -/
def ucp_ep_config_init_lanes (config : ucp_ep_config_t) : ucp_lane_scan_t :=
  ucp_ep_config_init_lanes_loop config.key config.key.num_lanes 0
    { rma_lanes := config.rma_lanes, amo_lanes := config.amo_lanes,
      num_rma_lanes := 0, num_amo_lanes := 0 }

/-- The denominator computed in the "auto" branch of `ucp_ep_config_init`:
`(1.0 / bcopy_bw) - (1.0 / bandwidth) - growth`, each operation in `double`. -/
def ucp_ep_config_init_auto_denom (bcopy_bw bandwidth growth : cdouble) : cdouble :=
  cdouble.sub
    (cdouble.sub (cdouble.div (cdouble.fin 1) bcopy_bw) (cdouble.div (cdouble.fin 1) bandwidth))
    growth

/-- The value `zcopy_thresh` computed in the "auto" branch of `ucp_ep_config_init`:
`overhead / ((1.0 / bcopy_bw) - (1.0 / bandwidth) - growth)`. -/
def ucp_ep_config_init_auto_thresh (bcopy_bw bandwidth overhead growth : cdouble) : cdouble :=
  cdouble.div overhead (ucp_ep_config_init_auto_denom bcopy_bw bandwidth growth)

/-- Conversion `size_t → ssize_t` of a configured threshold (two's complement). -/
def size_to_ssize (v : Nat) : Int :=
  if v % 2 ^ 64 < 2 ^ 63 then Int.ofNat (v % 2 ^ 64) else Int.ofNat (v % 2 ^ 64) - 2 ^ 64

/-- The block "Configuration for active messages" of `ucp_ep_config_init`, applied to a
configuration whose default thresholds have been set. -/
def ucp_ep_config_init_am (worker : ucp_worker) (config : ucp_ep_config_t) :
    ucp_ep_config_t :=
  let context := worker.context
  if config.key.am_lane ≠ UCP_NULL_LANE then
    let lane := config.key.am_lane
    let rsc_index := config.key.lanes lane
    if rsc_index ≠ UCP_NULL_RESOURCE then
      let iface_attr := worker.iface_attrs rsc_index
      let pd_attr := context.pd_attrs (context.tl_rscs_pd_index rsc_index)
      let c1 : ucp_ep_config_t :=
        if iface_attr.cap_flags &&& UCT_IFACE_FLAG_AM_SHORT ≠ 0 then
          { config with
            max_eager_short :=
              (iface_attr.cap_am_max_short + 2 ^ 64 - sizeof_ucp_eager_hdr_t) % 2 ^ 64,
            max_am_short :=
              (iface_attr.cap_am_max_short + 2 ^ 64 - sizeof_uint64_t) % 2 ^ 64 }
        else config
      let c2 : ucp_ep_config_t :=
        if iface_attr.cap_flags &&& UCT_IFACE_FLAG_AM_BCOPY ≠ 0 then
          { c1 with max_am_bcopy := iface_attr.cap_am_max_bcopy }
        else c1
      if iface_attr.cap_flags &&& UCT_IFACE_FLAG_AM_ZCOPY ≠ 0 ∧
         pd_attr.cap_flags &&& UCT_PD_FLAG_REG ≠ 0 then
        let c3 : ucp_ep_config_t :=
          { c2 with max_am_zcopy := iface_attr.cap_am_max_zcopy,
                    max_put_zcopy := iface_attr.cap_put_max_zcopy,
                    max_get_zcopy := iface_attr.cap_get_max_zcopy }
        if context.config_ext_zcopy_thresh = UCS_CONFIG_MEMUNITS_AUTO then
          let zcopy_thresh :=
            ucp_ep_config_init_auto_thresh context.config_ext_bcopy_bw iface_attr.bandwidth
              pd_attr.reg_cost_overhead pd_attr.reg_cost_growth
          if zcopy_thresh.ltZero then
            { c3 with zcopy_thresh := some SIZE_MAX, sync_zcopy_thresh := some (-1) }
          else
            { c3 with zcopy_thresh := zcopy_thresh.toSize,
                      sync_zcopy_thresh := zcopy_thresh.toSSize }
        else
          { c3 with zcopy_thresh := some context.config_ext_zcopy_thresh,
                    sync_zcopy_thresh := some (size_to_ssize context.config_ext_zcopy_thresh) }
      else c2
    else
      { config with max_am_bcopy := 256 }
  else config

/-- The loop `while (map > 0)` of `ucp_ep_config_init` ("Configuration for remote memory
access"). `map` is a `uint8_t`; every iteration clears its lowest set bit, and `todo`
bounds the number of iterations left. -/
def ucp_ep_config_init_rma_loop (worker : ucp_worker) :
    Nat → Nat → ucp_ep_config_t → ucp_ep_config_t
  | 0, _, config => config
  | todo + 1, map, config =>
    if map > 0 then
      let lane := ucs_ffs64 map
      let map1 := (map &&& (2 ^ 64 - 1 - UCS_BIT lane)) % 2 ^ 8
      let rsc_index := config.key.lanes lane
      let config1 : ucp_ep_config_t :=
        if rsc_index ≠ UCP_NULL_RESOURCE then
          let iface_attr := worker.iface_attrs rsc_index
          let c1 : ucp_ep_config_t :=
            if iface_attr.cap_flags &&& UCT_IFACE_FLAG_PUT_SHORT ≠ 0 then
              { config with max_put_short := iface_attr.cap_put_max_short }
            else config
          let c2 : ucp_ep_config_t :=
            if iface_attr.cap_flags &&& UCT_IFACE_FLAG_PUT_BCOPY ≠ 0 then
              { c1 with max_put_bcopy := iface_attr.cap_put_max_bcopy }
            else c1
          if iface_attr.cap_flags &&& UCT_IFACE_FLAG_GET_BCOPY ≠ 0 then
            { c2 with max_get_bcopy := iface_attr.cap_get_max_bcopy }
          else c2
        else
          { config with max_put_bcopy := 256 }
      ucp_ep_config_init_rma_loop worker todo map1 config1
    else config

/-- The function `ucp_ep_config_init(worker, config)`. The two `ucs_assert` lines do
not change the state. The RMA loop is given 8 iterations, the number of bits of its
`uint8_t` map. -/
def ucp_ep_config_init (worker : ucp_worker) (config : ucp_ep_config_t) : ucp_ep_config_t :=
  let context := worker.context
  let scan := ucp_ep_config_init_lanes config
  let c0 : ucp_ep_config_t :=
    { config with
      rma_lanes := scan.rma_lanes,
      amo_lanes := scan.amo_lanes,
      zcopy_thresh := some SIZE_MAX,
      sync_zcopy_thresh := some (-1),
      bcopy_thresh := context.config_ext_bcopy_thresh,
      rndv_thresh := SIZE_MAX,
      sync_rndv_thresh := SIZE_MAX }
  let c1 := ucp_ep_config_init_am worker c0
  ucp_ep_config_init_rma_loop worker 8 (c1.key.rma_lanes_map % 2 ^ 8) c1

/-- Modelled from the spec: `ucs_count_one_bits`, the "popcount" of a machine word
(declared in the bit-operations header): the number of bit positions below 64 that are
set. -/
def ucs_count_one_bits (n : Nat) : Nat :=
  ((List.range 64).filter (fun i => n.testBit i)).length

/-- The two `ucs_assert` conditions of `ucp_ep_config_init`, which compare the counters
of the first loop with the popcounts of the two maps. -/
def ucp_ep_config_init_asserts (config : ucp_ep_config_t) : Bool :=
  decide ((ucp_ep_config_init_lanes config).num_rma_lanes =
    ucs_count_one_bits config.key.rma_lanes_map) &&
  decide ((ucp_ep_config_init_lanes config).num_amo_lanes =
    ucs_count_one_bits config.key.amo_lanes_map)

/-- The body of the loop `while (map > 0)` of `ucp_ep_config_init` once `lane` is
computed: what the iteration for `lane` does to the configuration. -/
def ucp_ep_config_init_rma_step (worker : ucp_worker) (lane : Nat)
    (config : ucp_ep_config_t) : ucp_ep_config_t :=
  let rsc_index := config.key.lanes lane
  if rsc_index ≠ UCP_NULL_RESOURCE then
    let iface_attr := worker.iface_attrs rsc_index
    let c1 : ucp_ep_config_t :=
      if iface_attr.cap_flags &&& UCT_IFACE_FLAG_PUT_SHORT ≠ 0 then
        { config with max_put_short := iface_attr.cap_put_max_short }
      else config
    let c2 : ucp_ep_config_t :=
      if iface_attr.cap_flags &&& UCT_IFACE_FLAG_PUT_BCOPY ≠ 0 then
        { c1 with max_put_bcopy := iface_attr.cap_put_max_bcopy }
      else c1
    if iface_attr.cap_flags &&& UCT_IFACE_FLAG_GET_BCOPY ≠ 0 then
      { c2 with max_get_bcopy := iface_attr.cap_get_max_bcopy }
    else c2
  else
    { config with max_put_bcopy := 256 }

/-- The lanes that the loop `while (map > 0)` of `ucp_ep_config_init` visits, in the
order of its iterations, when allowed `todo` iterations from the value `map`. -/
def ucp_ep_config_init_rma_visited : Nat → Nat → List Nat
  | 0, _ => []
  | todo + 1, map =>
    if map > 0 then
      ucs_ffs64 map ::
        ucp_ep_config_init_rma_visited todo
          ((map &&& (2 ^ 64 - 1 - UCS_BIT (ucs_ffs64 map))) % 2 ^ 8)
    else []

/-- The value of `map` that the loop `while (map > 0)` of `ucp_ep_config_init` has
reached after at most `todo` iterations from the value `map`; the loop has terminated
when it is 0. -/
def ucp_ep_config_init_rma_map_after : Nat → Nat → Nat
  | 0, map => map
  | todo + 1, map =>
    if map > 0 then
      ucp_ep_config_init_rma_map_after todo
        ((map &&& (2 ^ 64 - 1 - UCS_BIT (ucs_ffs64 map))) % 2 ^ 8)
    else map

/-! ## Endpoint lifecycle and pending requests (`ucp_ep.c`) -/

/-- Calls into collaborators made by the endpoint code, in the order they happen. -/
inductive ucp_ep_event where
  | uct_ep_pending_add (uct_ep : Nat) (req : Nat)
  | req_func (req : Nat)
  | ucp_worker_progress
  | uct_ep_pending_purge (uct_ep : Nat)
  | send_cb (req : Nat) (status : ucs_status_t)
  | uct_ep_destroy (uct_ep : Nat)
  | ucp_wireup_send_request (ep : Nat)
  | ucs_free (addr : Nat)
  deriving DecidableEq, Repr

/-- Dereference of an endpoint handle. A handle that holds no endpoint is not a valid
argument of the functions below; it reads as a zeroed object. -/
def ucp_ep_deref (worker : ucp_worker) (ep : Nat) : ucp_ep :=
  (worker.eps ep).getD {}

/-- The inline accessor `ucp_ep_config(ep)`, `&worker->ep_config[ep->cfg_index]`. -/
def ucp_ep_config (worker : ucp_worker) (ep : ucp_ep) : ucp_ep_config_t :=
  worker.ep_config ep.cfg_index

/-- The inline accessor `ucp_ep_num_lanes(ep)`. -/
def ucp_ep_num_lanes (worker : ucp_worker) (ep : ucp_ep) : Nat :=
  (ucp_ep_config worker ep).key.num_lanes

/-- The inline accessor `ucp_ep_get_rsc_index(ep, lane)`. -/
def ucp_ep_get_rsc_index (worker : ucp_worker) (ep : ucp_ep) (lane : Nat) : Nat :=
  (ucp_ep_config worker ep).key.lanes lane

/-- The function `ucp_ep_is_stub`. -/
def ucp_ep_is_stub (worker : ucp_worker) (ep : Nat) : Bool :=
  decide (ucp_ep_get_rsc_index worker (ucp_ep_deref worker ep) 0 = UCP_NULL_RESOURCE)

/-- Modelled from the spec: `sglib_hashed_ucp_ep_t_add`, which enters the endpoint (the
handle `ep`, pointing to `obj`) in the relation `(uuid → ep)` under its `dest_uuid`. -/
def sglib_hashed_ucp_ep_t_add (ep_hash : List (Nat × Nat)) (ep : Nat) (obj : ucp_ep) :
    List (Nat × Nat) :=
  (obj.dest_uuid, ep) :: ep_hash

/-- Modelled from the spec: `sglib_hashed_ucp_ep_t_delete`, which removes the entry of the
endpoint (the handle `ep`, pointing to `obj`), looked for under its `dest_uuid`. -/
def sglib_hashed_ucp_ep_t_delete (ep_hash : List (Nat × Nat)) (ep : Nat) (obj : ucp_ep) :
    List (Nat × Nat) :=
  ep_hash.erase (obj.dest_uuid, ep)

/-- Modelled from the spec: `ucp_worker_ep_find`, the lookup "by `dest_uuid`": the handle
of the first endpoint stored under that uuid, if any. -/
def ucp_worker_ep_find (worker : ucp_worker) (dest_uuid : Nat) : Option Nat :=
  (worker.ep_hash.find? (fun e => e.1 == dest_uuid)).map Prod.snd

/-- The search loop of the interning function below, with `todo` table entries left
starting at `config_idx`. -/
def ucp_worker_get_ep_config_search (worker : ucp_worker) (key : ucp_ep_config_key_t) :
    Nat → Nat → Option Nat
  | 0, _ => none
  | todo + 1, config_idx =>
    if ucp_ep_config_is_equal (worker.ep_config config_idx).key key = 1 then some config_idx
    else ucp_worker_get_ep_config_search worker key todo (config_idx + 1)

/-- Modelled from the spec: `ucp_worker_get_ep_config(worker, key)`, the interning of
configuration keys ("endpoints sharing behavior share a derived configuration", equality of
keys being "the sole criterion"): the index of the first table entry whose key is equal, or
a new zeroed entry holding `key`, initialised by `ucp_ep_config_init`. -/
def ucp_worker_get_ep_config (worker : ucp_worker) (key : ucp_ep_config_key_t) :
    ucp_worker × Nat :=
  match ucp_worker_get_ep_config_search worker key worker.ep_config_count 0 with
  | some config_idx => (worker, config_idx)
  | none =>
    let config_idx := worker.ep_config_count
    let worker1 := { worker with ep_config_count := worker.ep_config_count + 1 }
    let config := ucp_ep_config_init worker1 { key := key }
    ({ worker1 with ep_config := Function.update worker1.ep_config config_idx config },
     config_idx)

/-- The function `ucp_ep_new`. `alloc` is the outcome of `ucs_calloc`: `none` for `NULL`,
or the address of the zeroed object. Returns the status, the worker and the handle
written to `*ep_p` (meaningful when the status is `UCS_OK`). -/
def ucp_ep_new (worker : ucp_worker) (dest_uuid : Nat) (alloc : Option Nat) :
    ucs_status_t × ucp_worker × Nat :=
  match alloc with
  | none => (UCS_ERR_NO_MEMORY, worker, 0)
  | some ep =>
    let obj : ucp_ep :=
      { dest_uuid := dest_uuid, dest_rma_pds := 0, dest_amo_pds := 0,
        cfg_index := 0, flags := 0 }
    (UCS_OK,
     { worker with eps := Function.update worker.eps ep (some obj),
                   ep_hash := sglib_hashed_ucp_ep_t_add worker.ep_hash ep obj },
     ep)

/-- The function `ucp_ep_delete`: removes the endpoint from the hash and frees it.
Returns the worker and the events. -/
def ucp_ep_delete (worker : ucp_worker) (ep : Nat) : ucp_worker × List ucp_ep_event :=
  ({ worker with
     ep_hash := sglib_hashed_ucp_ep_t_delete worker.ep_hash ep (ucp_ep_deref worker ep),
     eps := Function.update worker.eps ep none },
   [ucp_ep_event.ucs_free ep])

/-- What the wireup layer (outside the translated files) leaves in an endpoint: the
status of `ucp_wireup_init_lanes` and the lanes, configuration index, AM lane and
flags it has set. It does not touch `dest_uuid` or the worker's hash. -/
structure ucp_wireup_result_t where
  status : ucs_status_t := UCS_OK
  uct_eps : Nat → uct_ep_t := fun _ => {}
  cfg_index : Nat := 0
  am_lane : Nat := 0
  flags : Nat := 0

/-- The function `ucp_ep_create_connected`. `alloc` is the outcome of `ucs_calloc` and
`wireup` that of `ucp_wireup_init_lanes` on the new endpoint. Returns the status, the
worker, the handle written to `*ep_p` (when the status is `UCS_OK`) and the events. -/
def ucp_ep_create_connected (worker : ucp_worker) (dest_uuid : Nat) (alloc : Option Nat)
    (wireup : ucp_ep → ucp_wireup_result_t) :
    ucs_status_t × ucp_worker × Nat × List ucp_ep_event :=
  let new := ucp_ep_new worker dest_uuid alloc
  if new.1 ≠ UCS_OK then (new.1, new.2.1, 0, [])
  else
    let worker1 := new.2.1
    let ep := new.2.2
    let obj := ucp_ep_deref worker1 ep
    let r := wireup obj
    let obj1 : ucp_ep :=
      { obj with uct_eps := r.uct_eps, cfg_index := r.cfg_index, am_lane := r.am_lane,
                 flags := r.flags }
    let worker2 := { worker1 with eps := Function.update worker1.eps ep (some obj1) }
    if r.status ≠ UCS_OK then
      let d := ucp_ep_delete worker2 ep
      (r.status, d.1, 0, d.2)
    else (UCS_OK, worker2, ep, [])

/-- The function `ucp_ep_pending_req_release`, the purge callback: completes the request
with `UCS_ERR_CANCELED` through its send callback and returns `UCS_OK`. -/
def ucp_ep_pending_req_release (req : ucp_request_t) : ucs_status_t × List ucp_ep_event :=
  (UCS_OK, [ucp_ep_event.send_cb req.id UCS_ERR_CANCELED])

/-- Modelled from the spec: the lane operation `pending_purge(cb)`, which hands every
pending request, oldest first, to the callback and leaves the queue empty. -/
def uct_ep_pending_purge (uct_ep : uct_ep_t)
    (cb : ucp_request_t → ucs_status_t × List ucp_ep_event) :
    uct_ep_t × List ucp_ep_event :=
  ({ uct_ep with pending := [] },
   ucp_ep_event.uct_ep_pending_purge uct_ep.id ::
     (uct_ep.pending.map (fun req => (cb req).2)).flatten)

/-- The loop of `ucp_ep_destory_uct_eps`, with `todo` lanes left starting at `lane`, on
the array of lane handles and the events so far. -/
def ucp_ep_destory_uct_eps_loop :
    Nat → Nat → (Nat → uct_ep_t) × List ucp_ep_event → (Nat → uct_ep_t) × List ucp_ep_event
  | 0, _, st => st
  | todo + 1, lane, (uct_eps, trace) =>
    let uct_ep := uct_eps lane
    let purged := uct_ep_pending_purge uct_ep ucp_ep_pending_req_release
    ucp_ep_destory_uct_eps_loop todo (lane + 1)
      (Function.update uct_eps lane purged.1,
       trace ++ purged.2 ++ [ucp_ep_event.uct_ep_destroy uct_ep.id])

/-- The function `ucp_ep_destory_uct_eps`: the lane handles as the purges leave them and
the events. -/
def ucp_ep_destory_uct_eps (worker : ucp_worker) (ep : ucp_ep) :
    (Nat → uct_ep_t) × List ucp_ep_event :=
  ucp_ep_destory_uct_eps_loop (ucp_ep_num_lanes worker ep) 0 (ep.uct_eps, [])

/-- The function `ucp_ep_destroy`: the worker afterwards, the lane handles as the purges
left them (before their destruction) and the events. -/
def ucp_ep_destroy (worker : ucp_worker) (ep : Nat) :
    ucp_worker × (Nat → uct_ep_t) × List ucp_ep_event :=
  let obj := ucp_ep_deref worker ep
  let worker1 :=
    { worker with ep_hash := sglib_hashed_ucp_ep_t_delete worker.ep_hash ep obj }
  let r := ucp_ep_destory_uct_eps worker1 obj
  ({ worker1 with eps := Function.update worker1.eps ep none },
   r.1, r.2 ++ [ucp_ep_event.ucs_free ep])

/-- The function `ucp_ep_create_stub`. `alloc` is the outcome of `ucs_calloc`, `garbage`
the content of the uninitialised local `key.lanes`, and `stub` the outcome of
`ucp_stub_ep_create`: its status and what it leaves in `ep->uct_eps[0]`. Returns the
status, the worker, the handle written to `*ep_p` (when the status is `UCS_OK`) and
the events. -/
def ucp_ep_create_stub (worker : ucp_worker) (dest_uuid : Nat) (alloc : Option Nat)
    (garbage : Nat → Nat) (stub : ucs_status_t × uct_ep_t) :
    ucs_status_t × ucp_worker × Nat × List ucp_ep_event :=
  let new := ucp_ep_new worker dest_uuid alloc
  if new.1 ≠ UCS_OK then (new.1, new.2.1, 0, [])
  else
    let worker1 := new.2.1
    let ep := new.2.2
    let key : ucp_ep_config_key_t :=
      { am_lane := 0, rma_lanes_map := 1, amo_lanes_map := 1, wireup_msg_lane := 0,
        lanes := Function.update garbage 0 UCP_NULL_RESOURCE, num_lanes := 1 }
    let interned := ucp_worker_get_ep_config worker1 key
    let worker2 := interned.1
    let obj := ucp_ep_deref worker2 ep
    let obj1 : ucp_ep :=
      { obj with cfg_index := interned.2, am_lane := 0,
                 uct_eps := Function.update obj.uct_eps 0 stub.2 }
    let worker3 := { worker2 with eps := Function.update worker2.eps ep (some obj1) }
    if stub.1 ≠ UCS_OK then
      let d := ucp_ep_delete worker3 ep
      (stub.1, d.1, 0, ucp_ep_event.uct_ep_destroy (obj1.uct_eps 0).id :: d.2)
    else (UCS_OK, worker3, ep, [])

/-- The function `ucp_ep_create`. `unpack` is the outcome of `ucp_address_unpack` (its
status and the `dest_uuid` it decodes), `alloc` that of `ucs_calloc`, `wireup` that of
`ucp_wireup_init_lanes` and `send_request` the status of `ucp_wireup_send_request`.
Returns the status, the worker, the handle written to `*ep_p` (if any) and the
events; the release of the unpacked address list at the end is not among them. -/
def ucp_ep_create (worker : ucp_worker) (unpack : ucs_status_t × Nat) (alloc : Option Nat)
    (wireup : ucp_ep → ucp_wireup_result_t) (send_request : ucs_status_t) :
    ucs_status_t × ucp_worker × Option Nat × List ucp_ep_event :=
  if unpack.1 ≠ UCS_OK then (unpack.1, worker, none, [])
  else
    let dest_uuid := unpack.2
    match ucp_worker_ep_find worker dest_uuid with
    | some ep => (UCS_OK, worker, some ep, [])
    | none =>
      let c := ucp_ep_create_connected worker dest_uuid alloc wireup
      if c.1 ≠ UCS_OK then (c.1, c.2.1, none, c.2.2.2)
      else
        let worker1 := c.2.1
        let ep := c.2.2.1
        if (ucp_ep_deref worker1 ep).flags &&& UCP_EP_FLAG_LOCAL_CONNECTED = 0 then
          if send_request ≠ UCS_OK then
            let d := ucp_ep_destroy worker1 ep
            (send_request, d.1, none,
             c.2.2.2 ++ ucp_ep_event.ucp_wireup_send_request ep :: d.2.2)
          else
            (UCS_OK, worker1, some ep,
             c.2.2.2 ++ [ucp_ep_event.ucp_wireup_send_request ep])
        else (UCS_OK, worker1, some ep, c.2.2.2)

/-- The function `ucp_ep_add_pending_uct`. `add_status` is what the lane's
`uct_ep_pending_add` returns and `func_status` what the request's progress function
returns if it is invoked. `none` when the assertion `req->func != NULL` fails. -/
def ucp_ep_add_pending_uct (uct_ep : uct_ep_t) (req : uct_pending_req_t)
    (add_status func_status : ucs_status_t) : Option (ucs_status_t × List ucp_ep_event) :=
  if req.func = none then none
  else
    let status := add_status
    if status ≠ UCS_ERR_BUSY then
      some (UCS_OK, [ucp_ep_event.uct_ep_pending_add uct_ep.id req.req])
    else
      let status := func_status
      if status = UCS_OK then
        some (UCS_OK, [ucp_ep_event.uct_ep_pending_add uct_ep.id req.req,
                       ucp_ep_event.req_func req.req])
      else
        some (UCS_ERR_NO_PROGRESS, [ucp_ep_event.uct_ep_pending_add uct_ep.id req.req,
                                    ucp_ep_event.req_func req.req])

/-- How a run of the loop of `ucp_ep_add_pending` ends within a given number of
iterations: it has exited (with the request as it was left and the events), it is
still running, or an attempt hit the assertion `req->func != NULL`. -/
inductive ucp_add_pending_run_t where
  | exited (req : ucp_request_t) (trace : List ucp_ep_event)
  | running
  | assert_failed
  deriving DecidableEq, Repr

/-- The loop `while (status != UCS_OK)` of `ucp_ep_add_pending`, allowed `todo` more
iterations. `attempt` numbers the next call of `ucp_ep_add_pending_uct` and `outcomes`
gives, for each attempt, what the lane's `uct_ep_pending_add` returns and what the
progress function returns if invoked. -/
def ucp_ep_add_pending_loop (uct_ep : uct_ep_t) (req : ucp_request_t) (progress : Int)
    (outcomes : Nat → ucs_status_t × ucs_status_t) :
    Nat → Nat → ucs_status_t → List ucp_ep_event → ucp_add_pending_run_t
  | 0, _, status, trace =>
    if status ≠ UCS_OK then ucp_add_pending_run_t.running
    else ucp_add_pending_run_t.exited req trace
  | todo + 1, attempt, status, trace =>
    if status ≠ UCS_OK then
      let trace1 :=
        if progress ≠ 0 then trace ++ [ucp_ep_event.ucp_worker_progress] else trace
      match ucp_ep_add_pending_uct uct_ep req.send_uct (outcomes attempt).1
          (outcomes attempt).2 with
      | none => ucp_add_pending_run_t.assert_failed
      | some r =>
        ucp_ep_add_pending_loop uct_ep req progress outcomes todo (attempt + 1) r.1
          (trace1 ++ r.2)
    else ucp_add_pending_run_t.exited req trace

/-- The function `ucp_ep_add_pending(ep, uct_ep, req, progress)`, its loop allowed `todo`
iterations: attempt 0 is the call before the loop, attempt `k` the call of the `k`-th
iteration. -/
def ucp_ep_add_pending (ep : Nat) (uct_ep : uct_ep_t) (req : ucp_request_t) (progress : Int)
    (outcomes : Nat → ucs_status_t × ucs_status_t) (todo : Nat) : ucp_add_pending_run_t :=
  let req1 : ucp_request_t := { req with send_ep := ep }
  match ucp_ep_add_pending_uct uct_ep req1.send_uct (outcomes 0).1 (outcomes 0).2 with
  | none => ucp_add_pending_run_t.assert_failed
  | some r => ucp_ep_add_pending_loop uct_ep req1 progress outcomes todo 1 r.1 r.2

/-! ## Tag rendezvous (`tag_rndv.c`) -/

/-- Calls into collaborators made by the rendezvous code, in the order they happen.
`ucp_proto_rndv_receive_start` and `ucp_rndv_receive` are the two ways of starting the
rendezvous receive; they are recorded with the receive request as it is passed, the RTS
header and (for the former) the header length from which the length of the packed key
is computed. `send_ats` is the call of `ucp_rndv_req_send_ack` with `UCP_AM_ID_RNDV_ATS`
on the endpoint, for the sender request id and with the status. -/
inductive ucp_rndv_event where
  | ucp_tag_offload_try_cancel (rreq : ucp_request_t)
  | ucp_proto_rndv_receive_start (rreq : ucp_request_t) (rts_hdr : ucp_rndv_rts_hdr_t)
      (hdr_length : Nat)
  | ucp_rndv_receive (rreq : ucp_request_t) (rts_hdr : ucp_rndv_rts_hdr_t)
  | send_ats (ep : Nat) (req_id : Nat) (status : ucs_status_t)
  | ucp_recv_desc_release (rdesc : ucp_recv_desc_t)
  deriving DecidableEq, Repr

/-- The inline accessor `ucp_rdesc_get_tag`. -/
def ucp_rdesc_get_tag (rdesc : ucp_recv_desc_t) : Nat := rdesc.rts_hdr.tag

/-- Modelled from the spec: `ucp_worker_get_ep_by_id`, behind the macro
`UCP_WORKER_GET_EP_BY_ID`: the endpoint that the id resolves to, or `none` when it is
"unresolved". -/
def ucp_worker_get_ep_by_id (worker : ucp_worker) (ep_id : Nat) : Option Nat :=
  worker.ep_ids ep_id

/-- The scan of the expected queue by the search below: the position, counted from
`i`, of the first posted receive for the tag. -/
def ucp_tag_exp_search_loop : List ucp_request_t → Nat → Nat → Option Nat
  | [], _, _ => none
  | rreq :: rest, tag, i =>
    if rreq.recv_tag = tag then some i else ucp_tag_exp_search_loop rest tag (i + 1)

/-- Modelled from the spec: `ucp_tag_exp_search`, given as `exp_search(tag) → receive or
none`: the position in the expected queue of the first posted receive for the tag. What
a match does to the queue itself is outside the translated files and the spec and is
not modelled. -/
def ucp_tag_exp_search (worker : ucp_worker) (tag : Nat) : Option Nat :=
  ucp_tag_exp_search_loop worker.tm_expected tag 0

/-- Modelled from the spec: `ucp_tag_unexp_get_list_for_tag`, the "per-tag hash bucket" of
the unexpected descriptors: those whose tag falls in the bucket of `tag`. -/
def ucp_tag_unexp_get_list_for_tag (worker : ucp_worker) (tag : Nat) : List ucp_recv_desc_t :=
  worker.tm_unexp.filter
    (fun rdesc => worker.tm_unexp_hash (ucp_rdesc_get_tag rdesc) == worker.tm_unexp_hash tag)

/-- Modelled from the spec: `ucp_tag_unexp_recv`, which links the descriptor into the
tag-match structure (at the tail). -/
def ucp_tag_unexp_recv (worker : ucp_worker) (rdesc : ucp_recv_desc_t) : ucp_worker :=
  { worker with tm_unexp := worker.tm_unexp ++ [rdesc] }

/-- Modelled from the spec: `ucp_tag_unexp_remove`, which unlinks the descriptor. -/
def ucp_tag_unexp_remove (worker : ucp_worker) (rdesc : ucp_recv_desc_t) : ucp_worker :=
  { worker with tm_unexp := worker.tm_unexp.erase rdesc }

/-- Modelled from the spec: `ucp_recv_desc_init`, which allocates "an unexpected receive
descriptor copying the RTS header" with the given flags, or fails. `status` is the
status it returns (`UCS_ERR_NO_MEMORY` when the allocation fails); a descriptor is
produced unless the status is an error. -/
def ucp_recv_desc_init (status : ucs_status_t) (rts_hdr : ucp_rndv_rts_hdr_t)
    (length _tl_flags rdesc_flags : Nat) : ucs_status_t × Option ucp_recv_desc_t :=
  if UCS_STATUS_IS_ERR status then (status, none)
  else (status, some { flags := rdesc_flags, length := length, rts_hdr := rts_hdr })

/-- The function `ucp_tag_rndv_matched`: the receive request with `sender_tag` and
`length` set, and the call that starts the rendezvous receive. The assertion on the
opcode does not change the state. -/
def ucp_tag_rndv_matched (worker : ucp_worker) (rreq : ucp_request_t)
    (rts_hdr : ucp_rndv_rts_hdr_t) (hdr_length : Nat) : ucp_request_t × List ucp_rndv_event :=
  let rreq1 : ucp_request_t :=
    { rreq with recv_tag_info_sender_tag := rts_hdr.tag, recv_tag_info_length := rts_hdr.size }
  if worker.context.config_ext_proto_enable then
    (rreq1, [ucp_rndv_event.ucp_proto_rndv_receive_start rreq1 rts_hdr hdr_length])
  else (rreq1, [ucp_rndv_event.ucp_rndv_receive rreq1 rts_hdr])

/-- The function `ucp_rndv_send_cancel_ack`. `req_alloc` is the outcome of
`ucp_request_get`: `none` for `NULL`. -/
def ucp_rndv_send_cancel_ack (worker : ucp_worker) (rndv_rts_hdr : ucp_rndv_rts_hdr_t)
    (req_alloc : Option Nat) : List ucp_rndv_event :=
  match ucp_worker_get_ep_by_id worker rndv_rts_hdr.sreq_ep_id with
  | none => []
  | some ep =>
    match req_alloc with
    | none => []
    | some _ => [ucp_rndv_event.send_ats ep rndv_rts_hdr.sreq_req_id UCS_ERR_CANCELED]

/-- The condition tested on each descriptor by the loop of `ucp_rndv_unexp_cancel`. -/
def ucp_rndv_unexp_cancel_match (rndv_rts_hdr : ucp_rndv_rts_hdr_t) (rdesc : ucp_recv_desc_t) :
    Bool :=
  (rdesc.flags &&& UCP_RECV_DESC_FLAG_RNDV != 0) &&
  (ucp_rdesc_get_tag rdesc == rndv_rts_hdr.tag) &&
  (rdesc.rts_hdr.sreq_ep_id == rndv_rts_hdr.sreq_ep_id) &&
  (rdesc.rts_hdr.sreq_req_id == rndv_rts_hdr.sreq_req_id)

/-- The function `ucp_rndv_unexp_cancel`: the first descriptor of the tag's list that
meets the condition is removed, acknowledged and released. -/
def ucp_rndv_unexp_cancel (worker : ucp_worker) (rndv_rts_hdr : ucp_rndv_rts_hdr_t)
    (req_alloc : Option Nat) : ucp_worker × List ucp_rndv_event :=
  let list := ucp_tag_unexp_get_list_for_tag worker rndv_rts_hdr.tag
  match list.find? (ucp_rndv_unexp_cancel_match rndv_rts_hdr) with
  | some rdesc =>
    (ucp_tag_unexp_remove worker rdesc,
     ucp_rndv_send_cancel_ack worker rndv_rts_hdr req_alloc ++
       [ucp_rndv_event.ucp_recv_desc_release rdesc])
  | none => (worker, [])

/-- The function `ucp_tag_rndv_process_rts`. `desc_status` is the status that
`ucp_recv_desc_init` returns if it is called and `req_alloc` the outcome of
`ucp_request_get` if it is called. The assertions do not change the state. Returns the
status, the worker and the events. -/
def ucp_tag_rndv_process_rts (worker : ucp_worker) (rts_hdr : ucp_rndv_rts_hdr_t)
    (length tl_flags : Nat) (desc_status : ucs_status_t) (req_alloc : Option Nat) :
    ucs_status_t × ucp_worker × List ucp_rndv_event :=
  if rts_hdr.opcode = UCP_RNDV_RTS_TAG_CANCELED then
    let r := ucp_rndv_unexp_cancel worker rts_hdr req_alloc
    (UCS_OK, r.1, r.2)
  else
    match ucp_tag_exp_search worker rts_hdr.tag with
    | some i =>
      let rreq := worker.tm_expected.getD i {}
      let m := ucp_tag_rndv_matched worker rreq rts_hdr length
      (UCS_OK,
       { worker with tm_expected := worker.tm_expected.set i m.1,
                     stats_rndv_exp := worker.stats_rndv_exp + 1 },
       ucp_rndv_event.ucp_tag_offload_try_cancel rreq :: m.2)
    | none =>
      match ucp_worker_get_ep_by_id worker rts_hdr.sreq_ep_id with
      | none => (UCS_OK, worker, [])
      | some _ =>
        let init := ucp_recv_desc_init desc_status rts_hdr length tl_flags
          UCP_RECV_DESC_FLAG_RNDV
        if UCS_STATUS_IS_ERR init.1 = false then
          (init.1, ucp_tag_unexp_recv worker (init.2.getD {}), [])
        else (init.1, worker, [])

/-! ## SysV shared-memory mapper (`mm_sysv.c`) -/

/-- The enumeration `ucs_ternary_value_t` of the hugetlb mode: off, required, try. -/
inductive ucs_ternary_value_t where
  | UCS_NO
  | UCS_YES
  | UCS_TRY
  deriving DecidableEq, Repr

open ucs_ternary_value_t

/-- The structure `uct_mm_seg_t`: segment id (a 64-bit `uct_mm_seg_id_t`), address and
length. -/
structure uct_mm_seg_t where
  seg_id : Nat := 0
  address : Nat := 0
  length : Nat := 0
  deriving DecidableEq, Repr

/-- The macro `UCT_MM_SYSV_PERM`, `S_IRUSR | S_IWUSR | S_IRGRP | S_IWGRP` (octal 0660). -/
def UCT_MM_SYSV_PERM : Nat := 256 ||| 128 ||| 32 ||| 16

/-- The macro `UCT_MM_SYSV_MSTR`, `UCT_MM_SYSV_PERM | IPC_CREAT | IPC_EXCL`. -/
def UCT_MM_SYSV_MSTR : Nat := UCT_MM_SYSV_PERM ||| 512 ||| 1024

/-- The system constant `SHM_HUGETLB` (octal 04000). -/
def SHM_HUGETLB : Nat := 2048

/-- The flag `UCT_MD_MEM_FLAG_FIXED` (declared in the UCT API header). -/
def UCT_MD_MEM_FLAG_FIXED : Nat := UCS_BIT 1

/-- What a call of `ucs_sysv_alloc` leaves: its status and the values of `*size`,
`*address_p` and `*shmid` after the call. -/
structure ucs_sysv_alloc_result_t where
  status : ucs_status_t := UCS_OK
  size : Nat := 0
  address : Nat := 0
  shmid : Int := 0
  deriving DecidableEq, Repr

/-- An attempt made by `uct_sysv_mem_alloc`: the arguments `*size`, `max_size`,
`*address_p` and `flags` passed to `ucs_sysv_alloc`, and what the call left. -/
structure ucs_sysv_attempt_t where
  size : Nat
  max_size : Nat
  address : Nat
  flags : Nat
  result : ucs_sysv_alloc_result_t
  deriving DecidableEq, Repr

/-- Conversion of an `int` to the 64-bit unsigned segment id. -/
def int_to_seg_id (shmid : Int) : Nat := Int.toNat (shmid % 2 ^ 64)

/-- The second block of `uct_sysv_mem_alloc`, from `if (hugetlb_mode != UCS_YES)` to the
final `return status`: `status` is the local variable as the first block left it and
`attempts` the attempts made so far. -/
def uct_sysv_mem_alloc_plain (hugetlb_mode : ucs_ternary_value_t)
    (ucs_sysv_alloc : Nat → Nat → Nat → Nat → ucs_sysv_alloc_result_t)
    (seg : uct_mm_seg_t) (status : ucs_status_t) (attempts : List ucs_sysv_attempt_t) :
    ucs_status_t × uct_mm_seg_t × List ucs_sysv_attempt_t :=
  if hugetlb_mode ≠ UCS_YES then
    let r := ucs_sysv_alloc seg.length SIZE_MAX seg.address UCT_MM_SYSV_MSTR
    let attempt : ucs_sysv_attempt_t :=
      { size := seg.length, max_size := SIZE_MAX, address := seg.address,
        flags := UCT_MM_SYSV_MSTR, result := r }
    let seg1 : uct_mm_seg_t := { seg with length := r.size, address := r.address }
    if r.status = UCS_OK then
      (UCS_OK, { seg1 with seg_id := int_to_seg_id r.shmid }, attempts ++ [attempt])
    else (r.status, seg1, attempts ++ [attempt])
  else (status, seg, attempts)

/-- The function `uct_sysv_mem_alloc` in the build with `SHM_HUGETLB` defined.
`hugetlb_mode` is `md->config->hugetlb_mode` and `ucs_sysv_alloc` the allocator, an
oracle of its arguments `*size`, `max_size`, `*address_p`, `flags`. Returns the status,
the segment and the attempts made, in order. When the first block is skipped the local
`status` is not initialised; the second block then always assigns it, so the
placeholder passed for it is never returned. -/
def uct_sysv_mem_alloc (hugetlb_mode : ucs_ternary_value_t)
    (ucs_sysv_alloc : Nat → Nat → Nat → Nat → ucs_sysv_alloc_result_t)
    (seg : uct_mm_seg_t) (uct_flags : Nat) :
    ucs_status_t × uct_mm_seg_t × List ucs_sysv_attempt_t :=
  let seg0 : uct_mm_seg_t :=
    if uct_flags &&& UCT_MD_MEM_FLAG_FIXED = 0 then { seg with address := 0 } else seg
  if hugetlb_mode ≠ UCS_NO then
    let r := ucs_sysv_alloc seg0.length ((seg0.length * 2) % 2 ^ 64) seg0.address
      (UCT_MM_SYSV_MSTR ||| SHM_HUGETLB)
    let attempt : ucs_sysv_attempt_t :=
      { size := seg0.length, max_size := (seg0.length * 2) % 2 ^ 64, address := seg0.address,
        flags := UCT_MM_SYSV_MSTR ||| SHM_HUGETLB, result := r }
    let seg1 : uct_mm_seg_t := { seg0 with length := r.size, address := r.address }
    if r.status = UCS_OK then
      (UCS_OK, { seg1 with seg_id := int_to_seg_id r.shmid }, [attempt])
    else uct_sysv_mem_alloc_plain hugetlb_mode ucs_sysv_alloc seg1 r.status [attempt]
  else uct_sysv_mem_alloc_plain hugetlb_mode ucs_sysv_alloc seg0 UCS_ERR_UNSUPPORTED []

/-- Little-endian bytes of the `n`-byte object holding `v`. -/
def encode_le : Nat → Nat → List Nat
  | 0, _ => []
  | n + 1, v => (v % 256) :: encode_le n (v / 256)

/-- The value held by little-endian bytes. -/
def decode_le : List Nat → Nat
  | [] => 0
  | b :: bs => b + 256 * decode_le bs

/-- Conversion of a `uint32_t` to `int` (two's complement). -/
def uint32_to_int (v : Nat) : Int :=
  if v % 2 ^ 32 < 2 ^ 31 then Int.ofNat (v % 2 ^ 32) else Int.ofNat (v % 2 ^ 32) - 2 ^ 32

/-- The function `uct_sysv_md_mkey_pack`: the status and the bytes written to
`rkey_buffer`, the packed structure `uct_sysv_packed_rkey_t` (a `uint32_t shmid`
followed, without padding, by a `uintptr_t owner_ptr`). -/
def uct_sysv_md_mkey_pack (seg : uct_mm_seg_t) : ucs_status_t × List Nat :=
  (UCS_OK, encode_le 4 (seg.seg_id % 2 ^ 32) ++ encode_le 8 (seg.address % 2 ^ 64))

/-- The function `uct_sysv_mem_attach_common`. `shmat` is the system call, an oracle of the
segment id: `none` is `MAP_FAILED`. Returns the status and `*address_p` if written. -/
def uct_sysv_mem_attach_common (shmat : Int → Option Nat) (shmid : Int) :
    ucs_status_t × Option Nat :=
  match shmat shmid with
  | none => (UCS_ERR_SHMEM_SEGMENT, none)
  | some address => (UCS_OK, some address)

/-- The function `uct_sysv_rkey_unpack`. `uct_mm_md_make_rkey` is the helper of the
mapper base (outside the translated files) that builds the key from the local address
and the owner pointer. Returns the status and, if written, `*rkey_p` and `*handle_p`. -/
def uct_sysv_rkey_unpack (shmat : Int → Option Nat) (uct_mm_md_make_rkey : Nat → Nat → Nat)
    (rkey_buffer : List Nat) : ucs_status_t × Option (Nat × Nat) :=
  let shmid := decode_le (rkey_buffer.take 4)
  let owner_ptr := decode_le ((rkey_buffer.drop 4).take 8)
  match uct_sysv_mem_attach_common shmat (uint32_to_int shmid) with
  | (UCS_OK, some address) => (UCS_OK, some (uct_mm_md_make_rkey address owner_ptr, address))
  | (status, _) => (status, none)

/-- The segment as `uct_sysv_mem_alloc` sees it after its first statement: the address
is reset unless `UCT_MD_MEM_FLAG_FIXED` is given. -/
def sysv_start_seg (seg : uct_mm_seg_t) (uct_flags : Nat) : uct_mm_seg_t :=
  if uct_flags &&& UCT_MD_MEM_FLAG_FIXED = 0 then { seg with address := 0 } else seg

/-- The attempt with `SHM_HUGETLB` on a segment: size cap `(2 * length) mod 2^64`. -/
def sysv_huge_attempt (ucs_sysv_alloc : Nat → Nat → Nat → Nat → ucs_sysv_alloc_result_t)
    (seg : uct_mm_seg_t) : ucs_sysv_attempt_t :=
  { size := seg.length, max_size := (seg.length * 2) % 2 ^ 64, address := seg.address,
    flags := UCT_MM_SYSV_MSTR ||| SHM_HUGETLB,
    result := ucs_sysv_alloc seg.length ((seg.length * 2) % 2 ^ 64) seg.address
      (UCT_MM_SYSV_MSTR ||| SHM_HUGETLB) }

/-- The attempt without `SHM_HUGETLB` on a segment: size cap `SIZE_MAX` (no cap). -/
def sysv_plain_attempt (ucs_sysv_alloc : Nat → Nat → Nat → Nat → ucs_sysv_alloc_result_t)
    (seg : uct_mm_seg_t) : ucs_sysv_attempt_t :=
  { size := seg.length, max_size := SIZE_MAX, address := seg.address,
    flags := UCT_MM_SYSV_MSTR,
    result := ucs_sysv_alloc seg.length SIZE_MAX seg.address UCT_MM_SYSV_MSTR }

/-- The segment after an attempt: `ucs_sysv_alloc` writes `*size` and `*address_p`. -/
def sysv_seg_after (seg : uct_mm_seg_t) (a : ucs_sysv_attempt_t) : uct_mm_seg_t :=
  { seg with length := a.result.size, address := a.result.address }

/-! ## Reading event traces -/

/-- The events that `ucp_ep_destory_uct_eps` is expected to produce for one lane: the
purge, one `UCS_ERR_CANCELED` completion per pending request (oldest first), the
destruction of the lane. -/
def lane_destroy_events (uct_ep : uct_ep_t) : List ucp_ep_event :=
  ucp_ep_event.uct_ep_pending_purge uct_ep.id ::
    (uct_ep.pending.map (fun req => ucp_ep_event.send_cb req.id UCS_ERR_CANCELED) ++
      [ucp_ep_event.uct_ep_destroy uct_ep.id])

/-- The send-callback completions of a trace, in order: request and status. -/
def completions (trace : List ucp_ep_event) : List (Nat × ucs_status_t) :=
  trace.filterMap (fun e =>
    match e with
    | ucp_ep_event.send_cb req status => some (req, status)
    | _ => none)

/-- The requests pending on the first `num_lanes` lanes of an endpoint, lane by lane. -/
def ucp_ep_pending_reqs (ep : ucp_ep) (num_lanes : Nat) : List ucp_request_t :=
  ((List.range num_lanes).map (fun lane => (ep.uct_eps lane).pending)).flatten

/-- The status that `ucp_ep_add_pending_uct` returns at attempt `k` of a run of
`ucp_ep_add_pending` (`none` if the assertion on `func` fails). -/
def ucp_ep_add_pending_attempt (uct_ep : uct_ep_t) (req : ucp_request_t)
    (outcomes : Nat → ucs_status_t × ucs_status_t) (k : Nat) : Option ucs_status_t :=
  (ucp_ep_add_pending_uct uct_ep req.send_uct (outcomes k).1 (outcomes k).2).map Prod.fst

/-- The number of attempts in a trace: the calls of the lane's `uct_ep_pending_add`, one
per call of `ucp_ep_add_pending_uct`. -/
def count_attempts (trace : List ucp_ep_event) : Nat :=
  trace.countP (fun e =>
    match e with
    | ucp_ep_event.uct_ep_pending_add _ _ => true
    | _ => false)

/-- The number of calls of `ucp_worker_progress` in a trace. -/
def count_progress (trace : List ucp_ep_event) : Nat :=
  trace.count ucp_ep_event.ucp_worker_progress

/-! ## Reading lane lists and bitmaps -/

/-- The first `n` entries of an array, as a list. -/
def array_take (a : Nat → Nat) (n : Nat) : List Nat :=
  (List.range n).map a

/-- The positions below `n` of the set bits of a map, in ascending order. -/
def set_bits (map n : Nat) : List Nat :=
  (List.range n).filter (fun i => map.testBit i)

/-- The value that an RMA lane supplies for `max_put_bcopy`: 256 for a stub lane, the
interface's `cap.put.max_bcopy` when it advertises `PUT_BCOPY`, nothing otherwise. -/
def lane_put_bcopy (worker : ucp_worker) (key : ucp_ep_config_key_t) (lane : Nat) :
    Option Nat :=
  if key.lanes lane ≠ UCP_NULL_RESOURCE then
    if (worker.iface_attrs (key.lanes lane)).cap_flags &&& UCT_IFACE_FLAG_PUT_BCOPY ≠ 0 then
      some (worker.iface_attrs (key.lanes lane)).cap_put_max_bcopy
    else none
  else some 256

/-- The value that an RMA lane supplies for `max_put_short`: the interface's
`cap.put.max_short` when the lane is real and advertises `PUT_SHORT`. -/
def lane_put_short (worker : ucp_worker) (key : ucp_ep_config_key_t) (lane : Nat) :
    Option Nat :=
  if key.lanes lane ≠ UCP_NULL_RESOURCE ∧
     (worker.iface_attrs (key.lanes lane)).cap_flags &&& UCT_IFACE_FLAG_PUT_SHORT ≠ 0 then
    some (worker.iface_attrs (key.lanes lane)).cap_put_max_short
  else none

/-- The value that an RMA lane supplies for `max_get_bcopy`: the interface's
`cap.get.max_bcopy` when the lane is real and advertises `GET_BCOPY`. -/
def lane_get_bcopy (worker : ucp_worker) (key : ucp_ep_config_key_t) (lane : Nat) :
    Option Nat :=
  if key.lanes lane ≠ UCP_NULL_RESOURCE ∧
     (worker.iface_attrs (key.lanes lane)).cap_flags &&& UCT_IFACE_FLAG_GET_BCOPY ≠ 0 then
    some (worker.iface_attrs (key.lanes lane)).cap_get_max_bcopy
  else none

/-- The configuration `config` with its key replaced: the same contents for another
key. -/
def ucp_ep_config_set_key (config : ucp_ep_config_t) (key : ucp_ep_config_key_t) :
    ucp_ep_config_t :=
  { config with key := key }

/-- The configuration as `ucp_ep_config_init` has it after its first loop and the
"Default thresholds" block: the lane lists of the scan and the default thresholds. -/
def ucp_ep_config_defaults (worker : ucp_worker) (config : ucp_ep_config_t)
    (scan : ucp_lane_scan_t) : ucp_ep_config_t :=
  { config with
    rma_lanes := scan.rma_lanes,
    amo_lanes := scan.amo_lanes,
    zcopy_thresh := some SIZE_MAX,
    sync_zcopy_thresh := some (-1),
    bcopy_thresh := worker.context.config_ext_bcopy_thresh,
    rndv_thresh := SIZE_MAX,
    sync_rndv_thresh := SIZE_MAX }

/-! ## The endpoint-hash invariant -/

/-- The predicate of C6 on a worker: no two entries of `ep_hash` have the same uuid, and
every entry is a live endpoint stored under its own `dest_uuid`. -/
def ep_hash_inv (worker : ucp_worker) : Prop :=
  (worker.ep_hash.map Prod.fst).Nodup ∧
  ∀ e ∈ worker.ep_hash, (worker.eps e.2).map (fun obj => obj.dest_uuid) = some e.1

/-- The contract of `ucs_calloc`: the memory it returns is not in use. -/
def alloc_fresh (worker : ucp_worker) (alloc : Option Nat) : Prop :=
  ∀ ep, alloc = some ep → worker.eps ep = none

/-! ## Concrete inputs used by the examples -/

/-- A worker whose only transport advertises `AM_ZCOPY` with the given bandwidth on a
protection domain with `REG` and registration cost `(overhead, growth = 1e-9)`, with
the given copy bandwidth and the zero-copy threshold configured as auto. -/
def example_auto_worker (bcopy_bw bandwidth overhead : cdouble) : ucp_worker :=
  { context :=
      { config_ext_zcopy_thresh := UCS_CONFIG_MEMUNITS_AUTO,
        config_ext_bcopy_bw := bcopy_bw,
        pd_attrs := fun _ =>
          { cap_flags := UCT_PD_FLAG_REG,
            reg_cost_overhead := overhead,
            reg_cost_growth := cdouble.ofRat (1 / 1000000000) } },
    iface_attrs := fun _ =>
      { cap_flags := UCT_IFACE_FLAG_AM_ZCOPY, bandwidth := bandwidth } }

/-- A configuration with one lane on resource 0, which is also the AM lane. -/
def example_auto_config : ucp_ep_config_t :=
  { key := { lanes := fun _ => 0, num_lanes := 1, am_lane := 0, rma_lanes_map := 0,
             amo_lanes_map := 0, wireup_msg_lane := 0 } }

/-- An endpoint to uuid 5 with two lanes (handles 10 and 11), three requests pending
on each. -/
def example_ep : ucp_ep :=
  { dest_uuid := 5,
    uct_eps := fun lane =>
      if lane = 0 then { id := 10, pending := [{ id := 1 }, { id := 2 }, { id := 3 }] }
      else if lane = 1 then { id := 11, pending := [{ id := 4 }, { id := 5 }, { id := 6 }] }
      else {} }

/-- A worker holding `example_ep` at address 100, hashed under uuid 5, with a single
two-lane configuration. -/
def example_worker : ucp_worker :=
  { ep_hash := [(5, 100)],
    eps := fun ep => if ep = 100 then some example_ep else none,
    ep_config := fun _ =>
      { key := { lanes := fun _ => 0, num_lanes := 2, am_lane := 0, rma_lanes_map := 0,
                 amo_lanes_map := 0, wireup_msg_lane := 0 } },
    ep_config_count := 1 }

/-- An allocator that refuses every request with `SHM_HUGETLB` and grants the others as
segment 7 at address 4096000. -/
def example_sysv_alloc (size _max_size address flags : Nat) : ucs_sysv_alloc_result_t :=
  if flags &&& SHM_HUGETLB ≠ 0 then
    { status := UCS_ERR_NO_MEMORY, size := size, address := address, shmid := -1 }
  else { status := UCS_OK, size := size, address := 4096000, shmid := 7 }

/-- The RTS header of the spec's scenario: `{opcode=TAG_OK, size=4096, ep_id=1,
req_id=7, tag=0xDEADBEEF}`. -/
def example_rts : ucp_rndv_rts_hdr_t :=
  { opcode := UCP_RNDV_RTS_TAG_OK, size := 4096, sreq_ep_id := 1, sreq_req_id := 7,
    tag := 0xDEADBEEF }

/-- A worker with one posted receive (request 3) for tag `0xDEADBEEF`, on which endpoint
id 1 resolves to the endpoint at address 100. -/
def example_rndv_worker : ucp_worker :=
  { tm_expected := [{ id := 3, recv_tag := 0xDEADBEEF }],
    ep_ids := fun ep_id => if ep_id = 1 then some 100 else none }

/-- A worker with no posted receive, on which endpoint id 1 resolves to the endpoint at
address 100 (and no other id resolves). -/
def example_unexp_worker : ucp_worker :=
  { ep_ids := fun ep_id => if ep_id = 1 then some 100 else none }

/-- The worker `example_unexp_worker` with one unexpected rendezvous descriptor already
parked for `(tag 0xDEADBEEF, ep_id 1, req_id 7)`, of size 1. -/
def example_dup_worker : ucp_worker :=
  { example_unexp_worker with
    tm_unexp := [{ flags := UCP_RECV_DESC_FLAG_RNDV, length := 41,
                   rts_hdr := { example_rts with size := 1 } }] }

/-- Outcomes of the add-pending cycle for the example: at attempts 0 and 1 the lane
answers busy and the progress function fails, from attempt 2 on the lane takes the
request. -/
def example_outcomes (k : Nat) : ucs_status_t × ucs_status_t :=
  if k < 2 then (UCS_ERR_BUSY, UCS_ERR_NO_MEMORY) else (UCS_OK, UCS_OK)

/-- A configuration with four lanes whose RMA map selects lanes 0 and 2 and whose AMO
map selects lane 3. -/
def example_lanes_config : ucp_ep_config_t :=
  { key := { lanes := fun _ => 0, num_lanes := 4, am_lane := 0, rma_lanes_map := 5,
             amo_lanes_map := 8, wireup_msg_lane := 0 } }

/-- A worker whose transports all advertise `PUT_BCOPY`, resource 0 with
`cap.put.max_bcopy = 100` and the others with 200. -/
def example_rma_worker : ucp_worker :=
  { iface_attrs := fun rsc_index =>
      { cap_flags := UCT_IFACE_FLAG_PUT_BCOPY,
        cap_put_max_bcopy := if rsc_index = 0 then 100 else 200 } }

/-- A configuration with two RMA lanes, lane 0 on resource 0 and lane 1 on resource 1,
whose `max_put_bcopy` holds 7 beforehand. -/
def example_rma_config : ucp_ep_config_t :=
  { key := { lanes := fun lane => lane, num_lanes := 2, am_lane := 0, rma_lanes_map := 3,
             amo_lanes_map := 0, wireup_msg_lane := 0 },
    max_put_bcopy := 7 }

/-- A key equal to the key of `example_rma_config` in its scalars and in its two lanes,
whose `lanes[]` entries at index 2 and above hold 9. -/
def example_rma_key_tail : ucp_ep_config_key_t :=
  { lanes := fun lane => if lane < 2 then lane else 9, num_lanes := 2, am_lane := 0,
    rma_lanes_map := 3, amo_lanes_map := 0, wireup_msg_lane := 0 }

/-! ## Theorems -/

/-- The comparison loop returns 0 or 1. -/
theorem ucp_ep_config_is_equal_loop_bool (key1 key2 : ucp_ep_config_key_t) (todo lane : Nat) :
    ucp_ep_config_is_equal_loop key1 key2 todo lane = 0 ∨
    ucp_ep_config_is_equal_loop key1 key2 todo lane = 1 := by
  induction todo generalizing lane with
  | zero => right; rfl
  | succ n ih =>
    unfold ucp_ep_config_is_equal_loop
    split
    · left; rfl
    · exact ih (lane + 1)

/-- The comparison loop returns 1 exactly when the scanned entries agree. -/
theorem ucp_ep_config_is_equal_loop_iff (key1 key2 : ucp_ep_config_key_t) (todo lane : Nat) :
    ucp_ep_config_is_equal_loop key1 key2 todo lane = 1 ↔
      ∀ i, lane ≤ i → i < lane + todo → key1.lanes i = key2.lanes i := by
  induction todo generalizing lane with
  | zero =>
    constructor
    · intro _ i h1 h2; omega
    · intro _; rfl
  | succ n ih =>
    unfold ucp_ep_config_is_equal_loop
    by_cases h : key1.lanes lane = key2.lanes lane
    · simp only [ne_eq, h, not_true_eq_false, if_false]
      rw [ih (lane + 1)]
      constructor
      · intro hall i h1 h2
        by_cases hi : i = lane
        · subst hi; exact h
        · exact hall i (by omega) (by omega)
      · intro hall i h1 h2
        exact hall i (by omega) (by omega)
    · simp only [ne_eq, h, not_false_eq_true, if_true]
      constructor
      · intro h0; exact absurd h0 (by decide)
      · intro hall; exact absurd (hall lane (le_refl _) (by omega)) h

/-- The function `ucp_ep_config_is_equal` returns 1 exactly when the five scalar fields
agree and the first `num_lanes` entries of `lanes` agree. -/
theorem ucp_ep_config_is_equal_iff (key1 key2 : ucp_ep_config_key_t) :
    ucp_ep_config_is_equal key1 key2 = 1 ↔
      (key1.num_lanes = key2.num_lanes ∧ key1.am_lane = key2.am_lane ∧
       key1.wireup_msg_lane = key2.wireup_msg_lane ∧
       key1.rma_lanes_map = key2.rma_lanes_map ∧
       key1.amo_lanes_map = key2.amo_lanes_map ∧
       ∀ i, i < key1.num_lanes → key1.lanes i = key2.lanes i) := by
  unfold ucp_ep_config_is_equal
  split
  · rename_i h
    constructor
    · intro h0; exact absurd h0 (by decide)
    · rintro ⟨h1, h2, h3, h4, h5, _⟩
      rcases h with h | h | h | h | h
      · exact absurd h1 h
      · exact absurd h2 h
      · exact absurd h4 h
      · exact absurd h5 h
      · exact absurd h3 h
  · rename_i h
    simp only [ne_eq, not_or, not_not] at h
    obtain ⟨h1, h2, h3, h4, h5⟩ := h
    rw [ucp_ep_config_is_equal_loop_iff]
    constructor
    · intro hall
      exact ⟨h1, h2, h5, h3, h4, fun i hi => hall i (Nat.zero_le _) (by omega)⟩
    · rintro ⟨_, _, _, _, _, hall⟩ i _ hi
      exact hall i (by omega)

/-- C5: `ucp_ep_config_is_equal` returns 1 if and only if the five scalar fields are
pairwise equal and `lanes[i]` agree for every `i` below `num_lanes`, and returns 0
otherwise; entries of `lanes[]` at index `num_lanes` or above never change the result;
the relation is reflexive, symmetric and transitive. -/
theorem C5_config_is_equal_spec :
    (∀ key1 key2 : ucp_ep_config_key_t,
      (ucp_ep_config_is_equal key1 key2 = 1 ↔
        (key1.num_lanes = key2.num_lanes ∧ key1.am_lane = key2.am_lane ∧
         key1.wireup_msg_lane = key2.wireup_msg_lane ∧
         key1.rma_lanes_map = key2.rma_lanes_map ∧
         key1.amo_lanes_map = key2.amo_lanes_map ∧
         ∀ i, i < key1.num_lanes → key1.lanes i = key2.lanes i)) ∧
      (ucp_ep_config_is_equal key1 key2 ≠ 1 → ucp_ep_config_is_equal key1 key2 = 0)) ∧
    (∀ (key1 key2 : ucp_ep_config_key_t) (l1 l2 : Nat → Nat),
      (∀ i, i < key1.num_lanes → l1 i = key1.lanes i) →
      (∀ i, i < key2.num_lanes → l2 i = key2.lanes i) →
      ucp_ep_config_is_equal { key1 with lanes := l1 } { key2 with lanes := l2 } =
        ucp_ep_config_is_equal key1 key2) ∧
    (∀ key : ucp_ep_config_key_t, ucp_ep_config_is_equal key key = 1) ∧
    (∀ key1 key2 : ucp_ep_config_key_t,
      ucp_ep_config_is_equal key1 key2 = 1 → ucp_ep_config_is_equal key2 key1 = 1) ∧
    (∀ key1 key2 key3 : ucp_ep_config_key_t,
      ucp_ep_config_is_equal key1 key2 = 1 → ucp_ep_config_is_equal key2 key3 = 1 →
      ucp_ep_config_is_equal key1 key3 = 1) := by
  have hbool : ∀ key1 key2 : ucp_ep_config_key_t,
      ucp_ep_config_is_equal key1 key2 = 0 ∨ ucp_ep_config_is_equal key1 key2 = 1 := by
    intro key1 key2
    unfold ucp_ep_config_is_equal
    split
    · left; rfl
    · exact ucp_ep_config_is_equal_loop_bool _ _ _ _
  refine ⟨?_, ?_, ?_, ?_, ?_⟩
  · intro key1 key2
    refine ⟨ucp_ep_config_is_equal_iff key1 key2, ?_⟩
    intro hne
    rcases hbool key1 key2 with h | h
    · exact h
    · exact absurd h hne
  · intro key1 key2 l1 l2 h1 h2
    rcases hbool key1 key2 with h | h
    · rw [h]
      rcases hbool { key1 with lanes := l1 } { key2 with lanes := l2 } with h' | h'
      · exact h'
      · exfalso
        have := (ucp_ep_config_is_equal_iff _ _).1 h'
        obtain ⟨a1, a2, a3, a4, a5, a6⟩ := this
        simp only at a1 a2 a3 a4 a5 a6
        have hk : ucp_ep_config_is_equal key1 key2 = 1 := by
          rw [ucp_ep_config_is_equal_iff]
          refine ⟨a1, a2, a3, a4, a5, ?_⟩
          intro i hi
          rw [← h1 i hi, ← h2 i (a1 ▸ hi)]
          exact a6 i hi
        rw [h] at hk
        exact absurd hk (by decide)
    · rw [h]
      obtain ⟨a1, a2, a3, a4, a5, a6⟩ := (ucp_ep_config_is_equal_iff _ _).1 h
      rw [ucp_ep_config_is_equal_iff]
      refine ⟨a1, a2, a3, a4, a5, ?_⟩
      intro i hi
      show l1 i = l2 i
      rw [h1 i hi, h2 i (a1 ▸ hi)]
      exact a6 i hi
  · intro key
    rw [ucp_ep_config_is_equal_iff]
    exact ⟨rfl, rfl, rfl, rfl, rfl, fun _ _ => rfl⟩
  · intro key1 key2 h
    obtain ⟨a1, a2, a3, a4, a5, a6⟩ := (ucp_ep_config_is_equal_iff _ _).1 h
    rw [ucp_ep_config_is_equal_iff]
    exact ⟨a1.symm, a2.symm, a3.symm, a4.symm, a5.symm, fun i hi => (a6 i (a1 ▸ hi)).symm⟩
  · intro key1 key2 key3 h12 h23
    obtain ⟨a1, a2, a3, a4, a5, a6⟩ := (ucp_ep_config_is_equal_iff _ _).1 h12
    obtain ⟨b1, b2, b3, b4, b5, b6⟩ := (ucp_ep_config_is_equal_iff _ _).1 h23
    rw [ucp_ep_config_is_equal_iff]
    exact ⟨a1.trans b1, a2.trans b2, a3.trans b3, a4.trans b4, a5.trans b5,
      fun i hi => (a6 i hi).trans (b6 i (a1 ▸ hi))⟩

/-! ### Configuration derivation keeps the key -/

/-- The RMA loop of `ucp_ep_config_init` does not change the key. -/
theorem ucp_ep_config_init_rma_loop_key (worker : ucp_worker) (todo map : Nat)
    (config : ucp_ep_config_t) :
    (ucp_ep_config_init_rma_loop worker todo map config).key = config.key := by
  induction todo generalizing map config with
  | zero => rfl
  | succ n ih =>
    unfold ucp_ep_config_init_rma_loop
    split
    · simp only []
      rw [ih]
      split_ifs <;> rfl
    · rfl

/-- The active-message block of `ucp_ep_config_init` does not change the key. -/
theorem ucp_ep_config_init_am_key (worker : ucp_worker) (config : ucp_ep_config_t) :
    (ucp_ep_config_init_am worker config).key = config.key := by
  unfold ucp_ep_config_init_am
  simp only []
  split_ifs <;> rfl

/-- The function `ucp_ep_config_init` does not change the key. -/
theorem ucp_ep_config_init_key (worker : ucp_worker) (config : ucp_ep_config_t) :
    (ucp_ep_config_init worker config).key = config.key := by
  unfold ucp_ep_config_init
  simp only []
  rw [ucp_ep_config_init_rma_loop_key, ucp_ep_config_init_am_key]

/-- A successful search of the configuration table returns an entry whose key is equal
to the one looked for. -/
theorem ucp_worker_get_ep_config_search_equal (worker : ucp_worker)
    (key : ucp_ep_config_key_t) (todo config_idx found : Nat)
    (h : ucp_worker_get_ep_config_search worker key todo config_idx = some found) :
    ucp_ep_config_is_equal (worker.ep_config found).key key = 1 := by
  induction todo generalizing config_idx with
  | zero => simp [ucp_worker_get_ep_config_search] at h
  | succ n ih =>
    unfold ucp_worker_get_ep_config_search at h
    split at h
    · rename_i heq
      cases h
      exact heq
    · exact ih _ h

/-- The configuration that interning returns for a key has a key equal to it. -/
theorem ucp_worker_get_ep_config_equal (worker : ucp_worker) (key : ucp_ep_config_key_t) :
    ucp_ep_config_is_equal
      (((ucp_worker_get_ep_config worker key).1).ep_config
        (ucp_worker_get_ep_config worker key).2).key key = 1 := by
  unfold ucp_worker_get_ep_config
  split
  · rename_i found h
    exact ucp_worker_get_ep_config_search_equal worker key _ _ _ h
  · simp only [Function.update_same, ucp_ep_config_init_key]
    rw [ucp_ep_config_is_equal_iff]
    exact ⟨rfl, rfl, rfl, rfl, rfl, fun _ _ => rfl⟩

/-! ### C8: the stub endpoint -/

/-- C8: the endpoint that `ucp_ep_create_stub` returns is a stub (`ucp_ep_is_stub` is
true), and `ucp_ep_config_init` on the stub key (num_lanes = 1, am_lane = 0,
wireup_msg_lane = 0, rma_lanes_map = 1, amo_lanes_map = 1, lanes[0] = NULL_RESOURCE)
yields max_am_bcopy = 256, rma_lanes = [0], amo_lanes = [0] (one entry each, the lane
0), and zcopy_thresh, rndv_thresh and sync_rndv_thresh equal to SIZE_MAX, for every
worker and every previous content of the configuration. -/
theorem C8_stub_endpoint (worker : ucp_worker) :
    (∀ (dest_uuid : Nat) (alloc : Option Nat) (garbage : Nat → Nat)
       (stub : ucs_status_t × uct_ep_t),
      (ucp_ep_create_stub worker dest_uuid alloc garbage stub).1 = UCS_OK →
      ucp_ep_is_stub (ucp_ep_create_stub worker dest_uuid alloc garbage stub).2.1
        (ucp_ep_create_stub worker dest_uuid alloc garbage stub).2.2.1 = true) ∧
    (∀ config : ucp_ep_config_t,
      config.key.num_lanes = 1 → config.key.am_lane = 0 →
      config.key.wireup_msg_lane = 0 → config.key.rma_lanes_map = 1 →
      config.key.amo_lanes_map = 1 → config.key.lanes 0 = UCP_NULL_RESOURCE →
      (ucp_ep_config_init worker config).max_am_bcopy = 256 ∧
      (ucp_ep_config_init_lanes config).num_rma_lanes = 1 ∧
      (ucp_ep_config_init worker config).rma_lanes 0 = 0 ∧
      (ucp_ep_config_init_lanes config).num_amo_lanes = 1 ∧
      (ucp_ep_config_init worker config).amo_lanes 0 = 0 ∧
      (ucp_ep_config_init worker config).zcopy_thresh = some SIZE_MAX ∧
      (ucp_ep_config_init worker config).rndv_thresh = SIZE_MAX ∧
      (ucp_ep_config_init worker config).sync_rndv_thresh = SIZE_MAX) := by
  constructor
  · intro dest_uuid alloc garbage stub hok
    unfold ucp_ep_create_stub at hok ⊢
    simp only [] at hok ⊢
    by_cases h1 : (ucp_ep_new worker dest_uuid alloc).1 ≠ UCS_OK
    · rw [if_pos h1] at hok
      exact absurd hok h1
    · rw [if_neg h1] at hok ⊢
      by_cases h2 : stub.1 ≠ UCS_OK
      · rw [if_pos h2] at hok
        exact absurd hok h2
      · rw [if_neg h2]
        simp only [ucp_ep_is_stub, ucp_ep_get_rsc_index, ucp_ep_config, decide_eq_true_eq,
          ucp_ep_deref, Function.update_same, Option.getD_some]
        have heq := ucp_worker_get_ep_config_equal (ucp_ep_new worker dest_uuid alloc).2.1
          { am_lane := 0, rma_lanes_map := 1, amo_lanes_map := 1, wireup_msg_lane := 0,
            lanes := Function.update garbage 0 UCP_NULL_RESOURCE, num_lanes := 1 }
        rw [ucp_ep_config_is_equal_iff] at heq
        obtain ⟨hn, _, _, _, _, hl⟩ := heq
        have := hl 0 (by rw [hn]; exact Nat.one_pos)
        simpa using this
  · intro config hn ham hw hrma hamo hl
    have hscan : ucp_ep_config_init_lanes config =
        { rma_lanes := Function.update config.rma_lanes 0 0,
          amo_lanes := Function.update config.amo_lanes 0 0,
          num_rma_lanes := 1, num_amo_lanes := 1 } := by
      simp [ucp_ep_config_init_lanes, ucp_ep_config_init_lanes_loop, hn, hrma, hamo, UCS_BIT]
    simp [ucp_ep_config_init, hscan, ucp_ep_config_init_am, ucp_ep_config_init_rma_loop,
      ham, hl, hrma, UCP_NULL_LANE, UCP_NULL_RESOURCE, ucs_ffs64, ucs_ffs64_loop, UCS_BIT]
/-- Witness of C8 on an empty worker: the stub endpoint created for uuid 5 at address
100 is a stub, and deriving the configuration of the stub key gives 256. -/
theorem C8_stub_endpoint_witness :
    (ucp_ep_create_stub {} 5 (some 100) (fun _ => 7) (UCS_OK, { id := 1 })).1 = UCS_OK ∧
    ucp_ep_is_stub (ucp_ep_create_stub {} 5 (some 100) (fun _ => 7) (UCS_OK, { id := 1 })).2.1
      (ucp_ep_create_stub {} 5 (some 100) (fun _ => 7) (UCS_OK, { id := 1 })).2.2.1 = true ∧
    (ucp_ep_config_init {}
      { key := { lanes := fun _ => UCP_NULL_RESOURCE, num_lanes := 1, am_lane := 0,
                 rma_lanes_map := 1, amo_lanes_map := 1,
                 wireup_msg_lane := 0 } }).max_am_bcopy = 256 :=
  ⟨rfl, (C8_stub_endpoint {}).1 5 (some 100) (fun _ => 7) (UCS_OK, { id := 1 }) rfl,
   ((C8_stub_endpoint {}).2 _ rfl rfl rfl rfl rfl rfl).1⟩

/-! ### C7: the auto zero-copy threshold -/

/-- The RMA loop of `ucp_ep_config_init` does not change the zero-copy thresholds. -/
theorem ucp_ep_config_init_rma_loop_zcopy (worker : ucp_worker) (todo map : Nat)
    (config : ucp_ep_config_t) :
    (ucp_ep_config_init_rma_loop worker todo map config).zcopy_thresh = config.zcopy_thresh ∧
    (ucp_ep_config_init_rma_loop worker todo map config).sync_zcopy_thresh =
      config.sync_zcopy_thresh := by
  induction todo generalizing map config with
  | zero => exact ⟨rfl, rfl⟩
  | succ n ih =>
    unfold ucp_ep_config_init_rma_loop
    split
    · simp only []
      rw [(ih _ _).1, (ih _ _).2]
      split_ifs <;> exact ⟨rfl, rfl⟩
    · exact ⟨rfl, rfl⟩

/-- In the setting of C7 (real AM lane advertising `AM_ZCOPY` on a protection domain
with `REG`, threshold configured as auto) the two zero-copy thresholds that
`ucp_ep_config_init` leaves are decided by the sign of the computed quotient. -/
theorem ucp_ep_config_init_auto (worker : ucp_worker) (config : ucp_ep_config_t)
    (hlane : config.key.am_lane ≠ UCP_NULL_LANE)
    (hrsc : config.key.lanes config.key.am_lane ≠ UCP_NULL_RESOURCE)
    (hzcopy : (worker.iface_attrs (config.key.lanes config.key.am_lane)).cap_flags &&&
      UCT_IFACE_FLAG_AM_ZCOPY ≠ 0)
    (hreg : (worker.context.pd_attrs (worker.context.tl_rscs_pd_index
      (config.key.lanes config.key.am_lane))).cap_flags &&& UCT_PD_FLAG_REG ≠ 0)
    (hauto : worker.context.config_ext_zcopy_thresh = UCS_CONFIG_MEMUNITS_AUTO) :
    (ucp_ep_config_init worker config).zcopy_thresh =
      (if (ucp_ep_config_init_auto_thresh worker.context.config_ext_bcopy_bw
            (worker.iface_attrs (config.key.lanes config.key.am_lane)).bandwidth
            (worker.context.pd_attrs (worker.context.tl_rscs_pd_index
              (config.key.lanes config.key.am_lane))).reg_cost_overhead
            (worker.context.pd_attrs (worker.context.tl_rscs_pd_index
              (config.key.lanes config.key.am_lane))).reg_cost_growth).ltZero
       then some SIZE_MAX
       else (ucp_ep_config_init_auto_thresh worker.context.config_ext_bcopy_bw
            (worker.iface_attrs (config.key.lanes config.key.am_lane)).bandwidth
            (worker.context.pd_attrs (worker.context.tl_rscs_pd_index
              (config.key.lanes config.key.am_lane))).reg_cost_overhead
            (worker.context.pd_attrs (worker.context.tl_rscs_pd_index
              (config.key.lanes config.key.am_lane))).reg_cost_growth).toSize) ∧
    (ucp_ep_config_init worker config).sync_zcopy_thresh =
      (if (ucp_ep_config_init_auto_thresh worker.context.config_ext_bcopy_bw
            (worker.iface_attrs (config.key.lanes config.key.am_lane)).bandwidth
            (worker.context.pd_attrs (worker.context.tl_rscs_pd_index
              (config.key.lanes config.key.am_lane))).reg_cost_overhead
            (worker.context.pd_attrs (worker.context.tl_rscs_pd_index
              (config.key.lanes config.key.am_lane))).reg_cost_growth).ltZero
       then some (-1)
       else (ucp_ep_config_init_auto_thresh worker.context.config_ext_bcopy_bw
            (worker.iface_attrs (config.key.lanes config.key.am_lane)).bandwidth
            (worker.context.pd_attrs (worker.context.tl_rscs_pd_index
              (config.key.lanes config.key.am_lane))).reg_cost_overhead
            (worker.context.pd_attrs (worker.context.tl_rscs_pd_index
              (config.key.lanes config.key.am_lane))).reg_cost_growth).toSSize) := by
  unfold ucp_ep_config_init
  simp only []
  rw [(ucp_ep_config_init_rma_loop_zcopy _ _ _ _).1, (ucp_ep_config_init_rma_loop_zcopy _ _ _ _).2]
  unfold ucp_ep_config_init_am
  simp only []
  rw [if_pos hlane, if_pos hrsc, if_pos ⟨hzcopy, hreg⟩, if_pos hauto]
  split_ifs <;> exact ⟨rfl, rfl⟩

/-- The integer within a half of a rational is what `roundHalfEven` gives. -/
theorem roundHalfEven_eq (m : ℚ) (n : Nat) (h1 : (n : ℚ) - 1 / 2 < m) (h2 : m < n + 1 / 2) :
    cdouble.roundHalfEven m = n := by
  unfold cdouble.roundHalfEven
  by_cases h : (n : ℚ) ≤ m
  · have hm : 0 ≤ m := le_trans (Nat.cast_nonneg n) h
    have hf : ⌊m⌋₊ = n := (Nat.floor_eq_iff hm).2 ⟨h, by linarith⟩
    rw [hf, if_pos (by linarith)]
  · have h' : m < n := not_le.1 h
    cases n with
    | zero =>
      have hf : ⌊m⌋₊ = 0 := Nat.floor_eq_zero.2 (by push_cast at h'; linarith)
      rw [hf, if_pos (by push_cast; push_cast at h2; linarith)]
    | succ k =>
      push_cast at h1 h2 h'
      have hm : 0 ≤ m := by
        have : (0 : ℚ) ≤ k := Nat.cast_nonneg k
        linarith
      have hf : ⌊m⌋₊ = k := (Nat.floor_eq_iff hm).2 ⟨by linarith, by linarith⟩
      rw [hf, if_neg (by linarith), if_pos (by linarith)]

/-- The spacing exponent of a normal magnitude in the binade of `2^e`. -/
theorem ulpExp_eq (a : ℚ) (e : ℤ) (ha : 0 < a) (h1 : (2 : ℚ) ^ e ≤ a)
    (h2 : a < (2 : ℚ) ^ (e + 1)) (he : -1022 ≤ e) : cdouble.ulpExp a = e - 52 := by
  have hlog : Int.log 2 a = e := by
    have hle : e ≤ Int.log 2 a :=
      (Int.zpow_le_iff_le_log (by norm_num) ha).1 (by exact_mod_cast h1)
    have hlt : Int.log 2 a < e + 1 :=
      (Int.lt_zpow_iff_log_lt (by norm_num) ha).1 (by exact_mod_cast h2)
    omega
  unfold cdouble.ulpExp
  rw [hlog, max_eq_left he]

/-- The rounded magnitude of a normal magnitude in the binade of `2^e`, given the
integer `n` within a half of its 53-bit significand. -/
theorem roundMag_eq (a : ℚ) (e : ℤ) (n : ℕ) (ha : 0 < a) (h1 : (2 : ℚ) ^ e ≤ a)
    (h2 : a < (2 : ℚ) ^ (e + 1)) (he : -1022 ≤ e)
    (hn1 : (n : ℚ) - 1 / 2 < a / 2 ^ (e - 52)) (hn2 : a / 2 ^ (e - 52) < n + 1 / 2) :
    cdouble.roundMag a = (n : ℚ) * 2 ^ (e - 52) := by
  unfold cdouble.roundMag
  rw [ulpExp_eq a e ha h1 h2 he, roundHalfEven_eq _ n hn1 hn2]

/-- Rounding a normal magnitude in the binade of `2^e`, with either sign: the result is
finite, the significand `n` scaled. -/
theorem nearest_eval (a : ℚ) (e : ℤ) (n : ℕ) (r : ℚ) (ha : 0 < a) (h1 : (2 : ℚ) ^ e ≤ a)
    (h2 : a < (2 : ℚ) ^ (e + 1)) (he : -1022 ≤ e) (he2 : e ≤ 1021)
    (hn1 : (n : ℚ) - 1 / 2 < a / 2 ^ (e - 52)) (hn2 : a / 2 ^ (e - 52) < n + 1 / 2)
    (hr : r = (n : ℚ) * 2 ^ (e - 52)) :
    cdouble.nearest false a = cdouble.fin r ∧ cdouble.nearest true a = cdouble.fin (-r) := by
  have hmag := roundMag_eq a e n ha h1 h2 he hn1 hn2
  have hu : (0 : ℚ) < 2 ^ (e - 52) := zpow_pos (by norm_num) _
  have h52 : (2 : ℚ) ^ e = 2 ^ (52 : ℤ) * 2 ^ (e - 52) := by
    rw [← zpow_add₀ (by norm_num : (2 : ℚ) ≠ 0)]
    congr 1
    omega
  have h53 : (2 : ℚ) ^ (e + 1) = 2 ^ (53 : ℤ) * 2 ^ (e - 52) := by
    rw [← zpow_add₀ (by norm_num : (2 : ℚ) ≠ 0)]
    congr 1
    omega
  have h54 : (2 : ℚ) ^ (e + 2) = 2 ^ (54 : ℤ) * 2 ^ (e - 52) := by
    rw [← zpow_add₀ (by norm_num : (2 : ℚ) ≠ 0)]
    congr 1
    omega
  have hlo : (2 : ℚ) ^ (52 : ℤ) ≤ a / 2 ^ (e - 52) := by
    rw [le_div_iff₀ hu, ← h52]; exact h1
  have hhi : a / 2 ^ (e - 52) < (2 : ℚ) ^ (53 : ℤ) := by
    rw [div_lt_iff₀ hu, ← h53]; exact h2
  have hnpos : (0 : ℚ) < n := by
    have : (1 : ℚ) ≤ 2 ^ (52 : ℤ) := by norm_num
    linarith
  have hnlt : (n : ℚ) < 2 ^ (54 : ℤ) := by
    have : (2 : ℚ) ^ (53 : ℤ) + 1 / 2 < 2 ^ (54 : ℤ) := by norm_num
    linarith
  have hbig : (n : ℚ) * 2 ^ (e - 52) < 2 ^ 1024 := by
    have hA : (n : ℚ) * 2 ^ (e - 52) < 2 ^ (e + 2) := by
      rw [h54]
      exact mul_lt_mul_of_pos_right hnlt hu
    have hB : (2 : ℚ) ^ (e + 2) ≤ 2 ^ (1024 : ℤ) :=
      zpow_le_zpow_right₀ (by norm_num) (by omega)
    have hC : (2 : ℚ) ^ (1024 : ℤ) = 2 ^ 1024 := by
      rw [← zpow_natCast]; rfl
    linarith
  have hne : (n : ℚ) * 2 ^ (e - 52) ≠ 0 := ne_of_gt (mul_pos hnpos hu)
  rw [hr]
  constructor
  · unfold cdouble.nearest
    rw [hmag, if_neg (not_le.2 hbig), if_neg hne]
    rfl
  · unfold cdouble.nearest
    rw [hmag, if_neg (not_le.2 hbig), if_neg hne]
    rfl

/-- A rounded magnitude is not negative. -/
theorem roundMag_nonneg (a : ℚ) : 0 ≤ cdouble.roundMag a := by
  unfold cdouble.roundMag
  exact mul_nonneg (Nat.cast_nonneg _) (le_of_lt (zpow_pos (by norm_num) _))

/-- Rounding with the positive sign gives plus infinity or a finite value that is not
negative. -/
theorem nearest_false_cases (a : ℚ) :
    cdouble.nearest false a = cdouble.pinf ∨
    ∃ r : ℚ, 0 ≤ r ∧ cdouble.nearest false a = cdouble.fin r := by
  unfold cdouble.nearest
  simp only [Bool.false_eq_true, if_false]
  split_ifs
  · left; rfl
  · right; exact ⟨0, le_refl _, rfl⟩
  · right; exact ⟨cdouble.roundMag a, roundMag_nonneg a, rfl⟩

/-- A rational above one half rounds to an integer that is at least 1. -/
theorem roundHalfEven_pos (m : ℚ) (h : 1 / 2 < m) : 1 ≤ cdouble.roundHalfEven m := by
  have hm : 0 ≤ m := by linarith
  have hfl : (⌊m⌋₊ : ℚ) ≤ m := Nat.floor_le hm
  unfold cdouble.roundHalfEven
  split_ifs with h1 h2 h3
  · have : (0 : ℚ) < (⌊m⌋₊ : ℚ) := by linarith
    exact_mod_cast this
  · omega
  · have : (0 : ℚ) < (⌊m⌋₊ : ℚ) := by linarith
    exact_mod_cast this
  · omega

/-- A rational of at most one half rounds to 0. -/
theorem roundHalfEven_zero (m : ℚ) (h : m ≤ 1 / 2) :
    cdouble.roundHalfEven m = 0 := by
  have hf : ⌊m⌋₊ = 0 := Nat.floor_eq_zero.2 (by linarith)
  unfold cdouble.roundHalfEven
  rw [hf]
  split_ifs with h1 h2 h3
  · rfl
  · push_cast at h2; linarith
  · rfl
  · exact absurd rfl h3

/-- A magnitude above half the smallest positive double does not round to zero. -/
theorem roundMag_pos (a : ℚ) (h : (2 : ℚ) ^ (-1075 : ℤ) < a) : 0 < cdouble.roundMag a := by
  have ha : 0 < a := lt_trans (zpow_pos (by norm_num) _) h
  have hu : (0 : ℚ) < 2 ^ cdouble.ulpExp a := zpow_pos (by norm_num) _
  have hhalf : (2 : ℚ) ^ (cdouble.ulpExp a - 1) < a := by
    unfold cdouble.ulpExp
    rcases le_total (Int.log 2 a) (-1022) with hc | hc
    · rw [max_eq_right hc]
      exact h
    · rw [max_eq_left hc]
      have h1 : (2 : ℚ) ^ (Int.log 2 a - 52 - 1) < 2 ^ Int.log 2 a :=
        zpow_lt_zpow_right₀ (by norm_num) (by omega)
      have h2 : ((2 : ℕ) : ℚ) ^ Int.log 2 a ≤ a := Int.zpow_log_le_self (by norm_num) ha
      have h3 : ((2 : ℕ) : ℚ) = 2 := by norm_num
      rw [h3] at h2
      exact lt_of_lt_of_le h1 h2
  have hsplit : (2 : ℚ) ^ (cdouble.ulpExp a - 1) = 1 / 2 * 2 ^ cdouble.ulpExp a := by
    rw [zpow_sub₀ (by norm_num : (2 : ℚ) ≠ 0), zpow_one]
    ring
  have hm : 1 / 2 < a / 2 ^ cdouble.ulpExp a := by
    rw [lt_div_iff₀ hu, ← hsplit]; exact hhalf
  have hn := roundHalfEven_pos _ hm
  unfold cdouble.roundMag
  exact mul_pos (by exact_mod_cast hn) hu

/-- A positive magnitude of at most half the smallest positive double rounds to zero. -/
theorem roundMag_zero (a : ℚ) (ha : 0 < a) (h : a ≤ (2 : ℚ) ^ (-1075 : ℤ)) :
    cdouble.roundMag a = 0 := by
  have hlog : Int.log 2 a < -1022 := by
    apply (Int.lt_zpow_iff_log_lt (by norm_num) ha).1
    have h1 : (2 : ℚ) ^ (-1075 : ℤ) < 2 ^ (-1022 : ℤ) :=
      zpow_lt_zpow_right₀ (by norm_num) (by norm_num)
    have h3 : ((2 : ℕ) : ℚ) = 2 := by norm_num
    rw [h3]
    exact lt_of_le_of_lt h h1
  have hu : cdouble.ulpExp a = -1074 := by
    unfold cdouble.ulpExp
    rw [max_eq_right (le_of_lt hlog)]
    rfl
  have hpos : (0 : ℚ) < 2 ^ (-1074 : ℤ) := zpow_pos (by norm_num) _
  have hsplit : (2 : ℚ) ^ (-1075 : ℤ) = 1 / 2 * 2 ^ (-1074 : ℤ) := by
    rw [show (-1075 : ℤ) = -1074 - 1 from rfl, zpow_sub₀ (by norm_num : (2 : ℚ) ≠ 0), zpow_one]
    ring
  have hm : a / 2 ^ (-1074 : ℤ) ≤ 1 / 2 := by
    rw [div_le_iff₀ hpos, ← hsplit]; exact h
  unfold cdouble.roundMag
  rw [hu, roundHalfEven_zero _ hm]
  simp

/-- Rounding with the negative sign a magnitude above half the smallest positive double
gives a value below zero. -/
theorem nearest_true_ltZero (a : ℚ) (h : (2 : ℚ) ^ (-1075 : ℤ) < a) :
    (cdouble.nearest true a).ltZero = true := by
  have hpos := roundMag_pos a h
  unfold cdouble.nearest
  simp only [eq_self_iff_true, if_true]
  split_ifs with h1 h2
  · rfl
  · exact absurd h2 (ne_of_gt hpos)
  · show decide (-cdouble.roundMag a < 0) = true
    exact decide_eq_true (by linarith)

/-- Rounding with the negative sign a positive magnitude of at most half the smallest
positive double gives the negative zero. -/
theorem nearest_true_tiny (a : ℚ) (ha : 0 < a) (h : a ≤ (2 : ℚ) ^ (-1075 : ℤ)) :
    cdouble.nearest true a = cdouble.nzero := by
  have hz := roundMag_zero a ha h
  unfold cdouble.nearest
  rw [hz, if_neg (by norm_num), if_pos rfl, if_pos rfl]

/-- The quotient of two positive finite doubles. -/
theorem div_fin_pos_pos (o d : ℚ) (ho : 0 < o) (hd : 0 < d) :
    cdouble.div (cdouble.fin o) (cdouble.fin d) = cdouble.nearest false (o / d) := by
  simp [cdouble.div, cdouble.isNan, cdouble.isInf, cdouble.isZero, cdouble.signBit,
    cdouble.val, ne_of_gt ho, ne_of_gt hd, not_lt.2 ho.le, not_lt.2 hd.le, abs_of_pos ho,
    abs_of_pos hd]

/-- The quotient of a positive finite double by a negative one. -/
theorem div_fin_pos_neg (o d : ℚ) (ho : 0 < o) (hd : d < 0) :
    cdouble.div (cdouble.fin o) (cdouble.fin d) = cdouble.nearest true (o / -d) := by
  simp [cdouble.div, cdouble.isNan, cdouble.isInf, cdouble.isZero, cdouble.signBit,
    cdouble.val, ne_of_gt ho, ne_of_lt hd, not_lt.2 ho.le, hd, abs_of_pos ho, abs_of_neg hd]

/-- The positive zero over a positive finite double is the positive zero. -/
theorem div_fin_zero_pos (d : ℚ) (hd : 0 < d) :
    cdouble.div (cdouble.fin 0) (cdouble.fin d) = cdouble.fin 0 := by
  simp [cdouble.div, cdouble.isNan, cdouble.isInf, cdouble.isZero, cdouble.signBit,
    cdouble.val, ne_of_gt hd, not_lt.2 hd.le]

/-- The positive zero over a negative finite double is the negative zero. -/
theorem div_fin_zero_neg (d : ℚ) (hd : d < 0) :
    cdouble.div (cdouble.fin 0) (cdouble.fin d) = cdouble.nzero := by
  simp [cdouble.div, cdouble.isNan, cdouble.isInf, cdouble.isZero, cdouble.signBit,
    cdouble.val, ne_of_lt hd, hd]

/-- The difference of two finite doubles, the first the greater. -/
theorem sub_fin_lt (a b : ℚ) (h : b < a) :
    cdouble.sub (cdouble.fin a) (cdouble.fin b) = cdouble.nearest false (a - b) := by
  have h1 : a - b ≠ 0 := by intro h0; linarith
  have h2 : ¬ a - b < 0 := by linarith
  have h3 : |a - b| = a - b := abs_of_pos (by linarith)
  simp only [cdouble.sub, cdouble.isNan, cdouble.isInf, cdouble.val, Bool.or_self,
    Bool.false_eq_true, if_false, h1, h3]
  rw [decide_eq_false h2]

/-- The difference of two finite doubles, the first the smaller. -/
theorem sub_fin_gt (a b : ℚ) (h : a < b) :
    cdouble.sub (cdouble.fin a) (cdouble.fin b) = cdouble.nearest true (b - a) := by
  have h1 : a - b ≠ 0 := by intro h0; linarith
  have h2 : a - b < 0 := by linarith
  have h3 : |a - b| = b - a := by rw [abs_of_neg h2]; ring
  simp only [cdouble.sub, cdouble.isNan, cdouble.isInf, cdouble.val, Bool.or_self,
    Bool.false_eq_true, if_false, h1, h3]
  rw [decide_eq_true h2]

/-- The double denoted by a positive constant. -/
theorem ofRat_pos (q : ℚ) (h : 0 < q) : cdouble.ofRat q = cdouble.nearest false q := by
  unfold cdouble.ofRat
  rw [if_neg (ne_of_gt h), abs_of_pos h, decide_eq_false (not_lt.2 h.le)]

/-- The double denoted by `1e-9`. -/
theorem double_1e_9 :
    cdouble.ofRat (1 / 1000000000) = cdouble.fin (4835703278458517 / 2 ^ 82) := by
  rw [ofRat_pos _ (by norm_num)]
  exact (nearest_eval _ (-30) 4835703278458517 _ (by norm_num) (by norm_num) (by norm_num)
    (by norm_num) (by norm_num) (by norm_num) (by norm_num) (by norm_num)).1

/-- The double denoted by `1e-7`. -/
theorem double_1e_7 :
    cdouble.ofRat (1 / 10000000) = cdouble.fin (7555786372591432 / 2 ^ 76) := by
  rw [ofRat_pos _ (by norm_num)]
  exact (nearest_eval _ (-24) 7555786372591432 _ (by norm_num) (by norm_num) (by norm_num)
    (by norm_num) (by norm_num) (by norm_num) (by norm_num) (by norm_num)).1

/-- The double `1.0 / 5e9`. -/
theorem double_inv_5e9 :
    cdouble.div (cdouble.fin 1) (cdouble.fin 5000000000) =
      cdouble.fin (7737125245533627 / 2 ^ 85) := by
  rw [div_fin_pos_pos _ _ (by norm_num) (by norm_num)]
  exact (nearest_eval _ (-33) 7737125245533627 _ (by norm_num) (by norm_num) (by norm_num)
    (by norm_num) (by norm_num) (by norm_num) (by norm_num) (by norm_num)).1

/-- The double `1.0 / 10e9`. -/
theorem double_inv_10e9 :
    cdouble.div (cdouble.fin 1) (cdouble.fin 10000000000) =
      cdouble.fin (7737125245533627 / 2 ^ 86) := by
  rw [div_fin_pos_pos _ _ (by norm_num) (by norm_num)]
  exact (nearest_eval _ (-34) 7737125245533627 _ (by norm_num) (by norm_num) (by norm_num)
    (by norm_num) (by norm_num) (by norm_num) (by norm_num) (by norm_num)).1

/-- The double `1.0 / 5e8`. -/
theorem double_inv_5e8 :
    cdouble.div (cdouble.fin 1) (cdouble.fin 500000000) =
      cdouble.fin (4835703278458517 / 2 ^ 81) := by
  rw [div_fin_pos_pos _ _ (by norm_num) (by norm_num)]
  exact (nearest_eval _ (-29) 4835703278458517 _ (by norm_num) (by norm_num) (by norm_num)
    (by norm_num) (by norm_num) (by norm_num) (by norm_num) (by norm_num)).1

/-- The denominator computed for `bcopy_bw = 5e9`, `bandwidth = 10e9`, `growth = 1e-9`:
the double `-9.000000000000001e-10`. -/
theorem auto_denom_5e9_10e9 :
    ucp_ep_config_init_auto_denom (cdouble.fin 5000000000) (cdouble.fin 10000000000)
        (cdouble.ofRat (1 / 1000000000)) =
      cdouble.fin (-(8704265901225331 / 2 ^ 83)) := by
  unfold ucp_ep_config_init_auto_denom
  rw [double_inv_5e9, double_inv_10e9, double_1e_9, sub_fin_lt _ _ (by norm_num),
    (nearest_eval _ (-34) 7737125245533627 (7737125245533627 / 2 ^ 86) (by norm_num)
      (by norm_num) (by norm_num) (by norm_num) (by norm_num) (by norm_num) (by norm_num)
      (by norm_num)).1,
    sub_fin_gt _ _ (by norm_num)]
  exact (nearest_eval _ (-31) 8704265901225331 _ (by norm_num) (by norm_num) (by norm_num)
    (by norm_num) (by norm_num) (by norm_num) (by norm_num) (by norm_num)).2

/-- The denominator computed for `bcopy_bw = 5e8`, `bandwidth = 5e9`, `growth = 1e-9`:
the double `8.000000000000001e-10`. -/
theorem auto_denom_5e8_5e9 :
    ucp_ep_config_init_auto_denom (cdouble.fin 500000000) (cdouble.fin 5000000000)
        (cdouble.ofRat (1 / 1000000000)) =
      cdouble.fin (7737125245533628 / 2 ^ 83) := by
  unfold ucp_ep_config_init_auto_denom
  rw [double_inv_5e8, double_inv_5e9, double_1e_9, sub_fin_lt _ _ (by norm_num),
    (nearest_eval _ (-30) 8704265901225331 (8704265901225331 / 2 ^ 82) (by norm_num)
      (by norm_num) (by norm_num) (by norm_num) (by norm_num) (by norm_num) (by norm_num)
      (by norm_num)).1,
    sub_fin_lt _ _ (by norm_num)]
  exact (nearest_eval _ (-31) 7737125245533628 _ (by norm_num) (by norm_num) (by norm_num)
    (by norm_num) (by norm_num) (by norm_num) (by norm_num) (by norm_num)).1

/-- The quotient computed for `overhead = 1e-7` over the denominator
`8.000000000000001e-10`: the double `124.99999999999997`. -/
theorem auto_quotient_124 :
    cdouble.nearest false ((7555786372591432 / 2 ^ 76) / (7737125245533628 / 2 ^ 83)) =
      cdouble.fin (8796093022207998 / 2 ^ 46) :=
  (nearest_eval _ 6 8796093022207998 _ (by norm_num) (by norm_num) (by norm_num)
    (by norm_num) (by norm_num) (by norm_num) (by norm_num) (by norm_num)).1

/-- C7 (amended): for a configuration whose AM lane is real, advertises `AM_ZCOPY` on a
protection domain with `REG`, and whose zero-copy threshold is configured as auto, with
a finite `overhead` and a finite computed denominator, the denominator being the double
`(1.0 / bcopy_bw) - (1.0 / bandwidth) - growth` with every operation rounded to
binary64: `ucp_ep_config_init` tests the sign of the computed quotient
`overhead / denominator`, not of the denominator. (1) When `overhead > 0` and the
denominator is negative: if the magnitude of the exact quotient is above `2^-1075`, half
the smallest positive double, so that the quotient does not round to zero,
`zcopy_thresh = SIZE_MAX` and `sync_zcopy_thresh = -1`; otherwise the quotient is the
negative zero and both thresholds are 0. (2) When `overhead` is zero and the denominator
is negative, the quotient is the negative zero and both thresholds are 0. (3) When
`overhead ≥ 0` and the denominator is positive, the quotient is the double nearest to
the exact quotient (the zero for `overhead = 0`), and whenever it is finite and below
`2^63` both thresholds are that double truncated toward zero. -/
theorem C7_auto_zcopy_thresh (worker : ucp_worker) (config : ucp_ep_config_t)
    (o d : ℚ)
    (hlane : config.key.am_lane ≠ UCP_NULL_LANE)
    (hrsc : config.key.lanes config.key.am_lane ≠ UCP_NULL_RESOURCE)
    (hzcopy : (worker.iface_attrs (config.key.lanes config.key.am_lane)).cap_flags &&&
      UCT_IFACE_FLAG_AM_ZCOPY ≠ 0)
    (hreg : (worker.context.pd_attrs (worker.context.tl_rscs_pd_index
      (config.key.lanes config.key.am_lane))).cap_flags &&& UCT_PD_FLAG_REG ≠ 0)
    (hauto : worker.context.config_ext_zcopy_thresh = UCS_CONFIG_MEMUNITS_AUTO)
    (ho : (worker.context.pd_attrs (worker.context.tl_rscs_pd_index
      (config.key.lanes config.key.am_lane))).reg_cost_overhead = cdouble.fin o)
    (hd : ucp_ep_config_init_auto_denom worker.context.config_ext_bcopy_bw
      (worker.iface_attrs (config.key.lanes config.key.am_lane)).bandwidth
      (worker.context.pd_attrs (worker.context.tl_rscs_pd_index
        (config.key.lanes config.key.am_lane))).reg_cost_growth = cdouble.fin d) :
    (0 < o → d < 0 → (2 : ℚ) ^ (-1075 : ℤ) < o / -d →
      (ucp_ep_config_init worker config).zcopy_thresh = some SIZE_MAX ∧
      (ucp_ep_config_init worker config).sync_zcopy_thresh = some (-1)) ∧
    (0 < o → d < 0 → o / -d ≤ (2 : ℚ) ^ (-1075 : ℤ) →
      (ucp_ep_config_init worker config).zcopy_thresh = some 0 ∧
      (ucp_ep_config_init worker config).sync_zcopy_thresh = some 0) ∧
    (o = 0 → d < 0 →
      (ucp_ep_config_init worker config).zcopy_thresh = some 0 ∧
      (ucp_ep_config_init worker config).sync_zcopy_thresh = some 0) ∧
    (0 ≤ o → 0 < d →
      cdouble.div (cdouble.fin o) (cdouble.fin d) =
        (if o = 0 then cdouble.fin 0 else cdouble.nearest false (o / d)) ∧
      ∀ q : ℚ, cdouble.div (cdouble.fin o) (cdouble.fin d) = cdouble.fin q → q < 2 ^ 63 →
        (ucp_ep_config_init worker config).zcopy_thresh = some (Int.toNat ⌊q⌋) ∧
        (ucp_ep_config_init worker config).sync_zcopy_thresh =
          some (Int.ofNat (Int.toNat ⌊q⌋))) := by
  obtain ⟨hz, hs⟩ := ucp_ep_config_init_auto worker config hlane hrsc hzcopy hreg hauto
  unfold ucp_ep_config_init_auto_thresh at hz hs
  rw [ho, hd] at hz hs
  refine ⟨?_, ?_, ?_, ?_⟩
  · intro hopos hdneg hbound
    have hlt : (cdouble.div (cdouble.fin o) (cdouble.fin d)).ltZero = true := by
      rw [div_fin_pos_neg o d hopos hdneg]
      exact nearest_true_ltZero _ hbound
    rw [hlt] at hz hs
    exact ⟨hz, hs⟩
  · intro hopos hdneg hbound
    rw [div_fin_pos_neg o d hopos hdneg,
      nearest_true_tiny _ (div_pos hopos (by linarith)) hbound] at hz hs
    exact ⟨hz, hs⟩
  · intro ho0 hdneg
    rw [ho0, div_fin_zero_neg d hdneg] at hz hs
    exact ⟨hz, hs⟩
  · intro hopos hdpos
    have hdiv : cdouble.div (cdouble.fin o) (cdouble.fin d) =
        (if o = 0 then cdouble.fin 0 else cdouble.nearest false (o / d)) := by
      by_cases h0 : o = 0
      · rw [if_pos h0, h0]
        exact div_fin_zero_pos d hdpos
      · rw [if_neg h0]
        exact div_fin_pos_pos o d (lt_of_le_of_ne hopos (Ne.symm h0)) hdpos
    refine ⟨hdiv, ?_⟩
    intro q hq hbound
    have hq0 : 0 ≤ q := by
      rw [hdiv] at hq
      by_cases h0 : o = 0
      · rw [if_pos h0] at hq
        have := cdouble.fin.inj hq
        rw [← this]
      · rw [if_neg h0] at hq
        rcases nearest_false_cases (o / d) with hinf | ⟨r, hr, hfin⟩
        · rw [hinf] at hq
          exact cdouble.noConfusion hq
        · rw [hfin] at hq
          have := cdouble.fin.inj hq
          rw [← this]
          exact hr
    rw [hq] at hz hs
    have hlt : (cdouble.fin q).ltZero = false := by
      show decide (q < 0) = false
      exact decide_eq_false (not_lt.2 hq0)
    have h64 : q < 2 ^ 64 := lt_trans hbound (by norm_num)
    have hneg1 : (-1 : ℚ) < q := lt_of_lt_of_le (by norm_num) hq0
    rw [hlt] at hz hs
    constructor
    · rw [hz]
      show (if -1 < q ∧ q < 2 ^ 64 then some (Int.toNat ⌊q⌋) else none) = _
      rw [if_pos ⟨hneg1, h64⟩]
    · rw [hs]
      show (if -1 < q ∧ q < 2 ^ 63 then some (Int.ofNat (Int.toNat ⌊q⌋)) else none) = _
      rw [if_pos ⟨hneg1, hbound⟩]

/-- Witness of C7. On the spec's example `bcopy_bw = 5e9`, `bandwidth = 10e9`,
`growth = 1e-9`, `overhead = 1e-7` the computed denominator is negative and the
thresholds are `SIZE_MAX` and `-1`. On `bcopy_bw = 5e8`, `bandwidth = 5e9`,
`growth = 1e-9`, `overhead = 1e-7` the computed quotient is the double
`124.99999999999997` and `zcopy_thresh` is 124. -/
theorem C7_auto_zcopy_thresh_witness :
    ((ucp_ep_config_init
        (example_auto_worker (cdouble.fin 5000000000) (cdouble.fin 10000000000)
          (cdouble.ofRat (1 / 10000000)))
        example_auto_config).zcopy_thresh = some SIZE_MAX ∧
     (ucp_ep_config_init
        (example_auto_worker (cdouble.fin 5000000000) (cdouble.fin 10000000000)
          (cdouble.ofRat (1 / 10000000)))
        example_auto_config).sync_zcopy_thresh = some (-1)) ∧
    (ucp_ep_config_init
        (example_auto_worker (cdouble.fin 500000000) (cdouble.fin 5000000000)
          (cdouble.ofRat (1 / 10000000)))
        example_auto_config).zcopy_thresh =
      some (Int.toNat ⌊(8796093022207998 / 2 ^ 46 : ℚ)⌋) ∧
    Int.toNat ⌊(8796093022207998 / 2 ^ 46 : ℚ)⌋ = 124 :=
  ⟨(C7_auto_zcopy_thresh
      (example_auto_worker (cdouble.fin 5000000000) (cdouble.fin 10000000000)
        (cdouble.ofRat (1 / 10000000)))
      example_auto_config (7555786372591432 / 2 ^ 76) (-(8704265901225331 / 2 ^ 83))
      (by decide) (by decide) (by decide) (by decide) rfl double_1e_7
      auto_denom_5e9_10e9).1 (by norm_num) (by norm_num) (by norm_num),
   ((((C7_auto_zcopy_thresh
      (example_auto_worker (cdouble.fin 500000000) (cdouble.fin 5000000000)
        (cdouble.ofRat (1 / 10000000)))
      example_auto_config (7555786372591432 / 2 ^ 76) (7737125245533628 / 2 ^ 83)
      (by decide) (by decide) (by decide) (by decide) rfl double_1e_7
      auto_denom_5e8_5e9).2.2.2 (by norm_num) (by norm_num)).2
      (8796093022207998 / 2 ^ 46)
      ((div_fin_pos_pos _ _ (by norm_num) (by norm_num)).trans auto_quotient_124)
      (by norm_num)).1),
   by
    have h : ⌊(8796093022207998 / 2 ^ 46 : ℚ)⌋ = 124 :=
      Int.floor_eq_iff.2 ⟨by norm_num, by norm_num⟩
    rw [h]
    rfl⟩

/-- Counterexample to C7 as stated, on a configuration that meets the premises of the
claim: with `bcopy_bw = 5e9`, `bandwidth = 10e9`, `growth = 1e-9` and `overhead = 0` the
denominator is negative (as a real number and as computed), the quotient is the
negative zero, which is not below zero, and `zcopy_thresh` and `sync_zcopy_thresh` are
set to 0, not to `SIZE_MAX` and `-1`. -/
theorem C7_counterexample :
    example_auto_config.key.am_lane ≠ UCP_NULL_LANE ∧
    example_auto_config.key.lanes example_auto_config.key.am_lane ≠ UCP_NULL_RESOURCE ∧
    (∀ b w o : cdouble,
      ((example_auto_worker b w o).iface_attrs 0).cap_flags &&& UCT_IFACE_FLAG_AM_ZCOPY ≠ 0 ∧
      ((example_auto_worker b w o).context.pd_attrs 0).cap_flags &&& UCT_PD_FLAG_REG ≠ 0 ∧
      (example_auto_worker b w o).context.config_ext_zcopy_thresh = UCS_CONFIG_MEMUNITS_AUTO) ∧
    (1 / 5000000000 - 1 / 10000000000 - 1 / 1000000000 : ℚ) ≤ 0 ∧
    ucp_ep_config_init_auto_denom (cdouble.fin 5000000000) (cdouble.fin 10000000000)
        (cdouble.ofRat (1 / 1000000000)) = cdouble.fin (-(8704265901225331 / 2 ^ 83)) ∧
    (ucp_ep_config_init
      (example_auto_worker (cdouble.fin 5000000000) (cdouble.fin 10000000000) (cdouble.fin 0))
      example_auto_config).zcopy_thresh = some 0 ∧
    (ucp_ep_config_init
      (example_auto_worker (cdouble.fin 5000000000) (cdouble.fin 10000000000) (cdouble.fin 0))
      example_auto_config).sync_zcopy_thresh = some 0 := by
  have hz : ∀ b w o : cdouble,
      ((example_auto_worker b w o).iface_attrs 0).cap_flags &&& UCT_IFACE_FLAG_AM_ZCOPY ≠ 0 := by
    intro b w o
    show UCT_IFACE_FLAG_AM_ZCOPY &&& UCT_IFACE_FLAG_AM_ZCOPY ≠ 0
    decide
  have hr : ∀ b w o : cdouble,
      ((example_auto_worker b w o).context.pd_attrs 0).cap_flags &&& UCT_PD_FLAG_REG ≠ 0 := by
    intro b w o
    show UCT_PD_FLAG_REG &&& UCT_PD_FLAG_REG ≠ 0
    decide
  have hq : ucp_ep_config_init_auto_thresh (cdouble.fin 5000000000) (cdouble.fin 10000000000)
      (cdouble.fin 0) (cdouble.ofRat (1 / 1000000000)) = cdouble.nzero := by
    unfold ucp_ep_config_init_auto_thresh
    rw [auto_denom_5e9_10e9]
    exact div_fin_zero_neg _ (by norm_num)
  obtain ⟨h1, h2⟩ := ucp_ep_config_init_auto
    (example_auto_worker (cdouble.fin 5000000000) (cdouble.fin 10000000000) (cdouble.fin 0))
    example_auto_config (by decide) (by decide) (hz _ _ _) (hr _ _ _) rfl
  refine ⟨by decide, by decide, fun b w o => ⟨hz b w o, hr b w o, rfl⟩, by norm_num,
    auto_denom_5e9_10e9, ?_, ?_⟩
  · exact h1.trans (by
      show (if (ucp_ep_config_init_auto_thresh (cdouble.fin 5000000000)
          (cdouble.fin 10000000000) (cdouble.fin 0) (cdouble.ofRat (1 / 1000000000))).ltZero
        then some SIZE_MAX
        else (ucp_ep_config_init_auto_thresh (cdouble.fin 5000000000)
          (cdouble.fin 10000000000) (cdouble.fin 0)
          (cdouble.ofRat (1 / 1000000000))).toSize) = some 0
      rw [hq]
      rfl)
  · exact h2.trans (by
      show (if (ucp_ep_config_init_auto_thresh (cdouble.fin 5000000000)
          (cdouble.fin 10000000000) (cdouble.fin 0) (cdouble.ofRat (1 / 1000000000))).ltZero
        then some (-1)
        else (ucp_ep_config_init_auto_thresh (cdouble.fin 5000000000)
          (cdouble.fin 10000000000) (cdouble.fin 0)
          (cdouble.ofRat (1 / 1000000000))).toSSize) = some 0
      rw [hq]
      rfl)

/-! ### C3: adding a pending request -/

/-- C3 (amended): for every pending request whose `func` is non-null,
`ucp_ep_add_pending_uct` calls the lane's `pending_add` once and then: when
`pending_add` returns a non-busy status the progress function is not invoked and the
result is OK (the request counts as added to pending); when `pending_add` returns busy
the progress function is invoked exactly once, and the result is OK if that call
returns OK and NO_PROGRESS otherwise. -/
theorem C3_add_pending_uct (uct_ep : uct_ep_t) (req : uct_pending_req_t)
    (add_status func_status : ucs_status_t) (hfunc : req.func ≠ none) :
    (add_status ≠ UCS_ERR_BUSY →
      ucp_ep_add_pending_uct uct_ep req add_status func_status =
        some (UCS_OK, [ucp_ep_event.uct_ep_pending_add uct_ep.id req.req])) ∧
    (add_status = UCS_ERR_BUSY → func_status = UCS_OK →
      ucp_ep_add_pending_uct uct_ep req add_status func_status =
        some (UCS_OK, [ucp_ep_event.uct_ep_pending_add uct_ep.id req.req,
                       ucp_ep_event.req_func req.req])) ∧
    (add_status = UCS_ERR_BUSY → func_status ≠ UCS_OK →
      ucp_ep_add_pending_uct uct_ep req add_status func_status =
        some (UCS_ERR_NO_PROGRESS, [ucp_ep_event.uct_ep_pending_add uct_ep.id req.req,
                                    ucp_ep_event.req_func req.req])) := by
  refine ⟨?_, ?_, ?_⟩
  · intro h
    simp [ucp_ep_add_pending_uct, hfunc, h]
  · intro h1 h2
    simp [ucp_ep_add_pending_uct, hfunc, h1, h2]
  · intro h1 h2
    simp [ucp_ep_add_pending_uct, hfunc, h1, h2]

/-- Witness of C3: request 7 with a progress function on lane 1; the lane answers busy
and the progress function returns an error. -/
theorem C3_add_pending_uct_witness :
    ucp_ep_add_pending_uct { id := 1 } { req := 7, func := some 1 } UCS_ERR_BUSY
        UCS_ERR_NO_MEMORY =
      some (UCS_ERR_NO_PROGRESS, [ucp_ep_event.uct_ep_pending_add 1 7,
                                  ucp_ep_event.req_func 7]) :=
  (C3_add_pending_uct { id := 1 } { req := 7, func := some 1 } UCS_ERR_BUSY
    UCS_ERR_NO_MEMORY (by decide)).2.2 rfl (by decide)

/-- Counterexample to C3 as stated: when `pending_add` returns busy the progress function
of request 7 is invoked (once, not zero times), and when `pending_add` returns the
non-busy status OK it is not invoked at all (zero times, not once). -/
theorem C3_counterexample :
    (∃ status trace,
      ucp_ep_add_pending_uct { id := 1 } { req := 7, func := some 1 } UCS_ERR_BUSY UCS_OK =
        some (status, trace) ∧ trace.count (ucp_ep_event.req_func 7) = 1) ∧
    (∃ status trace,
      ucp_ep_add_pending_uct { id := 1 } { req := 7, func := some 1 } UCS_OK UCS_OK =
        some (status, trace) ∧ trace.count (ucp_ep_event.req_func 7) = 0) :=
  ⟨⟨_, _, rfl, by decide⟩, ⟨_, _, rfl, by decide⟩⟩

/-! ### C4: destroying an endpoint -/

/-- The purge with the release callback produces the purge event followed by one
cancellation per pending request. -/
theorem uct_ep_pending_purge_release (uct_ep : uct_ep_t) :
    (uct_ep_pending_purge uct_ep ucp_ep_pending_req_release).2 ++
        [ucp_ep_event.uct_ep_destroy uct_ep.id] = lane_destroy_events uct_ep ∧
    (uct_ep_pending_purge uct_ep ucp_ep_pending_req_release).1 =
      { uct_ep with pending := [] } := by
  refine ⟨?_, rfl⟩
  unfold uct_ep_pending_purge lane_destroy_events ucp_ep_pending_req_release
  simp only [List.cons_append, List.cons.injEq, true_and]
  congr 1
  induction uct_ep.pending with
  | nil => rfl
  | cons r rs ih => simp [List.flatten_cons, ih]

/-- The loop of `ucp_ep_destory_uct_eps`: the events of the lanes it visits, in lane
order, and the lanes it leaves with an empty pending queue. -/
theorem ucp_ep_destory_uct_eps_loop_spec (todo lane : Nat) (uct_eps : Nat → uct_ep_t)
    (trace : List ucp_ep_event) :
    (ucp_ep_destory_uct_eps_loop todo lane (uct_eps, trace)).2 =
      trace ++ ((List.range' lane todo).map (fun l => lane_destroy_events (uct_eps l))).flatten ∧
    ∀ l, (ucp_ep_destory_uct_eps_loop todo lane (uct_eps, trace)).1 l =
      if lane ≤ l ∧ l < lane + todo then { uct_eps l with pending := [] } else uct_eps l := by
  induction todo generalizing lane uct_eps trace with
  | zero =>
    refine ⟨by simp [ucp_ep_destory_uct_eps_loop], ?_⟩
    intro l
    have : ¬ (lane ≤ l ∧ l < lane + 0) := by omega
    rw [if_neg this]
    rfl
  | succ n ih =>
    unfold ucp_ep_destory_uct_eps_loop
    simp only []
    obtain ⟨he, hs⟩ := uct_ep_pending_purge_release (uct_eps lane)
    obtain ⟨ih1, ih2⟩ := ih (lane + 1)
      (Function.update uct_eps lane (uct_ep_pending_purge (uct_eps lane) ucp_ep_pending_req_release).1)
      (trace ++ (uct_ep_pending_purge (uct_eps lane) ucp_ep_pending_req_release).2 ++
        [ucp_ep_event.uct_ep_destroy (uct_eps lane).id])
    constructor
    · rw [ih1, List.range'_succ, List.map_cons, List.flatten_cons, List.append_assoc trace,
        he, List.append_assoc]
      congr 2
      congr 1
      apply List.map_congr_left
      intro l hl
      rw [List.mem_range'_1] at hl
      rw [Function.update_noteq (by omega)]
    · intro l
      rw [ih2 l]
      by_cases hl : l = lane
      · subst hl
        have h1 : ¬ (l + 1 ≤ l ∧ l < l + 1 + n) := by omega
        have h2 : l ≤ l ∧ l < l + (n + 1) := by omega
        rw [if_neg h1, if_pos h2, Function.update_same, hs]
      · rw [Function.update_noteq hl]
        by_cases h1 : lane + 1 ≤ l ∧ l < lane + 1 + n
        · have h2 : lane ≤ l ∧ l < lane + (n + 1) := by omega
          rw [if_pos h1, if_pos h2]
        · have h2 : ¬ (lane ≤ l ∧ l < lane + (n + 1)) := by omega
          rw [if_neg h1, if_neg h2]

/-- The completions among the events of one lane: its pending requests, each with
`UCS_ERR_CANCELED`. -/
theorem completions_lane_destroy_events (uct_ep : uct_ep_t) :
    completions (lane_destroy_events uct_ep) =
      uct_ep.pending.map (fun req => (req.id, UCS_ERR_CANCELED)) := by
  unfold completions lane_destroy_events
  rw [List.filterMap_cons_none rfl, List.filterMap_append]
  simp only [List.filterMap_cons_none, List.filterMap_nil, List.append_nil]
  induction uct_ep.pending with
  | nil => rfl
  | cons r rs ih => simp [List.filterMap_cons, ih]

/-- The completions among the events of several lanes. -/
theorem completions_lanes (lanes : List uct_ep_t) :
    completions ((lanes.map lane_destroy_events).flatten) =
      ((lanes.map (fun u => u.pending)).flatten).map (fun req => (req.id, UCS_ERR_CANCELED)) := by
  induction lanes with
  | nil => rfl
  | cons u us ih =>
    simp only [List.map_cons, List.flatten_cons, List.map_append]
    rw [← ih, ← completions_lane_destroy_events]
    unfold completions
    rw [List.filterMap_append]

/-- In the events of several lanes followed by events that destroy no lane, every
destruction of a lane handle comes after a purge of that handle. -/
theorem purge_before_destroy (lanes : List uct_ep_t) (tail pre post : List ucp_ep_event)
    (u : Nat) (htail : ucp_ep_event.uct_ep_destroy u ∉ tail)
    (h : (lanes.map lane_destroy_events).flatten ++ tail =
      pre ++ ucp_ep_event.uct_ep_destroy u :: post) :
    ucp_ep_event.uct_ep_pending_purge u ∈ pre := by
  induction lanes generalizing pre with
  | nil =>
    exfalso
    apply htail
    simp only [List.map_nil, List.flatten_nil, List.nil_append] at h
    rw [h]
    simp
  | cons v vs ih =>
    simp only [List.map_cons, List.flatten_cons, List.append_assoc] at h
    rw [List.append_eq_append_iff] at h
    rcases h with ⟨a, hpre, hrest⟩ | ⟨c, hlane, hrest⟩
    · rw [hpre]
      exact List.mem_append_right _ (ih a hrest)
    · cases c with
      | nil =>
        simp only [List.nil_append] at hrest
        simp only [List.append_nil] at hlane
        have := ih [] (by simpa using hrest.symm)
        simp at this
      | cons e c' =>
        simp only [List.cons_append, List.cons.injEq] at hrest
        obtain ⟨he, _⟩ := hrest
        subst he
        have hmem : ucp_ep_event.uct_ep_destroy u ∈ lane_destroy_events v := by
          rw [hlane]; simp
        have hu : u = v.id := by
          unfold lane_destroy_events at hmem
          simp only [List.mem_cons, List.mem_append, List.mem_map, List.mem_singleton,
            ucp_ep_event.uct_ep_destroy.injEq, reduceCtorEq, false_and, exists_false,
            false_or, List.not_mem_nil, or_false] at hmem
          rcases hmem with ⟨_, _, hf⟩ | hmem
          · exact absurd hf id
          · exact hmem
        cases pre with
        | nil =>
          unfold lane_destroy_events at hlane
          simp at hlane
        | cons p pre' =>
          unfold lane_destroy_events at hlane
          simp only [List.cons_append, List.cons.injEq] at hlane
          rw [← hlane.1, hu]
          exact List.mem_cons_self _ _

/-- C4: for every endpoint with `L` lanes, `ucp_ep_destroy` completes the requests
pending on its lanes exactly once each, in lane order, all with status CANCELED through
the send callback: the completions of the trace are exactly the `K` pending requests
(so none is completed twice and none with another status), every lane is left with an
empty pending queue (none is left pending), and every destruction of a lane's transport
endpoint comes after the `pending_purge` of that lane. -/
theorem C4_destroy_cancels_pending (worker : ucp_worker) (addr : Nat) (ep : ucp_ep)
    (hlive : worker.eps addr = some ep) :
    completions (ucp_ep_destroy worker addr).2.2 =
      (ucp_ep_pending_reqs ep (ucp_ep_num_lanes worker ep)).map
        (fun req => (req.id, UCS_ERR_CANCELED)) ∧
    (completions (ucp_ep_destroy worker addr).2.2).length =
      ((List.range (ucp_ep_num_lanes worker ep)).map
        (fun lane => (ep.uct_eps lane).pending.length)).sum ∧
    (∀ req : Nat, (completions (ucp_ep_destroy worker addr).2.2).count (req, UCS_ERR_CANCELED) =
      ((ucp_ep_pending_reqs ep (ucp_ep_num_lanes worker ep)).map (fun q => q.id)).count req) ∧
    (∀ lane, lane < ucp_ep_num_lanes worker ep →
      ((ucp_ep_destroy worker addr).2.1 lane).pending = []) ∧
    (∀ lane, lane < ucp_ep_num_lanes worker ep →
      ucp_ep_event.uct_ep_destroy (ep.uct_eps lane).id ∈ (ucp_ep_destroy worker addr).2.2) ∧
    (∀ (u : Nat) (pre post : List ucp_ep_event),
      (ucp_ep_destroy worker addr).2.2 = pre ++ ucp_ep_event.uct_ep_destroy u :: post →
      ucp_ep_event.uct_ep_pending_purge u ∈ pre) := by
  have hep : ucp_ep_deref worker addr = ep := by simp [ucp_ep_deref, hlive]
  have hL : ucp_ep_num_lanes
      { worker with ep_hash := sglib_hashed_ucp_ep_t_delete worker.ep_hash addr ep } ep =
      ucp_ep_num_lanes worker ep := rfl
  obtain ⟨htrace, hlanes⟩ := ucp_ep_destory_uct_eps_loop_spec (ucp_ep_num_lanes worker ep) 0
    ep.uct_eps []
  have hd2 : (ucp_ep_destroy worker addr).2.2 =
      (((List.range (ucp_ep_num_lanes worker ep)).map ep.uct_eps).map lane_destroy_events).flatten
        ++ [ucp_ep_event.ucs_free addr] := by
    simp only [ucp_ep_destroy, hep, ucp_ep_destory_uct_eps, hL]
    rw [htrace, List.nil_append, List.range_eq_range', List.map_map]
    rfl
  have hd1 : (ucp_ep_destroy worker addr).2.1 =
      (ucp_ep_destory_uct_eps_loop (ucp_ep_num_lanes worker ep) 0 (ep.uct_eps, [])).1 := by
    simp only [ucp_ep_destroy, hep, ucp_ep_destory_uct_eps, hL]
  have hcompl : completions (ucp_ep_destroy worker addr).2.2 =
      (ucp_ep_pending_reqs ep (ucp_ep_num_lanes worker ep)).map
        (fun req => (req.id, UCS_ERR_CANCELED)) := by
    rw [hd2]
    unfold completions
    rw [List.filterMap_append]
    simp only [List.filterMap_cons_none, List.filterMap_nil, List.append_nil]
    have := completions_lanes ((List.range (ucp_ep_num_lanes worker ep)).map ep.uct_eps)
    unfold completions at this
    rw [this, List.map_map]
    rfl
  refine ⟨hcompl, ?_, ?_, ?_, ?_, ?_⟩
  · rw [hcompl, List.length_map]
    unfold ucp_ep_pending_reqs
    rw [List.length_flatten, List.map_map]
    rfl
  · intro req
    rw [hcompl]
    induction ucp_ep_pending_reqs ep (ucp_ep_num_lanes worker ep) with
    | nil => rfl
    | cons q qs ih =>
      simp only [List.map_cons, List.count_cons, ih]
      congr 1
      by_cases hq : q.id = req <;> simp [hq]
  · intro lane hlane
    rw [hd1, hlanes lane, if_pos ⟨Nat.zero_le _, by omega⟩]
  · intro lane hlane
    rw [hd2]
    apply List.mem_append_left
    rw [List.mem_flatten]
    refine ⟨lane_destroy_events (ep.uct_eps lane), ?_, ?_⟩
    · rw [List.map_map, List.mem_map]
      exact ⟨lane, List.mem_range.2 hlane, rfl⟩
    · unfold lane_destroy_events
      simp
  · intro u pre post h
    rw [hd2] at h
    exact purge_before_destroy _ _ pre post u (by simp) h

/-- Witness of C4: the endpoint of `example_worker` has 2 lanes with 3 pending requests
each; its destruction completes exactly 6 requests. -/
theorem C4_destroy_cancels_pending_witness :
    example_worker.eps 100 = some example_ep ∧
    (completions (ucp_ep_destroy example_worker 100).2.2).length = 6 :=
  ⟨rfl, (C4_destroy_cancels_pending example_worker 100 example_ep rfl).2.1.trans (by decide)⟩

/-! ### C6: the endpoint hash -/

/-- The invariant only reads `ep_hash` and `eps`. -/
theorem ep_hash_inv_congr (w w' : ucp_worker) (h1 : w'.ep_hash = w.ep_hash)
    (h2 : w'.eps = w.eps) (hinv : ep_hash_inv w) : ep_hash_inv w' := by
  unfold ep_hash_inv at hinv ⊢
  rw [h1, h2]
  exact hinv

/-- A failed lookup means that no entry is stored under the uuid. -/
theorem ucp_worker_ep_find_none (w : ucp_worker) (dest_uuid : Nat)
    (h : ucp_worker_ep_find w dest_uuid = none) :
    dest_uuid ∉ w.ep_hash.map Prod.fst := by
  unfold ucp_worker_ep_find at h
  rw [Option.map_eq_none', List.find?_eq_none] at h
  intro hmem
  rw [List.mem_map] at hmem
  obtain ⟨e, he, hk⟩ := hmem
  exact h e he (by simp [hk])

/-- Entering a new endpoint at an unused address under a uuid that is not in the hash
keeps the invariant. -/
theorem ep_hash_inv_new (w : ucp_worker) (dest_uuid ep : Nat) (hinv : ep_hash_inv w)
    (hfresh : w.eps ep = none) (hfind : ucp_worker_ep_find w dest_uuid = none) :
    ep_hash_inv (ucp_ep_new w dest_uuid (some ep)).2.1 := by
  obtain ⟨hnd, hag⟩ := hinv
  unfold ucp_ep_new sglib_hashed_ucp_ep_t_add
  constructor
  · simp only [List.map_cons, List.nodup_cons]
    exact ⟨ucp_worker_ep_find_none w dest_uuid hfind, hnd⟩
  · intro e he
    simp only [List.mem_cons] at he
    rcases he with rfl | he
    · simp
    · have hne : e.2 ≠ ep := by
        intro heq
        have := hag e he
        rw [heq, hfresh] at this
        simp at this
      simp only [Function.update_noteq hne]
      exact hag e he

/-- Overwriting a live endpoint object without changing its `dest_uuid` keeps the
invariant. -/
theorem ep_hash_inv_store (w : ucp_worker) (ep : Nat) (obj : ucp_ep) (hinv : ep_hash_inv w)
    (hsame : ∀ old, w.eps ep = some old → old.dest_uuid = obj.dest_uuid) :
    ep_hash_inv { w with eps := Function.update w.eps ep (some obj) } := by
  obtain ⟨hnd, hag⟩ := hinv
  refine ⟨hnd, ?_⟩
  intro e he
  have h := hag e he
  show Option.map (fun obj => obj.dest_uuid) (Function.update w.eps ep (some obj) e.2) =
    some e.1
  by_cases heq : e.2 = ep
  · rw [heq] at h
    rw [heq, Function.update_same]
    cases hold : w.eps ep with
    | none => rw [hold] at h; simp at h
    | some old =>
      rw [hold] at h
      simp only [Option.map_some', Option.some.injEq] at h
      simp only [Option.map_some', Option.some.injEq]
      rw [← hsame old hold, h]
  · rw [Function.update_noteq heq]
    exact h

/-- The function `ucp_ep_delete` keeps the invariant. -/
theorem ep_hash_inv_delete (w : ucp_worker) (ep : Nat) (hinv : ep_hash_inv w) :
    ep_hash_inv (ucp_ep_delete w ep).1 := by
  obtain ⟨hnd, hag⟩ := hinv
  unfold ucp_ep_delete sglib_hashed_ucp_ep_t_delete
  simp only []
  constructor
  · exact List.Nodup.sublist ((List.erase_sublist _ _).map _) hnd
  · intro e he
    have he' : e ∈ w.ep_hash := List.mem_of_mem_erase he
    have h := hag e he'
    have hne : e.2 ≠ ep := by
      intro heq
      rw [heq] at h
      cases hold : w.eps ep with
      | none => rw [hold] at h; simp at h
      | some old =>
        rw [hold] at h
        simp only [Option.map_some', Option.some.injEq] at h
        have hx : e = ((ucp_ep_deref w ep).dest_uuid, ep) := by
          simp only [ucp_ep_deref, hold, Option.getD_some]
          exact Prod.ext h.symm heq
        have hnd' : w.ep_hash.Nodup := List.Nodup.of_map _ hnd
        rw [hx] at he
        exact (List.Nodup.not_mem_erase hnd') he
    simp only [Function.update_noteq hne]
    exact h

/-- Interning a configuration key does not touch the endpoint hash or the endpoints. -/
theorem ucp_worker_get_ep_config_frame (w : ucp_worker) (key : ucp_ep_config_key_t) :
    (ucp_worker_get_ep_config w key).1.ep_hash = w.ep_hash ∧
    (ucp_worker_get_ep_config w key).1.eps = w.eps := by
  unfold ucp_worker_get_ep_config
  split <;> exact ⟨rfl, rfl⟩

/-- The function `ucp_ep_destroy` keeps the invariant. -/
theorem ep_hash_inv_destroy (w : ucp_worker) (ep : Nat) (hinv : ep_hash_inv w) :
    ep_hash_inv (ucp_ep_destroy w ep).1 :=
  ep_hash_inv_congr (ucp_ep_delete w ep).1 _ rfl rfl (ep_hash_inv_delete w ep hinv)

/-- The function `ucp_ep_create_connected` keeps the invariant when the uuid is not yet in
the hash. -/
theorem ep_hash_inv_create_connected (w : ucp_worker) (dest_uuid : Nat) (alloc : Option Nat)
    (wireup : ucp_ep → ucp_wireup_result_t) (hinv : ep_hash_inv w)
    (hfresh : alloc_fresh w alloc) (hfind : ucp_worker_ep_find w dest_uuid = none) :
    ep_hash_inv (ucp_ep_create_connected w dest_uuid alloc wireup).2.1 := by
  cases alloc with
  | none => exact hinv
  | some ep =>
    have hnew := ep_hash_inv_new w dest_uuid ep hinv (hfresh ep rfl) hfind
    have hstore := ep_hash_inv_store (ucp_ep_new w dest_uuid (some ep)).2.1 ep
      { ucp_ep_deref (ucp_ep_new w dest_uuid (some ep)).2.1 ep with
        uct_eps := (wireup (ucp_ep_deref (ucp_ep_new w dest_uuid (some ep)).2.1 ep)).uct_eps,
        cfg_index := (wireup (ucp_ep_deref (ucp_ep_new w dest_uuid (some ep)).2.1 ep)).cfg_index,
        am_lane := (wireup (ucp_ep_deref (ucp_ep_new w dest_uuid (some ep)).2.1 ep)).am_lane,
        flags := (wireup (ucp_ep_deref (ucp_ep_new w dest_uuid (some ep)).2.1 ep)).flags }
      hnew (by
        intro old hold
        simp only [ucp_ep_deref, hold, Option.getD_some])
    unfold ucp_ep_create_connected
    simp only []
    have hok : (ucp_ep_new w dest_uuid (some ep)).1 = UCS_OK := rfl
    have hptr : (ucp_ep_new w dest_uuid (some ep)).2.2 = ep := rfl
    rw [if_neg (by rw [hok]; exact fun h => h rfl), hptr]
    split_ifs
    · exact ep_hash_inv_delete _ ep hstore
    · exact hstore

/-- The function `ucp_ep_create_stub` keeps the invariant when the uuid is not yet in the
hash. -/
theorem ep_hash_inv_create_stub (w : ucp_worker) (dest_uuid : Nat) (alloc : Option Nat)
    (garbage : Nat → Nat) (stub : ucs_status_t × uct_ep_t) (hinv : ep_hash_inv w)
    (hfresh : alloc_fresh w alloc) (hfind : ucp_worker_ep_find w dest_uuid = none) :
    ep_hash_inv (ucp_ep_create_stub w dest_uuid alloc garbage stub).2.1 := by
  cases alloc with
  | none => exact hinv
  | some ep =>
    have hnew := ep_hash_inv_new w dest_uuid ep hinv (hfresh ep rfl) hfind
    obtain ⟨hf1, hf2⟩ := ucp_worker_get_ep_config_frame (ucp_ep_new w dest_uuid (some ep)).2.1
      { am_lane := 0, rma_lanes_map := 1, amo_lanes_map := 1, wireup_msg_lane := 0,
        lanes := Function.update garbage 0 UCP_NULL_RESOURCE, num_lanes := 1 }
    have hint := ep_hash_inv_congr _ _ hf1 hf2 hnew
    unfold ucp_ep_create_stub
    simp only []
    have hok : (ucp_ep_new w dest_uuid (some ep)).1 = UCS_OK := rfl
    have hptr : (ucp_ep_new w dest_uuid (some ep)).2.2 = ep := rfl
    rw [if_neg (by rw [hok]; exact fun h => h rfl), hptr]
    have hstore := fun obj hsame => ep_hash_inv_store _ ep obj hint hsame
    split_ifs
    · apply ep_hash_inv_delete
      apply hstore
      intro old hold
      simp only [ucp_ep_deref, hold, Option.getD_some]
    · apply hstore
      intro old hold
      simp only [ucp_ep_deref, hold, Option.getD_some]

/-- The function `ucp_ep_create` keeps the invariant. -/
theorem ep_hash_inv_create (w : ucp_worker) (unpack : ucs_status_t × Nat)
    (alloc : Option Nat) (wireup : ucp_ep → ucp_wireup_result_t) (send_request : ucs_status_t)
    (hinv : ep_hash_inv w) (hfresh : alloc_fresh w alloc) :
    ep_hash_inv (ucp_ep_create w unpack alloc wireup send_request).2.1 := by
  unfold ucp_ep_create
  simp only []
  by_cases h1 : unpack.1 ≠ UCS_OK
  · rw [if_pos h1]
    exact hinv
  · rw [if_neg h1]
    cases hfind : ucp_worker_ep_find w unpack.2 with
    | some ep => exact hinv
    | none =>
      have hc := ep_hash_inv_create_connected w unpack.2 alloc wireup hinv hfresh hfind
      simp only []
      split_ifs
      · exact hc
      · exact ep_hash_inv_destroy _ _ hc
      · exact hc
      · exact hc

/-- C6 (amended): the predicate "no two endpoints in the worker's `ep_hash` have the same
`dest_uuid`, and every endpoint in the hash is stored under its own `dest_uuid`" is
preserved by `ucp_ep_create` and `ucp_ep_destroy` for every worker state satisfying it
and every argument, and by `ucp_ep_create_connected` and `ucp_ep_create_stub` when no
endpoint with the given `dest_uuid` is in the hash (these two enter the new endpoint
without a lookup). The allocator is assumed to return memory that is not in use. -/
theorem C6_ep_hash_inv_preserved (worker : ucp_worker) (hinv : ep_hash_inv worker) :
    (∀ (unpack : ucs_status_t × Nat) (alloc : Option Nat)
       (wireup : ucp_ep → ucp_wireup_result_t) (send_request : ucs_status_t),
      alloc_fresh worker alloc →
      ep_hash_inv (ucp_ep_create worker unpack alloc wireup send_request).2.1) ∧
    (∀ (dest_uuid : Nat) (alloc : Option Nat) (wireup : ucp_ep → ucp_wireup_result_t),
      alloc_fresh worker alloc → ucp_worker_ep_find worker dest_uuid = none →
      ep_hash_inv (ucp_ep_create_connected worker dest_uuid alloc wireup).2.1) ∧
    (∀ (dest_uuid : Nat) (alloc : Option Nat) (garbage : Nat → Nat)
       (stub : ucs_status_t × uct_ep_t),
      alloc_fresh worker alloc → ucp_worker_ep_find worker dest_uuid = none →
      ep_hash_inv (ucp_ep_create_stub worker dest_uuid alloc garbage stub).2.1) ∧
    (∀ ep : Nat, ep_hash_inv (ucp_ep_destroy worker ep).1) :=
  ⟨fun unpack alloc wireup send_request hfresh =>
     ep_hash_inv_create worker unpack alloc wireup send_request hinv hfresh,
   fun dest_uuid alloc wireup hfresh hfind =>
     ep_hash_inv_create_connected worker dest_uuid alloc wireup hinv hfresh hfind,
   fun dest_uuid alloc garbage stub hfresh hfind =>
     ep_hash_inv_create_stub worker dest_uuid alloc garbage stub hinv hfresh hfind,
   fun ep => ep_hash_inv_destroy worker ep hinv⟩

/-- The worker `example_worker` satisfies the invariant. -/
theorem example_worker_inv : ep_hash_inv example_worker := by
  refine ⟨by decide, ?_⟩
  intro e he
  have : e = (5, 100) := by simpa [example_worker] using he
  subst this
  rfl

/-- Witness of C6: on `example_worker`, creating a stub endpoint for the new uuid 6 at the
unused address 200 keeps the invariant. -/
theorem C6_ep_hash_inv_preserved_witness :
    ep_hash_inv example_worker ∧
    ep_hash_inv (ucp_ep_create_stub example_worker 6 (some 200) (fun _ => 0)
      (UCS_OK, { id := 12 })).2.1 :=
  ⟨example_worker_inv,
   (C6_ep_hash_inv_preserved example_worker example_worker_inv).2.2.1 6 (some 200)
     (fun _ => 0) (UCS_OK, { id := 12 })
     (fun ep h => by cases h; rfl) rfl⟩

/-- Counterexample to C6 as stated: `example_worker` satisfies the predicate and holds an
endpoint for uuid 5; `ucp_ep_create_stub` for uuid 5 (at the unused address 200) enters a
second endpoint under uuid 5, and the predicate fails afterwards. -/
theorem C6_counterexample :
    ep_hash_inv example_worker ∧ alloc_fresh example_worker (some 200) ∧
    (ucp_ep_create_stub example_worker 5 (some 200) (fun _ => 0) (UCS_OK, { id := 12 })).1 =
      UCS_OK ∧
    ¬ ep_hash_inv (ucp_ep_create_stub example_worker 5 (some 200) (fun _ => 0)
      (UCS_OK, { id := 12 })).2.1 := by
  refine ⟨example_worker_inv, fun ep h => by cases h; rfl, rfl, ?_⟩
  intro h
  have hk : ((ucp_ep_create_stub example_worker 5 (some 200) (fun _ => 0)
      (UCS_OK, { id := 12 })).2.1.ep_hash.map Prod.fst) = [5, 5] := rfl
  have := h.1
  rw [hk] at this
  exact absurd this (by decide)

/-! ### C9: SysV allocation attempts -/

/-- The attempts of `uct_sysv_mem_alloc` in each hugetlb mode. -/
theorem uct_sysv_mem_alloc_attempts
    (ucs_sysv_alloc : Nat → Nat → Nat → Nat → ucs_sysv_alloc_result_t)
    (seg : uct_mm_seg_t) (uct_flags : Nat) :
    (uct_sysv_mem_alloc UCS_NO ucs_sysv_alloc seg uct_flags).2.2 =
      [sysv_plain_attempt ucs_sysv_alloc (sysv_start_seg seg uct_flags)] ∧
    (uct_sysv_mem_alloc UCS_YES ucs_sysv_alloc seg uct_flags).2.2 =
      [sysv_huge_attempt ucs_sysv_alloc (sysv_start_seg seg uct_flags)] ∧
    (uct_sysv_mem_alloc UCS_TRY ucs_sysv_alloc seg uct_flags).2.2 =
      (if (sysv_huge_attempt ucs_sysv_alloc (sysv_start_seg seg uct_flags)).result.status = UCS_OK
       then [sysv_huge_attempt ucs_sysv_alloc (sysv_start_seg seg uct_flags)]
       else [sysv_huge_attempt ucs_sysv_alloc (sysv_start_seg seg uct_flags),
             sysv_plain_attempt ucs_sysv_alloc
               (sysv_seg_after (sysv_start_seg seg uct_flags)
                 (sysv_huge_attempt ucs_sysv_alloc (sysv_start_seg seg uct_flags)))]) := by
  refine ⟨?_, ?_, ?_⟩
  · simp only [uct_sysv_mem_alloc, uct_sysv_mem_alloc_plain, sysv_plain_attempt, sysv_start_seg]
    split_ifs <;> simp_all
  · simp only [uct_sysv_mem_alloc, uct_sysv_mem_alloc_plain, sysv_huge_attempt, sysv_start_seg]
    split_ifs <;> simp_all
  · simp only [uct_sysv_mem_alloc, uct_sysv_mem_alloc_plain, sysv_huge_attempt,
      sysv_plain_attempt, sysv_seg_after, sysv_start_seg]
    split_ifs <;> simp_all

/-- The result of `uct_sysv_mem_alloc` in terms of the last attempt made. -/
theorem uct_sysv_mem_alloc_result (hugetlb_mode : ucs_ternary_value_t)
    (ucs_sysv_alloc : Nat → Nat → Nat → Nat → ucs_sysv_alloc_result_t)
    (seg : uct_mm_seg_t) (uct_flags : Nat) :
    ∃ (init : List ucs_sysv_attempt_t) (last : ucs_sysv_attempt_t),
      (uct_sysv_mem_alloc hugetlb_mode ucs_sysv_alloc seg uct_flags).2.2 = init ++ [last] ∧
      (∀ a ∈ init, a.result.status ≠ UCS_OK) ∧
      (uct_sysv_mem_alloc hugetlb_mode ucs_sysv_alloc seg uct_flags).1 = last.result.status ∧
      (last.result.status = UCS_OK →
        (uct_sysv_mem_alloc hugetlb_mode ucs_sysv_alloc seg uct_flags).2.1.seg_id =
          int_to_seg_id last.result.shmid) := by
  cases hugetlb_mode
  · refine ⟨[], sysv_plain_attempt ucs_sysv_alloc (sysv_start_seg seg uct_flags), ?_, ?_, ?_, ?_⟩
    · exact (uct_sysv_mem_alloc_attempts ucs_sysv_alloc seg uct_flags).1
    · intro a ha; simp at ha
    · simp only [uct_sysv_mem_alloc, uct_sysv_mem_alloc_plain, sysv_plain_attempt, sysv_start_seg]
      split_ifs <;> simp_all
    · intro hok
      simp only [uct_sysv_mem_alloc, uct_sysv_mem_alloc_plain, sysv_plain_attempt,
        sysv_start_seg] at hok ⊢
      split_ifs <;> simp_all
  · refine ⟨[], sysv_huge_attempt ucs_sysv_alloc (sysv_start_seg seg uct_flags), ?_, ?_, ?_, ?_⟩
    · exact (uct_sysv_mem_alloc_attempts ucs_sysv_alloc seg uct_flags).2.1
    · intro a ha; simp at ha
    · simp only [uct_sysv_mem_alloc, uct_sysv_mem_alloc_plain, sysv_huge_attempt, sysv_start_seg]
      split_ifs <;> simp_all
    · intro hok
      simp only [uct_sysv_mem_alloc, uct_sysv_mem_alloc_plain, sysv_huge_attempt,
        sysv_start_seg] at hok ⊢
      split_ifs <;> simp_all
  · by_cases h : (sysv_huge_attempt ucs_sysv_alloc (sysv_start_seg seg uct_flags)).result.status
        = UCS_OK
    · refine ⟨[], sysv_huge_attempt ucs_sysv_alloc (sysv_start_seg seg uct_flags), ?_, ?_, ?_, ?_⟩
      · rw [(uct_sysv_mem_alloc_attempts ucs_sysv_alloc seg uct_flags).2.2, if_pos h]
        rfl
      · intro a ha; simp at ha
      · simp only [uct_sysv_mem_alloc, uct_sysv_mem_alloc_plain, sysv_huge_attempt,
          sysv_start_seg] at h ⊢
        split_ifs <;> simp_all
      · intro _
        simp only [uct_sysv_mem_alloc, uct_sysv_mem_alloc_plain, sysv_huge_attempt,
          sysv_start_seg] at h ⊢
        split_ifs <;> simp_all
    · refine ⟨[sysv_huge_attempt ucs_sysv_alloc (sysv_start_seg seg uct_flags)],
        sysv_plain_attempt ucs_sysv_alloc
          (sysv_seg_after (sysv_start_seg seg uct_flags)
            (sysv_huge_attempt ucs_sysv_alloc (sysv_start_seg seg uct_flags))), ?_, ?_, ?_, ?_⟩
      · rw [(uct_sysv_mem_alloc_attempts ucs_sysv_alloc seg uct_flags).2.2, if_neg h]
        rfl
      · intro a ha
        simp only [List.mem_singleton] at ha
        rw [ha]; exact h
      · simp only [uct_sysv_mem_alloc, uct_sysv_mem_alloc_plain, sysv_huge_attempt,
          sysv_plain_attempt, sysv_seg_after, sysv_start_seg] at h ⊢
        split_ifs <;> simp_all
      · intro hok
        simp only [uct_sysv_mem_alloc, uct_sysv_mem_alloc_plain, sysv_huge_attempt,
          sysv_plain_attempt, sysv_seg_after, sysv_start_seg] at h hok ⊢
        split_ifs <;> simp_all

/-- C9 (amended): `uct_sysv_mem_alloc`, in the hugetlb-capable build and with the
allocator as an oracle, makes these attempts for every requested length: in mode off
only the attempt without `SHM_HUGETLB` and with no size cap (`SIZE_MAX`); in mode try the
`SHM_HUGETLB` attempt and, only if it fails, the attempt without `SHM_HUGETLB`; in mode
required only the `SHM_HUGETLB` attempt. The `SHM_HUGETLB` attempt is capped at twice the
length computed in `size_t`, that is `(2 * length) mod 2^64`, which is twice the length
for every length below `2^63`. In every mode the function returns OK exactly when one
attempt succeeds, `seg_id` is then the shmid of that attempt (the last one made), and the
status returned is always that of the last attempt made. -/
theorem C9_sysv_mem_alloc
    (ucs_sysv_alloc : Nat → Nat → Nat → Nat → ucs_sysv_alloc_result_t)
    (seg : uct_mm_seg_t) (uct_flags : Nat) :
    ((uct_sysv_mem_alloc UCS_NO ucs_sysv_alloc seg uct_flags).2.2 =
      [sysv_plain_attempt ucs_sysv_alloc (sysv_start_seg seg uct_flags)] ∧
     (uct_sysv_mem_alloc UCS_YES ucs_sysv_alloc seg uct_flags).2.2 =
      [sysv_huge_attempt ucs_sysv_alloc (sysv_start_seg seg uct_flags)] ∧
     (uct_sysv_mem_alloc UCS_TRY ucs_sysv_alloc seg uct_flags).2.2 =
      (if (sysv_huge_attempt ucs_sysv_alloc (sysv_start_seg seg uct_flags)).result.status = UCS_OK
       then [sysv_huge_attempt ucs_sysv_alloc (sysv_start_seg seg uct_flags)]
       else [sysv_huge_attempt ucs_sysv_alloc (sysv_start_seg seg uct_flags),
             sysv_plain_attempt ucs_sysv_alloc
               (sysv_seg_after (sysv_start_seg seg uct_flags)
                 (sysv_huge_attempt ucs_sysv_alloc (sysv_start_seg seg uct_flags)))])) ∧
    (∀ s : uct_mm_seg_t,
      (sysv_huge_attempt ucs_sysv_alloc s).flags &&& SHM_HUGETLB ≠ 0 ∧
      (sysv_huge_attempt ucs_sysv_alloc s).max_size = (2 * s.length) % 2 ^ 64 ∧
      (s.length < 2 ^ 63 → (sysv_huge_attempt ucs_sysv_alloc s).max_size = 2 * s.length) ∧
      (sysv_plain_attempt ucs_sysv_alloc s).flags &&& SHM_HUGETLB = 0 ∧
      (sysv_plain_attempt ucs_sysv_alloc s).max_size = SIZE_MAX) ∧
    (∀ hugetlb_mode : ucs_ternary_value_t,
      ((uct_sysv_mem_alloc hugetlb_mode ucs_sysv_alloc seg uct_flags).1 = UCS_OK ↔
        ∃ a ∈ (uct_sysv_mem_alloc hugetlb_mode ucs_sysv_alloc seg uct_flags).2.2,
          a.result.status = UCS_OK) ∧
      ∃ last : ucs_sysv_attempt_t,
        (uct_sysv_mem_alloc hugetlb_mode ucs_sysv_alloc seg uct_flags).2.2.getLast? = some last ∧
        (uct_sysv_mem_alloc hugetlb_mode ucs_sysv_alloc seg uct_flags).1 = last.result.status ∧
        (last.result.status = UCS_OK →
          (uct_sysv_mem_alloc hugetlb_mode ucs_sysv_alloc seg uct_flags).2.1.seg_id =
            int_to_seg_id last.result.shmid)) := by
  refine ⟨uct_sysv_mem_alloc_attempts ucs_sysv_alloc seg uct_flags, ?_, ?_⟩
  · intro s
    have h1 : (UCT_MM_SYSV_MSTR ||| SHM_HUGETLB) &&& SHM_HUGETLB ≠ 0 := by decide
    have h2 : UCT_MM_SYSV_MSTR &&& SHM_HUGETLB = 0 := by decide
    refine ⟨h1, ?_, ?_, h2, rfl⟩
    · show (s.length * 2) % 2 ^ 64 = (2 * s.length) % 2 ^ 64
      rw [Nat.mul_comm]
    · intro h
      show (s.length * 2) % 2 ^ 64 = 2 * s.length
      rw [Nat.mul_comm]
      exact Nat.mod_eq_of_lt (by omega)
  · intro hugetlb_mode
    obtain ⟨init, last, hatt, hinit, hst, hid⟩ :=
      uct_sysv_mem_alloc_result hugetlb_mode ucs_sysv_alloc seg uct_flags
    constructor
    · constructor
      · intro hok
        exact ⟨last, by rw [hatt]; simp, by rw [← hst]; exact hok⟩
      · rintro ⟨a, ha, hok⟩
        rw [hatt, List.mem_append, List.mem_singleton] at ha
        rcases ha with ha | ha
        · exact absurd hok (hinit a ha)
        · rw [hst, ← ha]; exact hok
    · exact ⟨last, by rw [hatt]; simp, hst, hid⟩

/-- Witness of C9 (the fallback scenario of the spec): in mode try, with an allocator that
refuses hugetlb, a segment of 4096 bytes is tried with `SHM_HUGETLB` capped at 8192 and
then allocated without it; the result is OK with `seg_id = 7`. -/
theorem C9_sysv_mem_alloc_witness :
    (4096 < 2 ^ 63) ∧
    (sysv_huge_attempt example_sysv_alloc { length := 4096 }).max_size = 2 * 4096 ∧
    (uct_sysv_mem_alloc UCS_TRY example_sysv_alloc { length := 4096 } 0).1 = UCS_OK ∧
    (uct_sysv_mem_alloc UCS_TRY example_sysv_alloc { length := 4096 } 0).2.1.seg_id = 7 :=
  ⟨by decide,
   ((C9_sysv_mem_alloc example_sysv_alloc { length := 4096 } 0).2.1
      { length := 4096 }).2.2.1 (by decide),
   by decide, by decide⟩

/-- Counterexample to C9 as stated: for the requested length `2^63`, in mode try, the
`SHM_HUGETLB` attempt is made with the size cap 0, not with twice the length. -/
theorem C9_counterexample :
    ((uct_sysv_mem_alloc UCS_TRY example_sysv_alloc { length := 2 ^ 63 } 0).2.2.head?).map
        (fun a => (a.flags &&& SHM_HUGETLB, a.max_size)) = some (SHM_HUGETLB, 0) ∧
    (0 : Nat) ≠ 2 * 2 ^ 63 := by
  constructor
  · decide
  · decide

/-! ### C10: packing and unpacking a SysV remote key -/

/-- An `n`-byte object occupies `n` bytes. -/
theorem encode_le_length (n v : Nat) : (encode_le n v).length = n := by
  induction n generalizing v with
  | zero => rfl
  | succ k ih => simp [encode_le, ih]

/-- Reading back the bytes of an `n`-byte object gives the value modulo `256^n`. -/
theorem decode_encode_le (n v : Nat) : decode_le (encode_le n v) = v % 256 ^ n := by
  induction n generalizing v with
  | zero => simp [encode_le, decode_le, Nat.mod_one]
  | succ k ih =>
    simp only [encode_le, decode_le, ih]
    rw [pow_succ', Nat.mod_mul]

/-- What `uct_sysv_rkey_unpack` reads from the buffer written by
`uct_sysv_md_mkey_pack`. -/
theorem uct_sysv_unpack_pack_fields (seg : uct_mm_seg_t) :
    decode_le ((uct_sysv_md_mkey_pack seg).2.take 4) = seg.seg_id % 2 ^ 32 ∧
    decode_le (((uct_sysv_md_mkey_pack seg).2.drop 4).take 8) = seg.address % 2 ^ 64 := by
  unfold uct_sysv_md_mkey_pack
  have h4 : (encode_le 4 (seg.seg_id % 2 ^ 32)).length = 4 := encode_le_length _ _
  have h8 : (encode_le 8 (seg.address % 2 ^ 64)).length = 8 := encode_le_length _ _
  constructor
  · rw [List.take_left' h4, decode_encode_le]
    norm_num
  · rw [List.drop_left' h4, List.take_of_length_le (le_of_eq h8), decode_encode_le]
    norm_num

/-- Unpacking a packed key: the outcome of `shmat` on the stored 32-bit id decides. -/
theorem uct_sysv_rkey_unpack_pack (seg : uct_mm_seg_t) (shmat : Int → Option Nat)
    (uct_mm_md_make_rkey : Nat → Nat → Nat) :
    uct_sysv_rkey_unpack shmat uct_mm_md_make_rkey (uct_sysv_md_mkey_pack seg).2 =
      (match shmat (uint32_to_int (seg.seg_id % 2 ^ 32)) with
       | some address =>
         (UCS_OK, some (uct_mm_md_make_rkey address (seg.address % 2 ^ 64), address))
       | none => (UCS_ERR_SHMEM_SEGMENT, none)) := by
  obtain ⟨h1, h2⟩ := uct_sysv_unpack_pack_fields seg
  unfold uct_sysv_rkey_unpack
  simp only [h1, h2, uct_sysv_mem_attach_common]
  cases shmat (uint32_to_int (seg.seg_id % 2 ^ 32)) <;> rfl

/-- An `int` shmid survives the way through the segment id and the packed key: widened
to the 64-bit segment id, reduced to the 32-bit field and read as an `int` again, it is
the same `int`. -/
theorem uint32_to_int_seg_id (shmid : Int) (h : -2 ^ 31 ≤ shmid ∧ shmid < 2 ^ 31) :
    uint32_to_int (int_to_seg_id shmid % 2 ^ 32) = shmid := by
  unfold uint32_to_int int_to_seg_id
  obtain ⟨h1, h2⟩ := h
  simp only [Int.ofNat_eq_coe]
  split_ifs with hc <;> omega

/-- Every attempt recorded by `uct_sysv_mem_alloc` holds what a call of the allocator
left. -/
theorem uct_sysv_mem_alloc_attempt_result (hugetlb_mode : ucs_ternary_value_t)
    (ucs_sysv_alloc : Nat → Nat → Nat → Nat → ucs_sysv_alloc_result_t)
    (seg : uct_mm_seg_t) (uct_flags : Nat) :
    ∀ a ∈ (uct_sysv_mem_alloc hugetlb_mode ucs_sysv_alloc seg uct_flags).2.2,
      ∃ size max_size address flags, a.result = ucs_sysv_alloc size max_size address flags := by
  obtain ⟨h1, h2, h3⟩ := uct_sysv_mem_alloc_attempts ucs_sysv_alloc seg uct_flags
  intro a ha
  cases hugetlb_mode
  · rw [h1, List.mem_singleton] at ha
    rw [ha]; exact ⟨_, _, _, _, rfl⟩
  · rw [h2, List.mem_singleton] at ha
    rw [ha]; exact ⟨_, _, _, _, rfl⟩
  · rw [h3] at ha
    split_ifs at ha
    · rw [List.mem_singleton] at ha
      rw [ha]; exact ⟨_, _, _, _, rfl⟩
    · simp only [List.mem_cons, List.mem_singleton, List.not_mem_nil, or_false] at ha
      rcases ha with ha | ha
      · rw [ha]; exact ⟨_, _, _, _, rfl⟩
      · rw [ha]; exact ⟨_, _, _, _, rfl⟩

/-- C10 (amended): for every segment whose `seg_id` was assigned from an `int` shmid,
which is how `uct_sysv_mem_alloc` assigns the `seg_id` it stores whenever it returns OK
(the id is then the `int` that the successful call of the allocator left):
the key packed by `uct_sysv_md_mkey_pack` occupies 12 bytes (4-byte shmid followed by
8-byte owner_ptr), the shmid read back from it is that `int` and the owner pointer is
the segment's address. Unpacking the packed key with `uct_sysv_rkey_unpack` calls
`shmat` on exactly that shmid; when `shmat` succeeds the result is OK, the handle is the
attached address and the RMA key is built from the attached address and the owner
pointer equal to the segment's address; when `shmat` fails the result is
`SHMEM_SEGMENT` and no key is built. -/
theorem C10_sysv_rkey_roundtrip (seg : uct_mm_seg_t) (shmid : Int)
    (shmat : Int → Option Nat) (uct_mm_md_make_rkey : Nat → Nat → Nat)
    (hint : -2 ^ 31 ≤ shmid ∧ shmid < 2 ^ 31) (hseg : seg.seg_id = int_to_seg_id shmid)
    (haddr : seg.address < 2 ^ 64) :
    ((uct_sysv_md_mkey_pack seg).1 = UCS_OK ∧
     (uct_sysv_md_mkey_pack seg).2.length = 12 ∧
     (uct_sysv_md_mkey_pack seg).2 =
       encode_le 4 (seg.seg_id % 2 ^ 32) ++ encode_le 8 seg.address ∧
     uint32_to_int (decode_le ((uct_sysv_md_mkey_pack seg).2.take 4)) = shmid ∧
     decode_le (((uct_sysv_md_mkey_pack seg).2.drop 4).take 8) = seg.address) ∧
    (∀ address, shmat shmid = some address →
      uct_sysv_rkey_unpack shmat uct_mm_md_make_rkey (uct_sysv_md_mkey_pack seg).2 =
        (UCS_OK, some (uct_mm_md_make_rkey address seg.address, address))) ∧
    (shmat shmid = none →
      uct_sysv_rkey_unpack shmat uct_mm_md_make_rkey (uct_sysv_md_mkey_pack seg).2 =
        (UCS_ERR_SHMEM_SEGMENT, none)) ∧
    (∀ (hugetlb_mode : ucs_ternary_value_t)
       (ucs_sysv_alloc : Nat → Nat → Nat → Nat → ucs_sysv_alloc_result_t)
       (seg0 : uct_mm_seg_t) (uct_flags : Nat),
      (∀ size max_size address flags,
        -2 ^ 31 ≤ (ucs_sysv_alloc size max_size address flags).shmid ∧
        (ucs_sysv_alloc size max_size address flags).shmid < 2 ^ 31) →
      (uct_sysv_mem_alloc hugetlb_mode ucs_sysv_alloc seg0 uct_flags).1 = UCS_OK →
      ∃ a ∈ (uct_sysv_mem_alloc hugetlb_mode ucs_sysv_alloc seg0 uct_flags).2.2,
        a.result.status = UCS_OK ∧
        (-2 ^ 31 ≤ a.result.shmid ∧ a.result.shmid < 2 ^ 31) ∧
        (uct_sysv_mem_alloc hugetlb_mode ucs_sysv_alloc seg0 uct_flags).2.1.seg_id =
          int_to_seg_id a.result.shmid) := by
  have hmod : seg.address % 2 ^ 64 = seg.address := Nat.mod_eq_of_lt haddr
  have hid : uint32_to_int (seg.seg_id % 2 ^ 32) = shmid := by
    rw [hseg]; exact uint32_to_int_seg_id shmid hint
  obtain ⟨h1, h2⟩ := uct_sysv_unpack_pack_fields seg
  have hun := uct_sysv_rkey_unpack_pack seg shmat uct_mm_md_make_rkey
  rw [hid, hmod] at hun
  refine ⟨⟨rfl, ?_, ?_, ?_, ?_⟩, ?_, ?_, ?_⟩
  · simp [uct_sysv_md_mkey_pack, encode_le_length]
  · show encode_le 4 (seg.seg_id % 2 ^ 32) ++ encode_le 8 (seg.address % 2 ^ 64) = _
    rw [hmod]
  · rw [h1]; exact hid
  · rw [h2]; exact hmod
  · intro address hat
    rw [hun, hat]
  · intro hat
    rw [hun, hat]
  · intro hugetlb_mode ucs_sysv_alloc seg0 uct_flags htyped hok
    obtain ⟨init, last, hatt, _, hst, hlast⟩ :=
      uct_sysv_mem_alloc_result hugetlb_mode ucs_sysv_alloc seg0 uct_flags
    have hlok : last.result.status = UCS_OK := by rw [← hst]; exact hok
    have hmem : last ∈ (uct_sysv_mem_alloc hugetlb_mode ucs_sysv_alloc seg0 uct_flags).2.2 := by
      rw [hatt]; simp
    obtain ⟨size, max_size, address, flags, hres⟩ :=
      uct_sysv_mem_alloc_attempt_result hugetlb_mode ucs_sysv_alloc seg0 uct_flags last hmem
    exact ⟨last, hmem, hlok, by rw [hres]; exact htyped size max_size address flags,
      hlast hlok⟩

/-- Witness of C10: the segment with shmid 7 at address 4096000, attached by the peer at
address 8192. -/
theorem C10_sysv_rkey_roundtrip_witness :
    uct_sysv_rkey_unpack (fun shmid => if shmid = 7 then some 8192 else none)
        (fun local_address owner_ptr => (local_address + 2 ^ 64 - owner_ptr) % 2 ^ 64)
        (uct_sysv_md_mkey_pack { seg_id := 7, address := 4096000 }).2 =
      (UCS_OK, some ((8192 + 2 ^ 64 - 4096000) % 2 ^ 64, 8192)) :=
  (C10_sysv_rkey_roundtrip { seg_id := 7, address := 4096000 } 7
      (fun shmid => if shmid = 7 then some 8192 else none)
      (fun local_address owner_ptr => (local_address + 2 ^ 64 - owner_ptr) % 2 ^ 64)
      (by decide) (by decide) (by decide)).2.1 8192 (by decide)

/-- Counterexample to C10 as stated: for the segment with shmid 7 at address 4096000,
when `shmat` fails (the segment is gone, or may not be attached), unpacking the packed
key attaches no segment, returns `SHMEM_SEGMENT` and builds no key. -/
theorem C10_counterexample :
    (7 : Nat) = int_to_seg_id 7 ∧
    uct_sysv_rkey_unpack (fun _ => none) (fun a o => a + o)
        (uct_sysv_md_mkey_pack { seg_id := 7, address := 4096000 }).2 =
      (UCS_ERR_SHMEM_SEGMENT, none) := by
  refine ⟨by decide, ?_⟩
  rw [uct_sysv_rkey_unpack_pack]

/-! ### C1: an RTS that matches an expected receive -/

/-- The scan of the expected queue finds the first posted receive for the tag whenever
there is one. -/
theorem ucp_tag_exp_search_loop_some (queue : List ucp_request_t) (tag k : Nat)
    (h : ∃ rreq ∈ queue, rreq.recv_tag = tag) :
    ∃ i rreq, ucp_tag_exp_search_loop queue tag k = some (k + i) ∧
      queue[i]? = some rreq ∧ rreq.recv_tag = tag := by
  induction queue generalizing k with
  | nil => obtain ⟨r, hr, _⟩ := h; simp at hr
  | cons q qs ih =>
    unfold ucp_tag_exp_search_loop
    by_cases hq : q.recv_tag = tag
    · exact ⟨0, q, by simp [hq], by simp, hq⟩
    · have h' : ∃ rreq ∈ qs, rreq.recv_tag = tag := by
        obtain ⟨r, hr, ht⟩ := h
        rcases List.mem_cons.1 hr with rfl | hr
        · exact absurd ht hq
        · exact ⟨r, hr, ht⟩
      obtain ⟨i, r, hs, hi, ht⟩ := ih (k + 1) h'
      refine ⟨i + 1, r, ?_, by simpa using hi, ht⟩
      rw [if_neg hq, hs]
      congr 1
      omega

/-- C1: for every RTS header with opcode TAG_OK whose tag matches a receive in the
expected queue, `ucp_tag_rndv_process_rts` returns OK, sets the `sender_tag` of that
receive (the first posted receive for the tag) to the RTS tag and its `length` to the
RTS size, starts the rendezvous receive exactly once (through
`ucp_proto_rndv_receive_start` when `proto_enable` is set, through `ucp_rndv_receive`
otherwise), increases the EXP counter by exactly 1, and adds no unexpected descriptor. -/
theorem C1_rts_matches_expected (worker : ucp_worker) (rts_hdr : ucp_rndv_rts_hdr_t)
    (length tl_flags : Nat) (desc_status : ucs_status_t) (req_alloc : Option Nat)
    (hop : rts_hdr.opcode = UCP_RNDV_RTS_TAG_OK)
    (hmatch : ∃ rreq ∈ worker.tm_expected, rreq.recv_tag = rts_hdr.tag) :
    ∃ (i : Nat) (rreq : ucp_request_t),
      ucp_tag_exp_search worker rts_hdr.tag = some i ∧
      worker.tm_expected[i]? = some rreq ∧ rreq.recv_tag = rts_hdr.tag ∧
      (ucp_tag_rndv_process_rts worker rts_hdr length tl_flags desc_status req_alloc).1 =
        UCS_OK ∧
      (ucp_tag_rndv_process_rts worker rts_hdr length tl_flags desc_status
          req_alloc).2.1.tm_expected =
        worker.tm_expected.set i
          { rreq with recv_tag_info_sender_tag := rts_hdr.tag,
                      recv_tag_info_length := rts_hdr.size } ∧
      (ucp_tag_rndv_process_rts worker rts_hdr length tl_flags desc_status req_alloc).2.2 =
        [ucp_rndv_event.ucp_tag_offload_try_cancel rreq,
         if worker.context.config_ext_proto_enable = true then
           ucp_rndv_event.ucp_proto_rndv_receive_start
             { rreq with recv_tag_info_sender_tag := rts_hdr.tag,
                         recv_tag_info_length := rts_hdr.size } rts_hdr length
         else
           ucp_rndv_event.ucp_rndv_receive
             { rreq with recv_tag_info_sender_tag := rts_hdr.tag,
                         recv_tag_info_length := rts_hdr.size } rts_hdr] ∧
      (ucp_tag_rndv_process_rts worker rts_hdr length tl_flags desc_status
          req_alloc).2.1.stats_rndv_exp = worker.stats_rndv_exp + 1 ∧
      (ucp_tag_rndv_process_rts worker rts_hdr length tl_flags desc_status
          req_alloc).2.1.tm_unexp = worker.tm_unexp := by
  obtain ⟨i, rreq, hs, hi, ht⟩ := ucp_tag_exp_search_loop_some worker.tm_expected rts_hdr.tag 0 hmatch
  rw [Nat.zero_add] at hs
  have hsearch : ucp_tag_exp_search worker rts_hdr.tag = some i := hs
  have hget : worker.tm_expected.getD i {} = rreq := by
    rw [List.getD_eq_getElem?_getD, hi]
    rfl
  have hne : ¬ rts_hdr.opcode = UCP_RNDV_RTS_TAG_CANCELED := by rw [hop]; decide
  refine ⟨i, rreq, hsearch, hi, ht, ?_⟩
  unfold ucp_tag_rndv_process_rts
  rw [if_neg hne]
  simp only [hsearch, hget, ucp_tag_rndv_matched]
  by_cases hp : worker.context.config_ext_proto_enable = true
  · simp [hp]
  · simp [hp]

/-- Witness of C1 (the spec's scenario): a receive posted for tag `0xDEADBEEF`, then the
RTS `{TAG_OK, size 4096, ep_id 1, req_id 7, tag 0xDEADBEEF}`: the status is OK and the
EXP counter goes from 0 to 1. -/
theorem C1_rts_matches_expected_witness :
    ∃ (i : Nat) (rreq : ucp_request_t),
      ucp_tag_exp_search example_rndv_worker example_rts.tag = some i ∧
      example_rndv_worker.tm_expected[i]? = some rreq ∧ rreq.recv_tag = example_rts.tag ∧
      (ucp_tag_rndv_process_rts example_rndv_worker example_rts 41 0 UCS_OK none).1 = UCS_OK ∧
      (ucp_tag_rndv_process_rts example_rndv_worker example_rts 41 0 UCS_OK
          none).2.1.tm_expected =
        example_rndv_worker.tm_expected.set i
          { rreq with recv_tag_info_sender_tag := example_rts.tag,
                      recv_tag_info_length := example_rts.size } ∧
      (ucp_tag_rndv_process_rts example_rndv_worker example_rts 41 0 UCS_OK none).2.2 =
        [ucp_rndv_event.ucp_tag_offload_try_cancel rreq,
         if example_rndv_worker.context.config_ext_proto_enable = true then
           ucp_rndv_event.ucp_proto_rndv_receive_start
             { rreq with recv_tag_info_sender_tag := example_rts.tag,
                         recv_tag_info_length := example_rts.size } example_rts 41
         else
           ucp_rndv_event.ucp_rndv_receive
             { rreq with recv_tag_info_sender_tag := example_rts.tag,
                         recv_tag_info_length := example_rts.size } example_rts] ∧
      (ucp_tag_rndv_process_rts example_rndv_worker example_rts 41 0 UCS_OK
          none).2.1.stats_rndv_exp = example_rndv_worker.stats_rndv_exp + 1 ∧
      (ucp_tag_rndv_process_rts example_rndv_worker example_rts 41 0 UCS_OK
          none).2.1.tm_unexp = example_rndv_worker.tm_unexp :=
  C1_rts_matches_expected example_rndv_worker example_rts 41 0 UCS_OK none rfl
    ⟨{ id := 3, recv_tag := 0xDEADBEEF }, by simp [example_rndv_worker], rfl⟩

/-! ### C2: an unexpected RTS and its cancellation -/

/-- Scanning a bucket for a condition that fixes the bucket is scanning the whole list. -/
theorem find_filter_of_imp {α : Type} (p q : α → Bool) (l : List α)
    (h : ∀ x, q x = true → p x = true) : (l.filter p).find? q = l.find? q := by
  induction l with
  | nil => rfl
  | cons a as ih =>
    by_cases hp : p a = true
    · rw [List.filter_cons_of_pos hp]
      by_cases hq : q a = true
      · rw [List.find?_cons_of_pos _ hq, List.find?_cons_of_pos _ hq]
      · rw [List.find?_cons_of_neg _ hq, List.find?_cons_of_neg _ hq, ih]
    · rw [List.filter_cons_of_neg hp]
      have hq : ¬ q a = true := fun hq => hp (h a hq)
      rw [List.find?_cons_of_neg _ hq, ih]

/-- The loop of `ucp_rndv_unexp_cancel` finds the first descriptor of the whole
unexpected list that meets the condition. -/
theorem ucp_rndv_unexp_cancel_scan (worker : ucp_worker) (hdr : ucp_rndv_rts_hdr_t) :
    (ucp_tag_unexp_get_list_for_tag worker hdr.tag).find? (ucp_rndv_unexp_cancel_match hdr) =
      worker.tm_unexp.find? (ucp_rndv_unexp_cancel_match hdr) := by
  unfold ucp_tag_unexp_get_list_for_tag
  apply find_filter_of_imp
  intro x hx
  simp only [ucp_rndv_unexp_cancel_match, Bool.and_eq_true, beq_iff_eq] at hx
  simp [hx.1.1.2]

/-- A TAG_OK header that matches no expected receive, on a worker where its endpoint id
resolves and with a descriptor to spare, appends one descriptor with the RNDV flag
holding a copy of the header. -/
theorem ucp_tag_rndv_process_rts_unexp (worker : ucp_worker) (hdr : ucp_rndv_rts_hdr_t)
    (length tl_flags : Nat) (desc_status : ucs_status_t) (req_alloc : Option Nat) (ep : Nat)
    (hop : hdr.opcode = UCP_RNDV_RTS_TAG_OK)
    (hnoexp : ucp_tag_exp_search worker hdr.tag = none)
    (hep : ucp_worker_get_ep_by_id worker hdr.sreq_ep_id = some ep)
    (hdesc : UCS_STATUS_IS_ERR desc_status = false) :
    ucp_tag_rndv_process_rts worker hdr length tl_flags desc_status req_alloc =
      (desc_status,
       { worker with tm_unexp := worker.tm_unexp ++
           [{ flags := UCP_RECV_DESC_FLAG_RNDV, length := length, rts_hdr := hdr }] },
       []) := by
  have hne : ¬ hdr.opcode = UCP_RNDV_RTS_TAG_CANCELED := by rw [hop]; decide
  unfold ucp_tag_rndv_process_rts
  rw [if_neg hne]
  simp [hnoexp, hep, ucp_recv_desc_init, hdesc, ucp_tag_unexp_recv]

/-- A TAG_CANCELED header on a worker whose unexpected list ends with the only descriptor
that meets the cancel condition removes that descriptor; the events are the
acknowledgement (if any) and the release. -/
theorem ucp_tag_rndv_process_rts_cancel_last (worker : ucp_worker)
    (hdr : ucp_rndv_rts_hdr_t) (length tl_flags : Nat) (desc_status : ucs_status_t)
    (req_alloc : Option Nat) (before : List ucp_recv_desc_t) (rdesc : ucp_recv_desc_t)
    (hop : hdr.opcode = UCP_RNDV_RTS_TAG_CANCELED)
    (hlist : worker.tm_unexp = before ++ [rdesc])
    (hbefore : ∀ d ∈ before, ucp_rndv_unexp_cancel_match hdr d = false)
    (hmatch : ucp_rndv_unexp_cancel_match hdr rdesc = true) :
    ucp_tag_rndv_process_rts worker hdr length tl_flags desc_status req_alloc =
      (UCS_OK, { worker with tm_unexp := before },
       ucp_rndv_send_cancel_ack worker hdr req_alloc ++
         [ucp_rndv_event.ucp_recv_desc_release rdesc]) := by
  have hfind : worker.tm_unexp.find? (ucp_rndv_unexp_cancel_match hdr) = some rdesc := by
    rw [hlist, List.find?_append]
    have : before.find? (ucp_rndv_unexp_cancel_match hdr) = none := by
      rw [List.find?_eq_none]
      intro x hx
      rw [hbefore x hx]
      decide
    rw [this]
    simp [hmatch]
  have hnot : rdesc ∉ before := by
    intro hmem
    have := hbefore rdesc hmem
    rw [hmatch] at this
    exact absurd this (by decide)
  have herase : (before ++ [rdesc]).erase rdesc = before := by
    rw [List.erase_append_right _ hnot]
    simp
  unfold ucp_tag_rndv_process_rts
  rw [if_pos hop]
  simp only [ucp_rndv_unexp_cancel, ucp_rndv_unexp_cancel_scan, hfind, ucp_tag_unexp_remove]
  rw [hlist, herase]

/-- A TAG_OK header that matches no expected receive and whose endpoint id does not
resolve is dropped: OK, and nothing changes. -/
theorem ucp_tag_rndv_process_rts_unresolved (worker : ucp_worker) (hdr : ucp_rndv_rts_hdr_t)
    (length tl_flags : Nat) (desc_status : ucs_status_t) (req_alloc : Option Nat)
    (hop : hdr.opcode = UCP_RNDV_RTS_TAG_OK)
    (hnoexp : ucp_tag_exp_search worker hdr.tag = none)
    (hep : ucp_worker_get_ep_by_id worker hdr.sreq_ep_id = none) :
    ucp_tag_rndv_process_rts worker hdr length tl_flags desc_status req_alloc =
      (UCS_OK, worker, []) := by
  have hne : ¬ hdr.opcode = UCP_RNDV_RTS_TAG_CANCELED := by rw [hop]; decide
  unfold ucp_tag_rndv_process_rts
  rw [if_neg hne]
  simp [hnoexp, hep]

/-- A TAG_OK header that matches no expected receive, when the descriptor allocation
fails: the error of the allocation is returned and nothing changes. -/
theorem ucp_tag_rndv_process_rts_no_desc (worker : ucp_worker) (hdr : ucp_rndv_rts_hdr_t)
    (length tl_flags : Nat) (desc_status : ucs_status_t) (req_alloc : Option Nat) (ep : Nat)
    (hop : hdr.opcode = UCP_RNDV_RTS_TAG_OK)
    (hnoexp : ucp_tag_exp_search worker hdr.tag = none)
    (hep : ucp_worker_get_ep_by_id worker hdr.sreq_ep_id = some ep)
    (hdesc : UCS_STATUS_IS_ERR desc_status = true) :
    ucp_tag_rndv_process_rts worker hdr length tl_flags desc_status req_alloc =
      (desc_status, worker, []) := by
  have hne : ¬ hdr.opcode = UCP_RNDV_RTS_TAG_CANCELED := by rw [hop]; decide
  unfold ucp_tag_rndv_process_rts
  rw [if_neg hne]
  simp [hnoexp, hep, ucp_recv_desc_init, hdesc]

/-- C2 (amended): for every tag T and every RTS with opcode TAG_OK, tag T and ids
(ep_id, req_id), delivered to `ucp_tag_rndv_process_rts` when no expected receive
matches T. (1) If the endpoint id does not resolve, the header is dropped with OK: no
descriptor is created and nothing changes. (2) If it resolves and the descriptor
allocation fails, the error of the allocation is returned and no descriptor is created.
(3) If it resolves and the allocation succeeds, exactly one unexpected descriptor is
created, with the RNDV flag set (it is appended to the unexpected list and holds a copy
of the header), and the status of the allocation is returned. Delivering afterwards an
RTS with opcode TAG_CANCELED and the same tag, ep_id and req_id, when no older
descriptor of the list meets the cancel condition, returns OK and removes that
descriptor from the unexpected list; exactly one ATS is sent, carrying that req_id and
status CANCELED, if the request for the acknowledgement can be allocated, and none is
sent otherwise; the descriptor is released in both cases. -/
theorem C2_unexpected_then_cancel (worker : ucp_worker) (hdr cancel : ucp_rndv_rts_hdr_t)
    (length tl_flags length2 tl_flags2 : Nat) (desc_status desc_status2 : ucs_status_t)
    (req_alloc req_alloc2 : Option Nat)
    (hop : hdr.opcode = UCP_RNDV_RTS_TAG_OK)
    (hnoexp : ucp_tag_exp_search worker hdr.tag = none) :
    (ucp_worker_get_ep_by_id worker hdr.sreq_ep_id = none →
      ucp_tag_rndv_process_rts worker hdr length tl_flags desc_status req_alloc =
        (UCS_OK, worker, [])) ∧
    (∀ ep, ucp_worker_get_ep_by_id worker hdr.sreq_ep_id = some ep →
      UCS_STATUS_IS_ERR desc_status = true →
      ucp_tag_rndv_process_rts worker hdr length tl_flags desc_status req_alloc =
        (desc_status, worker, [])) ∧
    (∀ ep, ucp_worker_get_ep_by_id worker hdr.sreq_ep_id = some ep →
      UCS_STATUS_IS_ERR desc_status = false →
      ((ucp_tag_rndv_process_rts worker hdr length tl_flags desc_status req_alloc).1 =
          desc_status ∧
       (ucp_tag_rndv_process_rts worker hdr length tl_flags desc_status
          req_alloc).2.1.tm_unexp =
         worker.tm_unexp ++
           [{ flags := UCP_RECV_DESC_FLAG_RNDV, length := length, rts_hdr := hdr }] ∧
       UCP_RECV_DESC_FLAG_RNDV &&& UCP_RECV_DESC_FLAG_RNDV ≠ 0 ∧
       (ucp_tag_rndv_process_rts worker hdr length tl_flags desc_status req_alloc).2.2 =
         []) ∧
      (cancel.opcode = UCP_RNDV_RTS_TAG_CANCELED →
       cancel.tag = hdr.tag → cancel.sreq_ep_id = hdr.sreq_ep_id →
       cancel.sreq_req_id = hdr.sreq_req_id →
       (∀ d ∈ worker.tm_unexp, ucp_rndv_unexp_cancel_match cancel d = false) →
       (ucp_tag_rndv_process_rts
          (ucp_tag_rndv_process_rts worker hdr length tl_flags desc_status req_alloc).2.1
          cancel length2 tl_flags2 desc_status2 req_alloc2).1 = UCS_OK ∧
       (ucp_tag_rndv_process_rts
          (ucp_tag_rndv_process_rts worker hdr length tl_flags desc_status req_alloc).2.1
          cancel length2 tl_flags2 desc_status2 req_alloc2).2.1.tm_unexp = worker.tm_unexp ∧
       (ucp_tag_rndv_process_rts
          (ucp_tag_rndv_process_rts worker hdr length tl_flags desc_status req_alloc).2.1
          cancel length2 tl_flags2 desc_status2 req_alloc2).2.2 =
         (match req_alloc2 with
          | some _ => [ucp_rndv_event.send_ats ep hdr.sreq_req_id UCS_ERR_CANCELED]
          | none => []) ++
         [ucp_rndv_event.ucp_recv_desc_release
            { flags := UCP_RECV_DESC_FLAG_RNDV, length := length, rts_hdr := hdr }])) := by
  refine ⟨fun hep => ucp_tag_rndv_process_rts_unresolved worker hdr length tl_flags
      desc_status req_alloc hop hnoexp hep,
    fun ep hep hdesc => ucp_tag_rndv_process_rts_no_desc worker hdr length tl_flags
      desc_status req_alloc ep hop hnoexp hep hdesc, ?_⟩
  intro ep hep hdesc
  have h1 := ucp_tag_rndv_process_rts_unexp worker hdr length tl_flags desc_status req_alloc ep
    hop hnoexp hep hdesc
  rw [h1]
  refine ⟨⟨rfl, rfl, by decide, rfl⟩, ?_⟩
  intro hop2 htag hepid hreqid hold
  have hm : ucp_rndv_unexp_cancel_match cancel
      { flags := UCP_RECV_DESC_FLAG_RNDV, length := length, rts_hdr := hdr } = true := by
    simp only [ucp_rndv_unexp_cancel_match, ucp_rdesc_get_tag, htag, hepid, hreqid,
      beq_self_eq_true, Bool.and_true]
    decide
  have h2 := ucp_tag_rndv_process_rts_cancel_last
    { worker with tm_unexp := worker.tm_unexp ++
        [{ flags := UCP_RECV_DESC_FLAG_RNDV, length := length, rts_hdr := hdr }] }
    cancel length2 tl_flags2 desc_status2 req_alloc2 worker.tm_unexp
    { flags := UCP_RECV_DESC_FLAG_RNDV, length := length, rts_hdr := hdr } hop2 rfl hold hm
  refine ⟨?_, ?_, ?_⟩
  · rw [h2]
  · rw [h2]
  · rw [h2]
    have hep' : ucp_worker_get_ep_by_id
        { worker with tm_unexp := worker.tm_unexp ++
            [{ flags := UCP_RECV_DESC_FLAG_RNDV, length := length, rts_hdr := hdr }] }
        cancel.sreq_ep_id = some ep := by
      rw [hepid]; exact hep
    simp only [ucp_rndv_send_cancel_ack, hep', hreqid]
    cases req_alloc2 <;> rfl

/-- Witness of C2 (the spec's scenario "cancel in flight"): the RTS `{TAG_OK, size 4096,
ep_id 1, req_id 7, tag 0xDEADBEEF}` on a worker with no posted receive, then the same
header with opcode TAG_CANCELED: one ATS `{status CANCELED, req_id 7}` and the
unexpected list is empty again. -/
theorem C2_unexpected_then_cancel_witness :
    (ucp_tag_rndv_process_rts
      (ucp_tag_rndv_process_rts example_unexp_worker example_rts 41 0 UCS_OK none).2.1
      { example_rts with opcode := UCP_RNDV_RTS_TAG_CANCELED } 41 0 UCS_OK (some 9)).2.1.tm_unexp
      = [] ∧
    (ucp_tag_rndv_process_rts
      (ucp_tag_rndv_process_rts example_unexp_worker example_rts 41 0 UCS_OK none).2.1
      { example_rts with opcode := UCP_RNDV_RTS_TAG_CANCELED } 41 0 UCS_OK (some 9)).2.2 =
      [ucp_rndv_event.send_ats 100 7 UCS_ERR_CANCELED,
       ucp_rndv_event.ucp_recv_desc_release
         { flags := UCP_RECV_DESC_FLAG_RNDV, length := 41, rts_hdr := example_rts }] :=
  ⟨(((C2_unexpected_then_cancel example_unexp_worker example_rts
      { example_rts with opcode := UCP_RNDV_RTS_TAG_CANCELED } 41 0 41 0 UCS_OK UCS_OK none
      (some 9) rfl rfl).2.2 100 rfl rfl).2 rfl rfl rfl rfl
      (fun d hd => by simp [example_unexp_worker] at hd)).2.1,
   (((C2_unexpected_then_cancel example_unexp_worker example_rts
      { example_rts with opcode := UCP_RNDV_RTS_TAG_CANCELED } 41 0 41 0 UCS_OK UCS_OK none
      (some 9) rfl rfl).2.2 100 rfl rfl).2 rfl rfl rfl rfl
      (fun d hd => by simp [example_unexp_worker] at hd)).2.2⟩

/-- Counterexample to C2 as stated. (1) The RTS `{TAG_OK, ep_id 2, req_id 7, tag
0xDEADBEEF}`, whose endpoint id does not resolve, delivered when no expected receive
matches, creates no unexpected descriptor. (2) With the endpoint id 1, which resolves,
and a failed descriptor allocation, no descriptor is created either and the status is
NO_MEMORY. (3) After a successful delivery, the TAG_CANCELED header removes the
descriptor but sends no ATS when the request for the acknowledgement cannot be
allocated. (4) When an older descriptor for the same tag and ids is parked, the
TAG_CANCELED header removes the older one; the descriptor just created stays. -/
theorem C2_counterexample :
    ucp_tag_exp_search example_unexp_worker example_rts.tag = none ∧
    (ucp_tag_rndv_process_rts example_unexp_worker { example_rts with sreq_ep_id := 2 } 41 0
      UCS_OK none).2.1.tm_unexp = [] ∧
    (ucp_tag_rndv_process_rts example_unexp_worker example_rts 41 0 UCS_ERR_NO_MEMORY
      none).1 = UCS_ERR_NO_MEMORY ∧
    (ucp_tag_rndv_process_rts example_unexp_worker example_rts 41 0 UCS_ERR_NO_MEMORY
      none).2.1.tm_unexp = [] ∧
    (ucp_tag_rndv_process_rts
      (ucp_tag_rndv_process_rts example_unexp_worker example_rts 41 0 UCS_OK none).2.1
      { example_rts with opcode := UCP_RNDV_RTS_TAG_CANCELED } 41 0 UCS_OK none).2.2 =
      [ucp_rndv_event.ucp_recv_desc_release
         { flags := UCP_RECV_DESC_FLAG_RNDV, length := 41, rts_hdr := example_rts }] ∧
    (ucp_tag_rndv_process_rts
      (ucp_tag_rndv_process_rts example_dup_worker example_rts 41 0 UCS_OK none).2.1
      { example_rts with opcode := UCP_RNDV_RTS_TAG_CANCELED } 41 0 UCS_OK (some 9)).2.1.tm_unexp
      = [{ flags := UCP_RECV_DESC_FLAG_RNDV, length := 41, rts_hdr := example_rts }] := by
  refine ⟨rfl, rfl, rfl, rfl, ?_, ?_⟩
  · decide
  · decide

/-! ### C11: the blocking add-pending loop -/

/-- With a non-null `func`, a call of `ucp_ep_add_pending_uct` returns, and its events
hold one attempt and no call of `ucp_worker_progress`. -/
theorem ucp_ep_add_pending_uct_some (uct_ep : uct_ep_t) (pend : uct_pending_req_t)
    (add_status func_status : ucs_status_t) (hfunc : pend.func ≠ none) :
    ∃ r, ucp_ep_add_pending_uct uct_ep pend add_status func_status = some r ∧
      count_attempts r.2 = 1 ∧ count_progress r.2 = 0 := by
  unfold ucp_ep_add_pending_uct
  rw [if_neg hfunc]
  simp only []
  split_ifs
  · exact ⟨_, rfl, by simp [count_attempts], by simp [count_progress]⟩
  · exact ⟨_, rfl, by simp [count_attempts], by simp [count_progress]⟩
  · exact ⟨_, rfl, by simp [count_attempts], by simp [count_progress]⟩

/-- Counting attempts and progress calls over an appended trace. -/
theorem count_attempts_append (t1 t2 : List ucp_ep_event) :
    count_attempts (t1 ++ t2) = count_attempts t1 + count_attempts t2 ∧
    count_progress (t1 ++ t2) = count_progress t1 + count_progress t2 := by
  unfold count_attempts count_progress
  exact ⟨List.countP_append _ _ _, List.count_append _ _ _⟩

/-- The loop of `ucp_ep_add_pending` exits at once when the status is OK. -/
theorem ucp_ep_add_pending_loop_ok (uct_ep : uct_ep_t) (req : ucp_request_t) (progress : Int)
    (outcomes : Nat → ucs_status_t × ucs_status_t) (todo attempt : Nat)
    (trace : List ucp_ep_event) :
    ucp_ep_add_pending_loop uct_ep req progress outcomes todo attempt UCS_OK trace =
      ucp_add_pending_run_t.exited req trace := by
  cases todo <;> simp [ucp_ep_add_pending_loop]

/-- The loop of `ucp_ep_add_pending`, entered with a status that is not OK when the next
OK is `d` attempts ahead: it exits after exactly `d + 1` iterations, each with one
attempt and, if `progress` is non-zero, one call of `ucp_worker_progress`; with fewer
iterations it is still running. -/
theorem ucp_ep_add_pending_loop_first_ok (uct_ep : uct_ep_t) (req : ucp_request_t)
    (progress : Int) (outcomes : Nat → ucs_status_t × ucs_status_t)
    (hfunc : req.send_uct.func ≠ none) (todo attempt d : Nat) (status : ucs_status_t)
    (trace : List ucp_ep_event) (hstatus : status ≠ UCS_OK)
    (hbefore : ∀ k, attempt ≤ k → k < attempt + d →
      ucp_ep_add_pending_attempt uct_ep req outcomes k ≠ some UCS_OK)
    (hat : ucp_ep_add_pending_attempt uct_ep req outcomes (attempt + d) = some UCS_OK) :
    (d + 1 ≤ todo →
      ∃ trace1, ucp_ep_add_pending_loop uct_ep req progress outcomes todo attempt status trace =
          ucp_add_pending_run_t.exited req trace1 ∧
        count_attempts trace1 = count_attempts trace + (d + 1) ∧
        count_progress trace1 = count_progress trace + (if progress ≠ 0 then d + 1 else 0)) ∧
    (todo ≤ d →
      ucp_ep_add_pending_loop uct_ep req progress outcomes todo attempt status trace =
        ucp_add_pending_run_t.running) := by
  induction todo generalizing attempt d status trace with
  | zero =>
    constructor
    · intro h; omega
    · intro _
      simp [ucp_ep_add_pending_loop, hstatus]
  | succ n ih =>
    obtain ⟨r, hr, ha, hp⟩ := ucp_ep_add_pending_uct_some uct_ep req.send_uct
      (outcomes attempt).1 (outcomes attempt).2 hfunc
    have hstep : ucp_ep_add_pending_loop uct_ep req progress outcomes (n + 1) attempt status
        trace =
        ucp_ep_add_pending_loop uct_ep req progress outcomes n (attempt + 1) r.1
          ((if progress ≠ 0 then trace ++ [ucp_ep_event.ucp_worker_progress] else trace)
            ++ r.2) := by
      simp only [ucp_ep_add_pending_loop, if_pos hstatus, hr]
    have hcount : count_attempts
          ((if progress ≠ 0 then trace ++ [ucp_ep_event.ucp_worker_progress] else trace)
            ++ r.2) = count_attempts trace + 1 ∧
        count_progress
          ((if progress ≠ 0 then trace ++ [ucp_ep_event.ucp_worker_progress] else trace)
            ++ r.2) = count_progress trace + (if progress ≠ 0 then 1 else 0) := by
      rw [(count_attempts_append _ _).1, (count_attempts_append _ _).2, ha, hp]
      by_cases hpr : progress ≠ 0
      · rw [if_pos hpr, if_pos hpr, (count_attempts_append _ _).1,
          (count_attempts_append _ _).2]
        exact ⟨rfl, rfl⟩
      · rw [if_neg hpr, if_neg hpr]
        exact ⟨rfl, rfl⟩
    have hr1 : ucp_ep_add_pending_attempt uct_ep req outcomes attempt = some r.1 := by
      simp [ucp_ep_add_pending_attempt, hr]
    rw [hstep]
    cases d with
    | zero =>
      have hok : r.1 = UCS_OK := by
        rw [Nat.add_zero, hr1] at hat
        exact Option.some.inj hat
      rw [hok, ucp_ep_add_pending_loop_ok]
      constructor
      · intro _
        refine ⟨_, rfl, hcount.1, ?_⟩
        rw [hcount.2]
      · intro h; omega
    | succ d' =>
      have hne : r.1 ≠ UCS_OK := by
        intro hok
        apply hbefore attempt (le_refl _) (by omega)
        rw [hr1, hok]
      obtain ⟨ih1, ih2⟩ := ih (attempt + 1) d' r.1
        ((if progress ≠ 0 then trace ++ [ucp_ep_event.ucp_worker_progress] else trace) ++ r.2)
        hne (fun k hk1 hk2 => hbefore k (by omega) (by omega))
        (by rw [show attempt + 1 + d' = attempt + (d' + 1) by omega]; exact hat)
      constructor
      · intro h
        obtain ⟨trace1, he, hc1, hc2⟩ := ih1 (by omega)
        refine ⟨trace1, he, ?_, ?_⟩
        · rw [hc1, hcount.1]; omega
        · rw [hc2, hcount.2]
          by_cases hpr : progress ≠ 0
          · simp only [if_pos hpr]; omega
          · simp only [if_neg hpr]
      · intro h
        exact ih2 (by omega)

/-- The loop of `ucp_ep_add_pending`, entered with a status that is not OK when no later
attempt returns OK, is still running after any number of iterations. -/
theorem ucp_ep_add_pending_loop_never (uct_ep : uct_ep_t) (req : ucp_request_t)
    (progress : Int) (outcomes : Nat → ucs_status_t × ucs_status_t)
    (hfunc : req.send_uct.func ≠ none) (todo attempt : Nat) (status : ucs_status_t)
    (trace : List ucp_ep_event) (hstatus : status ≠ UCS_OK)
    (hnever : ∀ k, attempt ≤ k →
      ucp_ep_add_pending_attempt uct_ep req outcomes k ≠ some UCS_OK) :
    ucp_ep_add_pending_loop uct_ep req progress outcomes todo attempt status trace =
      ucp_add_pending_run_t.running := by
  induction todo generalizing attempt status trace with
  | zero => simp [ucp_ep_add_pending_loop, hstatus]
  | succ n ih =>
    obtain ⟨r, hr, _, _⟩ := ucp_ep_add_pending_uct_some uct_ep req.send_uct
      (outcomes attempt).1 (outcomes attempt).2 hfunc
    have hr1 : ucp_ep_add_pending_attempt uct_ep req outcomes attempt = some r.1 := by
      simp [ucp_ep_add_pending_attempt, hr]
    have hne : r.1 ≠ UCS_OK := by
      intro hok
      apply hnever attempt (le_refl _)
      rw [hr1, hok]
    simp only [ucp_ep_add_pending_loop, if_pos hstatus, hr]
    exact ih (attempt + 1) r.1 _ hne (fun k hk => hnever k (by omega))

/-- C11: for every sequence of outcomes of the add-pending cycle (and a request whose
`func` is non-null), the loop of `ucp_ep_add_pending` exits after the first attempt at
which `ucp_ep_add_pending_uct` returns OK and not before. With attempts numbered from
0, if the first OK is at attempt `n` (the `n + 1`-th attempt), then `n` iterations of
the loop are enough for it to exit, it has then made exactly `n + 1` attempts and,
when `progress` is non-zero, exactly `n` calls of `ucp_worker_progress` (none when it
is zero), and with fewer than `n` iterations it is still running; if no attempt ever
returns OK the loop is still running after any finite number of iterations. -/
theorem C11_add_pending_loop (ep : Nat) (uct_ep : uct_ep_t) (req : ucp_request_t)
    (progress : Int) (outcomes : Nat → ucs_status_t × ucs_status_t)
    (hfunc : req.send_uct.func ≠ none) :
    (∀ n : Nat,
      (∀ k, k < n → ucp_ep_add_pending_attempt uct_ep req outcomes k ≠ some UCS_OK) →
      ucp_ep_add_pending_attempt uct_ep req outcomes n = some UCS_OK →
      (∀ todo, n ≤ todo →
        ∃ trace, ucp_ep_add_pending ep uct_ep req progress outcomes todo =
            ucp_add_pending_run_t.exited { req with send_ep := ep } trace ∧
          count_attempts trace = n + 1 ∧
          count_progress trace = (if progress ≠ 0 then n else 0)) ∧
      (∀ todo, todo < n →
        ucp_ep_add_pending ep uct_ep req progress outcomes todo =
          ucp_add_pending_run_t.running)) ∧
    ((∀ k, ucp_ep_add_pending_attempt uct_ep req outcomes k ≠ some UCS_OK) →
      ∀ todo, ucp_ep_add_pending ep uct_ep req progress outcomes todo =
        ucp_add_pending_run_t.running) := by
  have hfunc1 : ({ req with send_ep := ep } : ucp_request_t).send_uct.func ≠ none := hfunc
  have hatt : ∀ k, ucp_ep_add_pending_attempt uct_ep { req with send_ep := ep } outcomes k =
      ucp_ep_add_pending_attempt uct_ep req outcomes k := fun _ => rfl
  obtain ⟨r, hr, ha, hp⟩ := ucp_ep_add_pending_uct_some uct_ep req.send_uct
    (outcomes 0).1 (outcomes 0).2 hfunc
  have hr0 : ucp_ep_add_pending_attempt uct_ep req outcomes 0 = some r.1 := by
    simp [ucp_ep_add_pending_attempt, hr]
  have hstart : ∀ todo, ucp_ep_add_pending ep uct_ep req progress outcomes todo =
      ucp_ep_add_pending_loop uct_ep { req with send_ep := ep } progress outcomes todo 1
        r.1 r.2 := by
    intro todo
    simp only [ucp_ep_add_pending, hr]
  constructor
  · intro n hbefore hat
    cases n with
    | zero =>
      have hok : r.1 = UCS_OK := by
        rw [hr0] at hat
        exact Option.some.inj hat
      constructor
      · intro todo _
        refine ⟨r.2, ?_, ha, ?_⟩
        · rw [hstart, hok, ucp_ep_add_pending_loop_ok]
        · rw [hp]; simp
      · intro todo h; omega
    | succ m =>
      have hne : r.1 ≠ UCS_OK := by
        intro hok
        apply hbefore 0 (by omega)
        rw [hr0, hok]
      have hloop := fun todo => ucp_ep_add_pending_loop_first_ok uct_ep
        { req with send_ep := ep } progress outcomes hfunc1 todo 1 m r.1 r.2 hne
        (fun k hk1 hk2 => by rw [hatt]; exact hbefore k (by omega))
        (by rw [hatt, show 1 + m = m + 1 by omega]; exact hat)
      constructor
      · intro todo htodo
        obtain ⟨trace1, he, hc1, hc2⟩ := (hloop todo).1 (by omega)
        refine ⟨trace1, by rw [hstart, he], ?_, ?_⟩
        · rw [hc1, ha]; omega
        · rw [hc2, hp]
          by_cases hpr : progress ≠ 0
          · simp only [if_pos hpr]; omega
          · simp only [if_neg hpr]
      · intro todo htodo
        rw [hstart]
        exact (hloop todo).2 (by omega)
  · intro hnever todo
    have hne : r.1 ≠ UCS_OK := by
      intro hok
      apply hnever 0
      rw [hr0, hok]
    rw [hstart]
    exact ucp_ep_add_pending_loop_never uct_ep { req with send_ep := ep } progress outcomes
      hfunc1 todo 1 r.1 r.2 hne (fun k _ => by rw [hatt]; exact hnever k)

/-- Witness of C11 on `example_outcomes`, where the first OK is at attempt 2 (the third
attempt): with `progress = 1` and 5 iterations allowed the loop exits after exactly 3
attempts and 2 calls of `ucp_worker_progress`. -/
theorem C11_add_pending_loop_witness :
    ∃ trace, ucp_ep_add_pending 100 { id := 10 } { id := 1, send_uct := { req := 1, func := some 1 } }
        1 example_outcomes 5 =
        ucp_add_pending_run_t.exited
          { id := 1, send_ep := 100, send_uct := { req := 1, func := some 1 } } trace ∧
      count_attempts trace = 2 + 1 ∧
      count_progress trace = (if (1 : Int) ≠ 0 then 2 else 0) :=
  ((C11_add_pending_loop 100 { id := 10 }
      { id := 1, send_uct := { req := 1, func := some 1 } } 1 example_outcomes
      (by decide)).1 2
      (by intro k hk; interval_cases k <;> decide) (by decide)).1 5 (by decide)

/-! ### C12: the order of events in `ucp_ep_destroy` -/

/-- The events of `ucp_ep_destroy` on a live endpoint: the events of its lanes, lane by
lane, then the release of the endpoint. -/
theorem ucp_ep_destroy_trace (worker : ucp_worker) (addr : Nat) (ep : ucp_ep)
    (hlive : worker.eps addr = some ep) :
    (ucp_ep_destroy worker addr).2.2 =
      (((List.range (ucp_ep_num_lanes worker ep)).map ep.uct_eps).map
        lane_destroy_events).flatten ++ [ucp_ep_event.ucs_free addr] := by
  have hep : ucp_ep_deref worker addr = ep := by simp [ucp_ep_deref, hlive]
  have hL : ucp_ep_num_lanes
      { worker with ep_hash := sglib_hashed_ucp_ep_t_delete worker.ep_hash addr ep } ep =
      ucp_ep_num_lanes worker ep := rfl
  obtain ⟨htrace, _⟩ := ucp_ep_destory_uct_eps_loop_spec (ucp_ep_num_lanes worker ep) 0
    ep.uct_eps []
  simp only [ucp_ep_destroy, hep, ucp_ep_destory_uct_eps, hL]
  rw [htrace, List.nil_append, List.range_eq_range', List.map_map]
  rfl

/-- The events of the lanes release no endpoint. -/
theorem lane_destroy_events_no_free (lanes : List uct_ep_t) (a : Nat) :
    ucp_ep_event.ucs_free a ∉ (lanes.map lane_destroy_events).flatten := by
  intro h
  rw [List.mem_flatten] at h
  obtain ⟨l, hl, hmem⟩ := h
  rw [List.mem_map] at hl
  obtain ⟨u, _, rfl⟩ := hl
  unfold lane_destroy_events at hmem
  simp at hmem

/-- C12 (amended): in the event trace of `ucp_ep_destroy` the lanes are handled one after
the other, in lane order: for each lane its `pending_purge`, then the CANCELED send
callbacks of the requests pending on it, then the destruction of that lane; so every
CANCELED callback occurs before the destruction of its own lane (and after the
destruction of the lanes before it). The endpoint is freed after all lane
destructions: the release is the last event and nothing else follows a lane's events.
For 3 pending sends on each of 2 lanes: 3 callbacks, the destruction of lane 0, 3
callbacks, the destruction of lane 1, then the free. -/
theorem C12_destroy_trace_order (worker : ucp_worker) (addr : Nat) (ep : ucp_ep)
    (hlive : worker.eps addr = some ep) :
    ∃ body : List ucp_ep_event,
      (ucp_ep_destroy worker addr).2.2 = body ++ [ucp_ep_event.ucs_free addr] ∧
      body = ((List.range (ucp_ep_num_lanes worker ep)).map
        (fun lane =>
          ucp_ep_event.uct_ep_pending_purge (ep.uct_eps lane).id ::
            ((ep.uct_eps lane).pending.map
              (fun req => ucp_ep_event.send_cb req.id UCS_ERR_CANCELED) ++
             [ucp_ep_event.uct_ep_destroy (ep.uct_eps lane).id]))).flatten ∧
      (∀ a, ucp_ep_event.ucs_free a ∉ body) ∧
      (∀ lane, lane < ucp_ep_num_lanes worker ep →
        ucp_ep_event.uct_ep_destroy (ep.uct_eps lane).id ∈ body) := by
  refine ⟨_, ucp_ep_destroy_trace worker addr ep hlive, ?_, ?_, ?_⟩
  · rw [List.map_map]
    rfl
  · intro a
    exact lane_destroy_events_no_free _ a
  · intro lane hlane
    rw [List.mem_flatten]
    refine ⟨lane_destroy_events (ep.uct_eps lane), ?_, ?_⟩
    · rw [List.map_map, List.mem_map]
      exact ⟨lane, List.mem_range.2 hlane, rfl⟩
    · unfold lane_destroy_events
      simp

/-- Witness of C12 on `example_worker` (3 pending sends on each of 2 lanes): the trace
is 3 callbacks and the destruction of lane 0 (handle 10), 3 callbacks and the
destruction of lane 1 (handle 11), each after its purge, then the free. -/
theorem C12_destroy_trace_order_witness :
    example_worker.eps 100 = some example_ep ∧
    ∃ body : List ucp_ep_event,
      (ucp_ep_destroy example_worker 100).2.2 = body ++ [ucp_ep_event.ucs_free 100] ∧
      body =
        [ucp_ep_event.uct_ep_pending_purge 10,
         ucp_ep_event.send_cb 1 UCS_ERR_CANCELED, ucp_ep_event.send_cb 2 UCS_ERR_CANCELED,
         ucp_ep_event.send_cb 3 UCS_ERR_CANCELED, ucp_ep_event.uct_ep_destroy 10,
         ucp_ep_event.uct_ep_pending_purge 11,
         ucp_ep_event.send_cb 4 UCS_ERR_CANCELED, ucp_ep_event.send_cb 5 UCS_ERR_CANCELED,
         ucp_ep_event.send_cb 6 UCS_ERR_CANCELED, ucp_ep_event.uct_ep_destroy 11] := by
  refine ⟨rfl, ?_⟩
  obtain ⟨body, h1, h2, _, _⟩ := C12_destroy_trace_order example_worker 100 example_ep rfl
  refine ⟨body, h1, ?_⟩
  rw [h2]
  decide

/-- Counterexample to C12 as stated: on `example_worker` (3 pending sends on each of 2
lanes) the destruction of lane 0 (handle 10) is the event at position 4 and the
CANCELED callbacks of requests 4, 5 and 6 come after it, at positions 6, 7 and 8: the
trace is not "6 callbacks, then 2 lane destructions". -/
theorem C12_counterexample :
    (ucp_ep_destroy example_worker 100).2.2[4]? = some (ucp_ep_event.uct_ep_destroy 10) ∧
    (ucp_ep_destroy example_worker 100).2.2[6]? =
      some (ucp_ep_event.send_cb 4 UCS_ERR_CANCELED) ∧
    (ucp_ep_destroy example_worker 100).2.2[7]? =
      some (ucp_ep_event.send_cb 5 UCS_ERR_CANCELED) ∧
    (ucp_ep_destroy example_worker 100).2.2[8]? =
      some (ucp_ep_event.send_cb 6 UCS_ERR_CANCELED) := by
  decide

/-! ### C14: a cancellation that finds no descriptor -/

/-- A TAG_CANCELED header for which no descriptor of the tag's list meets the cancel
condition changes nothing and produces no event. -/
theorem ucp_tag_rndv_process_rts_cancel_none (worker : ucp_worker) (hdr : ucp_rndv_rts_hdr_t)
    (length tl_flags : Nat) (desc_status : ucs_status_t) (req_alloc : Option Nat)
    (hop : hdr.opcode = UCP_RNDV_RTS_TAG_CANCELED)
    (hnone : ∀ d ∈ ucp_tag_unexp_get_list_for_tag worker hdr.tag,
      ucp_rndv_unexp_cancel_match hdr d = false) :
    ucp_tag_rndv_process_rts worker hdr length tl_flags desc_status req_alloc =
      (UCS_OK, worker, []) := by
  have hfind : (ucp_tag_unexp_get_list_for_tag worker hdr.tag).find?
      (ucp_rndv_unexp_cancel_match hdr) = none := by
    rw [List.find?_eq_none]
    intro x hx
    rw [hnone x hx]
    decide
  unfold ucp_tag_rndv_process_rts
  rw [if_pos hop]
  simp only [ucp_rndv_unexp_cancel, hfind]

/-- A TAG_CANCELED header never touches the expected queue or the EXP counter and never
starts a rendezvous receive: its events are at most an ATS and the release of a
descriptor. -/
theorem ucp_tag_rndv_process_rts_cancel_frame (worker : ucp_worker)
    (hdr : ucp_rndv_rts_hdr_t) (length tl_flags : Nat) (desc_status : ucs_status_t)
    (req_alloc : Option Nat) (hop : hdr.opcode = UCP_RNDV_RTS_TAG_CANCELED) :
    (ucp_tag_rndv_process_rts worker hdr length tl_flags desc_status req_alloc).1 = UCS_OK ∧
    (ucp_tag_rndv_process_rts worker hdr length tl_flags desc_status
      req_alloc).2.1.tm_expected = worker.tm_expected ∧
    (ucp_tag_rndv_process_rts worker hdr length tl_flags desc_status
      req_alloc).2.1.stats_rndv_exp = worker.stats_rndv_exp ∧
    ∀ e ∈ (ucp_tag_rndv_process_rts worker hdr length tl_flags desc_status req_alloc).2.2,
      (∃ ep req_id status, e = ucp_rndv_event.send_ats ep req_id status) ∨
      (∃ rdesc, e = ucp_rndv_event.ucp_recv_desc_release rdesc) := by
  unfold ucp_tag_rndv_process_rts
  rw [if_pos hop]
  simp only [ucp_rndv_unexp_cancel]
  cases hfind : (ucp_tag_unexp_get_list_for_tag worker hdr.tag).find?
      (ucp_rndv_unexp_cancel_match hdr) with
  | none =>
    refine ⟨trivial, rfl, rfl, ?_⟩
    intro e he
    simp at he
  | some rdesc =>
    refine ⟨trivial, rfl, rfl, ?_⟩
    intro e he
    simp only [List.mem_append, List.mem_singleton] at he
    rcases he with he | he
    · left
      unfold ucp_rndv_send_cancel_ack at he
      split at he
      · simp at he
      · split at he
        · simp at he
        · simp only [List.mem_singleton] at he
          exact ⟨_, _, _, he⟩
    · right
      exact ⟨rdesc, he⟩

/-- A header that is matched to an expected receive leaves the unexpected list and its
hash as they are. -/
theorem ucp_tag_rndv_process_rts_matched_frame (worker : ucp_worker)
    (hdr : ucp_rndv_rts_hdr_t) (length tl_flags : Nat) (desc_status : ucs_status_t)
    (req_alloc : Option Nat) (hop : hdr.opcode ≠ UCP_RNDV_RTS_TAG_CANCELED)
    (hmatch : ∃ rreq ∈ worker.tm_expected, rreq.recv_tag = hdr.tag) :
    (ucp_tag_rndv_process_rts worker hdr length tl_flags desc_status req_alloc).2.1.tm_unexp =
      worker.tm_unexp ∧
    (ucp_tag_rndv_process_rts worker hdr length tl_flags desc_status
      req_alloc).2.1.tm_unexp_hash = worker.tm_unexp_hash := by
  obtain ⟨i, rreq, hs, _, _⟩ := ucp_tag_exp_search_loop_some worker.tm_expected hdr.tag 0 hmatch
  rw [Nat.zero_add] at hs
  have hsearch : ucp_tag_exp_search worker hdr.tag = some i := hs
  unfold ucp_tag_rndv_process_rts
  rw [if_neg hop]
  simp only [hsearch]
  exact ⟨by first | rfl | trivial, by first | rfl | trivial⟩

/-- C14: for every RTS header with opcode TAG_CANCELED for which no descriptor in the
unexpected list of its tag matches all of (RNDV flag set, tag, sreq.ep_id,
sreq.req_id), `ucp_tag_rndv_process_rts` returns OK, leaves the worker (the unexpected
list, the expected queue and the EXP counter) unchanged and sends no ATS (there is no
event at all). This includes the case where the RTS it refers to was consumed by an
expected receive: after delivering a TAG_OK header that matched a posted receive, the
cancellation is such a no-op. A TAG_CANCELED header is never matched against the
expected queue: whatever the queue holds, it is left as it is, the EXP counter does
not change and no rendezvous receive is started. -/
theorem C14_cancel_without_match (worker : ucp_worker) (cancel : ucp_rndv_rts_hdr_t)
    (length tl_flags : Nat) (desc_status : ucs_status_t) (req_alloc : Option Nat)
    (hop : cancel.opcode = UCP_RNDV_RTS_TAG_CANCELED) :
    ((∀ d ∈ ucp_tag_unexp_get_list_for_tag worker cancel.tag,
        ucp_rndv_unexp_cancel_match cancel d = false) →
      ucp_tag_rndv_process_rts worker cancel length tl_flags desc_status req_alloc =
        (UCS_OK, worker, [])) ∧
    (∀ (hdr : ucp_rndv_rts_hdr_t) (length0 tl_flags0 : Nat) (desc_status0 : ucs_status_t)
       (req_alloc0 : Option Nat),
      hdr.opcode = UCP_RNDV_RTS_TAG_OK →
      (∃ rreq ∈ worker.tm_expected, rreq.recv_tag = hdr.tag) →
      (∀ d ∈ ucp_tag_unexp_get_list_for_tag worker cancel.tag,
        ucp_rndv_unexp_cancel_match cancel d = false) →
      ucp_tag_rndv_process_rts
          (ucp_tag_rndv_process_rts worker hdr length0 tl_flags0 desc_status0 req_alloc0).2.1
          cancel length tl_flags desc_status req_alloc =
        (UCS_OK,
         (ucp_tag_rndv_process_rts worker hdr length0 tl_flags0 desc_status0 req_alloc0).2.1,
         [])) ∧
    ((ucp_tag_rndv_process_rts worker cancel length tl_flags desc_status req_alloc).1 =
        UCS_OK ∧
     (ucp_tag_rndv_process_rts worker cancel length tl_flags desc_status
        req_alloc).2.1.tm_expected = worker.tm_expected ∧
     (ucp_tag_rndv_process_rts worker cancel length tl_flags desc_status
        req_alloc).2.1.stats_rndv_exp = worker.stats_rndv_exp ∧
     ∀ e ∈ (ucp_tag_rndv_process_rts worker cancel length tl_flags desc_status
        req_alloc).2.2,
       (∃ ep req_id status, e = ucp_rndv_event.send_ats ep req_id status) ∨
       (∃ rdesc, e = ucp_rndv_event.ucp_recv_desc_release rdesc)) := by
  refine ⟨?_, ?_, ?_⟩
  · intro hnone
    exact ucp_tag_rndv_process_rts_cancel_none worker cancel length tl_flags desc_status
      req_alloc hop hnone
  · intro hdr length0 tl_flags0 desc_status0 req_alloc0 hok hmatch hnone
    obtain ⟨hu, hh⟩ := ucp_tag_rndv_process_rts_matched_frame worker hdr length0 tl_flags0
      desc_status0 req_alloc0 (by rw [hok]; decide) hmatch
    apply ucp_tag_rndv_process_rts_cancel_none _ cancel length tl_flags desc_status
      req_alloc hop
    intro d hd
    apply hnone d
    unfold ucp_tag_unexp_get_list_for_tag at hd ⊢
    rw [hu, hh] at hd
    exact hd
  · exact ucp_tag_rndv_process_rts_cancel_frame worker cancel length tl_flags desc_status
      req_alloc hop

/-- Witness of C14: on `example_rndv_worker` the RTS of the spec's scenario is consumed
by the posted receive; the TAG_CANCELED header with the same tag and ids then finds
no descriptor: OK, the worker unchanged, no event. -/
theorem C14_cancel_without_match_witness :
    ucp_tag_rndv_process_rts
        (ucp_tag_rndv_process_rts example_rndv_worker example_rts 41 0 UCS_OK none).2.1
        { example_rts with opcode := UCP_RNDV_RTS_TAG_CANCELED } 41 0 UCS_OK (some 9) =
      (UCS_OK,
       (ucp_tag_rndv_process_rts example_rndv_worker example_rts 41 0 UCS_OK none).2.1,
       []) :=
  (C14_cancel_without_match example_rndv_worker
      { example_rts with opcode := UCP_RNDV_RTS_TAG_CANCELED } 41 0 UCS_OK (some 9) rfl).2.1
    example_rts 41 0 UCS_OK none rfl
    ⟨{ id := 3, recv_tag := 0xDEADBEEF }, by simp [example_rndv_worker], rfl⟩
    (fun d hd => by simp [ucp_tag_unexp_get_list_for_tag, example_rndv_worker] at hd)

/-! ### C13: the lane lists and the popcount assertions -/

/-- The bit test of the first loop of `ucp_ep_config_init` reads the bit of the map. -/
theorem ucs_bit_test (map lane : Nat) (hmap : map < 2 ^ 64) :
    map &&& UCS_BIT lane ≠ 0 ↔ map.testBit lane = true := by
  unfold UCS_BIT
  rw [Nat.one_shiftLeft]
  by_cases hl : lane < 64
  · have hlt : 2 ^ lane < 2 ^ 64 := Nat.pow_lt_pow_right (by decide) hl
    rw [Nat.mod_eq_of_lt hlt, Nat.and_two_pow]
    cases h : map.testBit lane
    · simp
    · simp
  · have hdvd : 2 ^ 64 ∣ 2 ^ lane := Nat.pow_dvd_pow 2 (by omega)
    rw [Nat.mod_eq_zero_of_dvd hdvd, Nat.and_zero]
    have hle : 2 ^ 64 ≤ 2 ^ lane := Nat.pow_le_pow_right (by decide) (by omega)
    have hfalse : map.testBit lane = false := Nat.testBit_lt_two_pow (lt_of_lt_of_le hmap hle)
    rw [hfalse]
    simp

/-- Storing at index `n` extends the first `n` entries by the value stored. -/
theorem array_take_update (a : Nat → Nat) (n v : Nat) :
    array_take (Function.update a n v) (n + 1) = array_take a n ++ [v] := by
  unfold array_take
  rw [List.range_succ, List.map_append]
  congr 1
  · apply List.map_congr_left
    intro i hi
    rw [List.mem_range] at hi
    rw [Function.update_noteq (by omega)]
  · simp

/-- The first loop of `ucp_ep_config_init`: the entries it appends to the two lists are
the lanes it visits whose bit is set in the corresponding map, in the order visited. -/
theorem ucp_ep_config_init_lanes_loop_spec (key : ucp_ep_config_key_t)
    (hrma : key.rma_lanes_map < 2 ^ 64) (hamo : key.amo_lanes_map < 2 ^ 64)
    (todo lane : Nat) (s : ucp_lane_scan_t) :
    array_take (ucp_ep_config_init_lanes_loop key todo lane s).rma_lanes
        (ucp_ep_config_init_lanes_loop key todo lane s).num_rma_lanes =
      array_take s.rma_lanes s.num_rma_lanes ++
        (List.range' lane todo).filter (fun i => key.rma_lanes_map.testBit i) ∧
    array_take (ucp_ep_config_init_lanes_loop key todo lane s).amo_lanes
        (ucp_ep_config_init_lanes_loop key todo lane s).num_amo_lanes =
      array_take s.amo_lanes s.num_amo_lanes ++
        (List.range' lane todo).filter (fun i => key.amo_lanes_map.testBit i) ∧
    (ucp_ep_config_init_lanes_loop key todo lane s).num_rma_lanes =
      s.num_rma_lanes +
        ((List.range' lane todo).filter (fun i => key.rma_lanes_map.testBit i)).length ∧
    (ucp_ep_config_init_lanes_loop key todo lane s).num_amo_lanes =
      s.num_amo_lanes +
        ((List.range' lane todo).filter (fun i => key.amo_lanes_map.testBit i)).length := by
  induction todo generalizing lane s with
  | zero => simp [ucp_ep_config_init_lanes_loop]
  | succ n ih =>
    unfold ucp_ep_config_init_lanes_loop
    simp only []
    rw [List.range'_succ]
    by_cases h1 : key.rma_lanes_map.testBit lane = true <;>
    by_cases h2 : key.amo_lanes_map.testBit lane = true
    · have b1 := (ucs_bit_test _ lane hrma).2 h1
      have b2 := (ucs_bit_test _ lane hamo).2 h2
      rw [if_pos b1, if_pos b2]
      obtain ⟨i1, i2, i3, i4⟩ := ih (lane + 1)
        { rma_lanes := Function.update s.rma_lanes s.num_rma_lanes lane,
          amo_lanes := Function.update s.amo_lanes s.num_amo_lanes lane,
          num_rma_lanes := s.num_rma_lanes + 1, num_amo_lanes := s.num_amo_lanes + 1 }
      refine ⟨?_, ?_, ?_, ?_⟩
      · rw [i1]; simp [array_take_update, List.filter_cons, h1]
      · rw [i2]; simp [array_take_update, List.filter_cons, h2]
      · rw [i3]; simp [List.filter_cons, h1]; omega
      · rw [i4]; simp [List.filter_cons, h2]; omega
    · have b1 := (ucs_bit_test _ lane hrma).2 h1
      have b2 : ¬ (key.amo_lanes_map &&& UCS_BIT lane ≠ 0) :=
        fun h => h2 ((ucs_bit_test _ lane hamo).1 h)
      rw [if_pos b1, if_neg b2]
      obtain ⟨i1, i2, i3, i4⟩ := ih (lane + 1)
        { s with rma_lanes := Function.update s.rma_lanes s.num_rma_lanes lane,
                 num_rma_lanes := s.num_rma_lanes + 1 }
      refine ⟨?_, ?_, ?_, ?_⟩
      · rw [i1]; simp [array_take_update, List.filter_cons, h1]
      · rw [i2]; simp [List.filter_cons, h2]
      · rw [i3]; simp [List.filter_cons, h1]; omega
      · rw [i4]; simp [List.filter_cons, h2]
    · have b1 : ¬ (key.rma_lanes_map &&& UCS_BIT lane ≠ 0) :=
        fun h => h1 ((ucs_bit_test _ lane hrma).1 h)
      have b2 := (ucs_bit_test _ lane hamo).2 h2
      rw [if_neg b1, if_pos b2]
      obtain ⟨i1, i2, i3, i4⟩ := ih (lane + 1)
        { s with amo_lanes := Function.update s.amo_lanes s.num_amo_lanes lane,
                 num_amo_lanes := s.num_amo_lanes + 1 }
      refine ⟨?_, ?_, ?_, ?_⟩
      · rw [i1]; simp [List.filter_cons, h1]
      · rw [i2]; simp [array_take_update, List.filter_cons, h2]
      · rw [i3]; simp [List.filter_cons, h1]
      · rw [i4]; simp [List.filter_cons, h2]; omega
    · have b1 : ¬ (key.rma_lanes_map &&& UCS_BIT lane ≠ 0) :=
        fun h => h1 ((ucs_bit_test _ lane hrma).1 h)
      have b2 : ¬ (key.amo_lanes_map &&& UCS_BIT lane ≠ 0) :=
        fun h => h2 ((ucs_bit_test _ lane hamo).1 h)
      rw [if_neg b1, if_neg b2]
      obtain ⟨i1, i2, i3, i4⟩ := ih (lane + 1) s
      refine ⟨?_, ?_, ?_, ?_⟩
      · rw [i1]; simp [List.filter_cons, h1]
      · rw [i2]; simp [List.filter_cons, h2]
      · rw [i3]; simp [List.filter_cons, h1]
      · rw [i4]; simp [List.filter_cons, h2]

/-- The RMA loop of `ucp_ep_config_init` does not change the two lane lists. -/
theorem ucp_ep_config_init_rma_loop_lists (worker : ucp_worker) (todo map : Nat)
    (config : ucp_ep_config_t) :
    (ucp_ep_config_init_rma_loop worker todo map config).rma_lanes = config.rma_lanes ∧
    (ucp_ep_config_init_rma_loop worker todo map config).amo_lanes = config.amo_lanes := by
  induction todo generalizing map config with
  | zero => exact ⟨rfl, rfl⟩
  | succ n ih =>
    unfold ucp_ep_config_init_rma_loop
    split
    · simp only []
      rw [(ih _ _).1, (ih _ _).2]
      split_ifs <;> exact ⟨rfl, rfl⟩
    · exact ⟨rfl, rfl⟩

/-- The lane lists that `ucp_ep_config_init` leaves are those of its first loop. -/
theorem ucp_ep_config_init_lists (worker : ucp_worker) (config : ucp_ep_config_t) :
    (ucp_ep_config_init worker config).rma_lanes = (ucp_ep_config_init_lanes config).rma_lanes ∧
    (ucp_ep_config_init worker config).amo_lanes =
      (ucp_ep_config_init_lanes config).amo_lanes := by
  unfold ucp_ep_config_init
  simp only []
  rw [(ucp_ep_config_init_rma_loop_lists _ _ _ _).1, (ucp_ep_config_init_rma_loop_lists _ _ _ _).2]
  unfold ucp_ep_config_init_am
  simp only []
  split_ifs <;> exact ⟨rfl, rfl⟩

/-- Scanning further than a bound above all positions that satisfy `p` finds nothing
more. -/
theorem filter_range_bound (p : Nat → Bool) (a b : Nat) (h : ∀ i, p i = true → i < a)
    (hab : a ≤ b) : (List.range b).filter p = (List.range a).filter p := by
  obtain ⟨k, rfl⟩ := Nat.exists_eq_add_of_le hab
  induction k with
  | zero => rfl
  | succ k ih =>
    have hp : ¬ p (a + k) = true := fun hp => by have := h _ hp; omega
    rw [← Nat.add_assoc, List.range_succ, List.filter_append, ih (by omega)]
    simp [hp]

/-- The set bits of a number below `2^n` are below `n`. -/
theorem testBit_bound (map n i : Nat) (hmap : map < 2 ^ n) (hi : map.testBit i = true) :
    i < n := by
  by_contra hge
  have hle : 2 ^ n ≤ 2 ^ i := Nat.pow_le_pow_right (by decide) (by omega)
  rw [Nat.testBit_lt_two_pow (lt_of_lt_of_le hmap hle)] at hi
  exact absurd hi (by decide)

/-- The positions of all the set bits of a map whose set bits are below `n`. -/
theorem mem_set_bits (map n : Nat) (h : ∀ i, map.testBit i = true → i < n) (i : Nat) :
    i ∈ set_bits map n ↔ map.testBit i = true := by
  unfold set_bits
  rw [List.mem_filter, List.mem_range]
  exact ⟨fun hi => hi.2, fun hi => ⟨h i hi, hi⟩⟩

/-- The number of set bits below `n` of a machine word whose set bits are all below `n`
is its popcount. -/
theorem set_bits_length (map n : Nat) (hmap : map < 2 ^ 64)
    (h : ∀ i, map.testBit i = true → i < n) :
    (set_bits map n).length = ucs_count_one_bits map := by
  have h64 : ∀ i, map.testBit i = true → i < 64 := by
    intro i hi
    by_contra hge
    have hle : 2 ^ 64 ≤ 2 ^ i := Nat.pow_le_pow_right (by decide) (by omega)
    rw [Nat.testBit_lt_two_pow (lt_of_lt_of_le hmap hle)] at hi
    exact absurd hi (by decide)
  unfold set_bits ucs_count_one_bits
  rw [← filter_range_bound _ n (max n 64) h (le_max_left _ _),
    ← filter_range_bound _ 64 (max n 64) h64 (le_max_right _ _)]

/-- The first loop of `ucp_ep_config_init` on a configuration whose maps are machine
words: the entries written are the set bits below `num_lanes`, in ascending order. -/
theorem ucp_ep_config_init_lanes_spec (config : ucp_ep_config_t)
    (hrma : config.key.rma_lanes_map < 2 ^ 64) (hamo : config.key.amo_lanes_map < 2 ^ 64) :
    array_take (ucp_ep_config_init_lanes config).rma_lanes
        (ucp_ep_config_init_lanes config).num_rma_lanes =
      set_bits config.key.rma_lanes_map config.key.num_lanes ∧
    array_take (ucp_ep_config_init_lanes config).amo_lanes
        (ucp_ep_config_init_lanes config).num_amo_lanes =
      set_bits config.key.amo_lanes_map config.key.num_lanes ∧
    (ucp_ep_config_init_lanes config).num_rma_lanes =
      (set_bits config.key.rma_lanes_map config.key.num_lanes).length ∧
    (ucp_ep_config_init_lanes config).num_amo_lanes =
      (set_bits config.key.amo_lanes_map config.key.num_lanes).length := by
  obtain ⟨h1, h2, h3, h4⟩ := ucp_ep_config_init_lanes_loop_spec config.key hrma hamo
    config.key.num_lanes 0
    { rma_lanes := config.rma_lanes, amo_lanes := config.amo_lanes,
      num_rma_lanes := 0, num_amo_lanes := 0 }
  unfold ucp_ep_config_init_lanes set_bits
  rw [List.range_eq_range']
  refine ⟨?_, ?_, ?_, ?_⟩
  · rw [h1]; simp [array_take]
  · rw [h2]; simp [array_take]
  · rw [h3]; simp
  · rw [h4]; simp

/-- C13: for every configuration key in which every set bit of `rma_lanes_map` and of
`amo_lanes_map` is below `num_lanes` (the maps being machine words), `ucp_ep_config_init`
fills `rma_lanes[]` (and `amo_lanes[]`) with exactly the positions of the set bits of the
corresponding map, in strictly ascending order; the number of entries written equals
the popcount of the map, and the two assertions comparing the counts with the
popcounts hold. -/
theorem C13_lane_lists (worker : ucp_worker) (config : ucp_ep_config_t)
    (hrma64 : config.key.rma_lanes_map < 2 ^ 64) (hamo64 : config.key.amo_lanes_map < 2 ^ 64)
    (hrma : ∀ i, config.key.rma_lanes_map.testBit i = true → i < config.key.num_lanes)
    (hamo : ∀ i, config.key.amo_lanes_map.testBit i = true → i < config.key.num_lanes) :
    (array_take (ucp_ep_config_init worker config).rma_lanes
        (ucp_ep_config_init_lanes config).num_rma_lanes =
      set_bits config.key.rma_lanes_map config.key.num_lanes ∧
     (∀ i, i ∈ set_bits config.key.rma_lanes_map config.key.num_lanes ↔
       config.key.rma_lanes_map.testBit i = true) ∧
     (set_bits config.key.rma_lanes_map config.key.num_lanes).Pairwise (· < ·) ∧
     (ucp_ep_config_init_lanes config).num_rma_lanes =
       ucs_count_one_bits config.key.rma_lanes_map) ∧
    (array_take (ucp_ep_config_init worker config).amo_lanes
        (ucp_ep_config_init_lanes config).num_amo_lanes =
      set_bits config.key.amo_lanes_map config.key.num_lanes ∧
     (∀ i, i ∈ set_bits config.key.amo_lanes_map config.key.num_lanes ↔
       config.key.amo_lanes_map.testBit i = true) ∧
     (set_bits config.key.amo_lanes_map config.key.num_lanes).Pairwise (· < ·) ∧
     (ucp_ep_config_init_lanes config).num_amo_lanes =
       ucs_count_one_bits config.key.amo_lanes_map) ∧
    ucp_ep_config_init_asserts config = true := by
  obtain ⟨h1, h2, h3, h4⟩ := ucp_ep_config_init_lanes_spec config hrma64 hamo64
  obtain ⟨l1, l2⟩ := ucp_ep_config_init_lists worker config
  have c1 := set_bits_length _ _ hrma64 hrma
  have c2 := set_bits_length _ _ hamo64 hamo
  refine ⟨⟨?_, mem_set_bits _ _ hrma, ?_, ?_⟩, ⟨?_, mem_set_bits _ _ hamo, ?_, ?_⟩, ?_⟩
  · rw [l1, h1]
  · exact (List.pairwise_lt_range _).filter _
  · rw [h3, c1]
  · rw [l2, h2]
  · exact (List.pairwise_lt_range _).filter _
  · rw [h4, c2]
  · unfold ucp_ep_config_init_asserts
    rw [h3, h4, c1, c2]
    simp

/-- Witness of C13 on `example_lanes_config` (four lanes, RMA map `0b0101`, AMO map
`0b1000`): the RMA list is `[0, 2]`, of length 2, the popcount of 5. -/
theorem C13_lane_lists_witness :
    array_take (ucp_ep_config_init {} example_lanes_config).rma_lanes
        (ucp_ep_config_init_lanes example_lanes_config).num_rma_lanes = [0, 2] ∧
    (ucp_ep_config_init_lanes example_lanes_config).num_rma_lanes = 2 ∧
    ucp_ep_config_init_asserts example_lanes_config = true :=
  ⟨(C13_lane_lists {} example_lanes_config (by decide) (by decide)
      (fun i hi => testBit_bound 5 4 i (by decide) hi)
      (fun i hi => testBit_bound 8 4 i (by decide) hi)).1.1.trans (by decide),
   by decide, by decide⟩

/-! ### C15: the RMA loop -/

set_option maxRecDepth 100000 in
/-- On every 8-bit map the RMA loop of `ucp_ep_config_init`, allowed 8 iterations, visits
exactly the set bits of the map in ascending order and ends with the map at 0. -/
theorem ucp_ep_config_init_rma_visited_byte :
    ∀ map, map < 256 →
      ucp_ep_config_init_rma_visited 8 map = set_bits map 8 ∧
      ucp_ep_config_init_rma_map_after 8 map = 0 := by
  decide

/-- The RMA loop of `ucp_ep_config_init` applies the step of each lane it visits, in
order. -/
theorem ucp_ep_config_init_rma_loop_eq_foldl (worker : ucp_worker) (todo map : Nat)
    (config : ucp_ep_config_t) :
    ucp_ep_config_init_rma_loop worker todo map config =
      (ucp_ep_config_init_rma_visited todo map).foldl
        (fun c lane => ucp_ep_config_init_rma_step worker lane c) config := by
  induction todo generalizing map config with
  | zero => rfl
  | succ n ih =>
    unfold ucp_ep_config_init_rma_loop ucp_ep_config_init_rma_visited
    by_cases hmap : map > 0
    · rw [if_pos hmap, if_pos hmap, List.foldl_cons]
      simp only []
      rw [ih]
      rfl
    · rw [if_neg hmap, if_neg hmap]
      rfl

/-- The set bits below 8 of a map are those of its low byte. -/
theorem set_bits_mod_byte (map : Nat) : set_bits (map % 2 ^ 8) 8 = set_bits map 8 := by
  unfold set_bits
  apply List.filter_congr
  intro i hi
  rw [List.mem_range] at hi
  rw [Nat.testBit_mod_two_pow]
  simp [hi]

/-- The lanes visited by the RMA loop of `ucp_ep_config_init` for a map: the set bits
below 8, in ascending order; the loop has ended within 8 iterations. -/
theorem ucp_ep_config_init_rma_visited_spec (map : Nat) :
    ucp_ep_config_init_rma_visited 8 (map % 2 ^ 8) = set_bits map 8 ∧
    ucp_ep_config_init_rma_map_after 8 (map % 2 ^ 8) = 0 := by
  have h := ucp_ep_config_init_rma_visited_byte (map % 2 ^ 8) (Nat.mod_lt _ (by decide))
  rw [set_bits_mod_byte] at h
  exact h

/-- The step of the RMA loop for a lane keeps the key and sets each of the three maxima
to the value the lane supplies, if it supplies one. -/
theorem ucp_ep_config_init_rma_step_spec (worker : ucp_worker) (lane : Nat)
    (config : ucp_ep_config_t) :
    (ucp_ep_config_init_rma_step worker lane config).key = config.key ∧
    (ucp_ep_config_init_rma_step worker lane config).max_put_bcopy =
      (lane_put_bcopy worker config.key lane).getD config.max_put_bcopy ∧
    (ucp_ep_config_init_rma_step worker lane config).max_put_short =
      (lane_put_short worker config.key lane).getD config.max_put_short ∧
    (ucp_ep_config_init_rma_step worker lane config).max_get_bcopy =
      (lane_get_bcopy worker config.key lane).getD config.max_get_bcopy := by
  unfold ucp_ep_config_init_rma_step lane_put_bcopy lane_put_short lane_get_bcopy
  simp only []
  split_ifs <;> simp_all

/-- Replacing the key by the key already held changes nothing. -/
theorem ucp_ep_config_set_key_self (c : ucp_ep_config_t) (k : ucp_ep_config_key_t)
    (h : c.key = k) : ucp_ep_config_set_key c k = c := by
  subst h
  rfl

/-- The first loop of `ucp_ep_config_init` reads the key only through its two maps. -/
theorem ucp_ep_config_init_lanes_loop_congr (k1 k2 : ucp_ep_config_key_t)
    (hrma : k1.rma_lanes_map = k2.rma_lanes_map) (hamo : k1.amo_lanes_map = k2.amo_lanes_map)
    (todo lane : Nat) (s : ucp_lane_scan_t) :
    ucp_ep_config_init_lanes_loop k1 todo lane s =
      ucp_ep_config_init_lanes_loop k2 todo lane s := by
  induction todo generalizing lane s with
  | zero => rfl
  | succ n ih =>
    unfold ucp_ep_config_init_lanes_loop
    simp only []
    rw [hrma, hamo, ih]

/-- The step of the RMA loop for a lane reads the key only through the resource of that
lane. -/
theorem ucp_ep_config_init_rma_step_congr (worker : ucp_worker) (lane : Nat)
    (c : ucp_ep_config_t) (k1 k2 : ucp_ep_config_key_t) (h : k1.lanes lane = k2.lanes lane) :
    ucp_ep_config_init_rma_step worker lane (ucp_ep_config_set_key c k2) =
      ucp_ep_config_set_key
        (ucp_ep_config_init_rma_step worker lane (ucp_ep_config_set_key c k1)) k2 := by
  have e1 : (ucp_ep_config_set_key c k1).key.lanes lane = k2.lanes lane := h
  have e2 : (ucp_ep_config_set_key c k2).key.lanes lane = k2.lanes lane := rfl
  unfold ucp_ep_config_init_rma_step
  simp only [e1, e2]
  split_ifs <;> rfl

/-- The active-message block of `ucp_ep_config_init` reads the key only through `am_lane`
and the resource of that lane. -/
theorem ucp_ep_config_init_am_congr (worker : ucp_worker) (c : ucp_ep_config_t)
    (k1 k2 : ucp_ep_config_key_t) (ham : k1.am_lane = k2.am_lane)
    (hlane : k1.am_lane ≠ UCP_NULL_LANE → k1.lanes k1.am_lane = k2.lanes k2.am_lane) :
    ucp_ep_config_init_am worker (ucp_ep_config_set_key c k2) =
      ucp_ep_config_set_key (ucp_ep_config_init_am worker (ucp_ep_config_set_key c k1)) k2 := by
  have a1 : (ucp_ep_config_set_key c k1).key.am_lane = k2.am_lane := ham
  have a2 : (ucp_ep_config_set_key c k2).key.am_lane = k2.am_lane := rfl
  have l2 : (ucp_ep_config_set_key c k2).key.lanes k2.am_lane = k2.lanes k2.am_lane := rfl
  by_cases hnull : k2.am_lane ≠ UCP_NULL_LANE
  · have l1 : (ucp_ep_config_set_key c k1).key.lanes k2.am_lane = k2.lanes k2.am_lane := by
      have := hlane (by rw [ham]; exact hnull)
      rw [ham] at this
      exact this
    unfold ucp_ep_config_init_am
    simp only [a1, a2, l1, l2, if_pos hnull]
    split_ifs <;> rfl
  · unfold ucp_ep_config_init_am
    simp only [a1, a2, if_neg hnull]
    rfl

/-- The steps of a list of lanes read the key only through the resources of those
lanes. -/
theorem ucp_ep_config_init_rma_foldl_congr (worker : ucp_worker) (lanes : List Nat)
    (c : ucp_ep_config_t) (k1 k2 : ucp_ep_config_key_t)
    (h : ∀ lane ∈ lanes, k1.lanes lane = k2.lanes lane) :
    lanes.foldl (fun c lane => ucp_ep_config_init_rma_step worker lane c)
        (ucp_ep_config_set_key c k2) =
      ucp_ep_config_set_key
        (lanes.foldl (fun c lane => ucp_ep_config_init_rma_step worker lane c)
          (ucp_ep_config_set_key c k1)) k2 := by
  induction lanes generalizing c with
  | nil => rfl
  | cons lane rest ih =>
    have hk : (ucp_ep_config_init_rma_step worker lane (ucp_ep_config_set_key c k1)).key = k1 :=
      (ucp_ep_config_init_rma_step_spec worker lane (ucp_ep_config_set_key c k1)).1
    rw [List.foldl_cons, List.foldl_cons,
      ucp_ep_config_init_rma_step_congr worker lane c k1 k2 (h lane (List.mem_cons_self _ _)),
      ih _ (fun l hl => h l (List.mem_cons_of_mem _ hl)),
      ucp_ep_config_set_key_self _ k1 hk]

/-- The function `ucp_ep_config_init` on a configuration with key `k`: the defaults, the
active-message block, then the steps of the RMA lanes, the set bits below 8 of the RMA
map in ascending order. -/
theorem ucp_ep_config_init_normal (worker : ucp_worker) (c : ucp_ep_config_t)
    (k : ucp_ep_config_key_t) :
    ucp_ep_config_init worker (ucp_ep_config_set_key c k) =
      (set_bits k.rma_lanes_map 8).foldl
        (fun c lane => ucp_ep_config_init_rma_step worker lane c)
        (ucp_ep_config_init_am worker
          (ucp_ep_config_set_key
            (ucp_ep_config_defaults worker c
              (ucp_ep_config_init_lanes (ucp_ep_config_set_key c k))) k)) := by
  unfold ucp_ep_config_init
  simp only []
  rw [ucp_ep_config_init_rma_loop_eq_foldl, ucp_ep_config_init_am_key]
  show (ucp_ep_config_init_rma_visited 8 (k.rma_lanes_map % 2 ^ 8)).foldl _ _ = _
  rw [(ucp_ep_config_init_rma_visited_spec k.rma_lanes_map).1]
  rfl

/-- The function `ucp_ep_config_init` reads the key only through `num_lanes`, `am_lane`,
the two maps, the resource of the AM lane and the resources of the RMA lanes below 8:
two keys that agree on these give the same derived configuration, the key apart. -/
theorem ucp_ep_config_init_congr (worker : ucp_worker) (c : ucp_ep_config_t)
    (k1 k2 : ucp_ep_config_key_t) (hnum : k1.num_lanes = k2.num_lanes)
    (ham : k1.am_lane = k2.am_lane) (hrma : k1.rma_lanes_map = k2.rma_lanes_map)
    (hamo : k1.amo_lanes_map = k2.amo_lanes_map)
    (hlane : k1.am_lane ≠ UCP_NULL_LANE → k1.lanes k1.am_lane = k2.lanes k2.am_lane)
    (hrmalanes : ∀ lane ∈ set_bits k1.rma_lanes_map 8, k1.lanes lane = k2.lanes lane) :
    ucp_ep_config_init worker (ucp_ep_config_set_key c k2) =
      ucp_ep_config_set_key (ucp_ep_config_init worker (ucp_ep_config_set_key c k1)) k2 := by
  have hscan : ucp_ep_config_init_lanes (ucp_ep_config_set_key c k2) =
      ucp_ep_config_init_lanes (ucp_ep_config_set_key c k1) := by
    show ucp_ep_config_init_lanes_loop k2 k2.num_lanes 0 _ =
      ucp_ep_config_init_lanes_loop k1 k1.num_lanes 0 _
    rw [← hnum]
    exact (ucp_ep_config_init_lanes_loop_congr k1 k2 hrma hamo _ _ _).symm
  rw [ucp_ep_config_init_normal, ucp_ep_config_init_normal, hscan, ← hrma,
    ucp_ep_config_init_am_congr worker _ k1 k2 ham hlane,
    ucp_ep_config_init_rma_foldl_congr worker _ _ k1 k2 hrmalanes,
    ucp_ep_config_set_key_self _ k1 (ucp_ep_config_init_am_key worker _)]

/-- C16: derivation respects key equality. For every worker, every initial
configuration content `c` and every two keys for which `ucp_ep_config_is_equal` returns 1,
with `am_lane` below `num_lanes` or equal to `UCP_NULL_LANE` and every set bit of
`rma_lanes_map` below `num_lanes` (the bits of `amo_lanes_map` need no bound: the AMO
lanes are listed, their resources never read), `ucp_ep_config_init` gives for the second
key the configuration it gives for the first with the key replaced: the same `rma_lanes`,
`amo_lanes`, thresholds and maxima. In particular the result does not depend on the
`lanes[]` entries at index `num_lanes` or above. -/
theorem C16_init_respects_key_equality (worker : ucp_worker) (c : ucp_ep_config_t)
    (k1 k2 : ucp_ep_config_key_t) (heq : ucp_ep_config_is_equal k1 k2 = 1)
    (ham : k1.am_lane < k1.num_lanes ∨ k1.am_lane = UCP_NULL_LANE)
    (hrma : ∀ i, k1.rma_lanes_map.testBit i = true → i < k1.num_lanes) :
    (ucp_ep_config_init worker (ucp_ep_config_set_key c k2) =
      ucp_ep_config_set_key (ucp_ep_config_init worker (ucp_ep_config_set_key c k1)) k2) ∧
    ((ucp_ep_config_init worker (ucp_ep_config_set_key c k2)).rma_lanes =
        (ucp_ep_config_init worker (ucp_ep_config_set_key c k1)).rma_lanes ∧
     (ucp_ep_config_init worker (ucp_ep_config_set_key c k2)).amo_lanes =
        (ucp_ep_config_init worker (ucp_ep_config_set_key c k1)).amo_lanes) ∧
    ((ucp_ep_config_init worker (ucp_ep_config_set_key c k2)).zcopy_thresh =
        (ucp_ep_config_init worker (ucp_ep_config_set_key c k1)).zcopy_thresh ∧
     (ucp_ep_config_init worker (ucp_ep_config_set_key c k2)).sync_zcopy_thresh =
        (ucp_ep_config_init worker (ucp_ep_config_set_key c k1)).sync_zcopy_thresh ∧
     (ucp_ep_config_init worker (ucp_ep_config_set_key c k2)).bcopy_thresh =
        (ucp_ep_config_init worker (ucp_ep_config_set_key c k1)).bcopy_thresh ∧
     (ucp_ep_config_init worker (ucp_ep_config_set_key c k2)).rndv_thresh =
        (ucp_ep_config_init worker (ucp_ep_config_set_key c k1)).rndv_thresh ∧
     (ucp_ep_config_init worker (ucp_ep_config_set_key c k2)).sync_rndv_thresh =
        (ucp_ep_config_init worker (ucp_ep_config_set_key c k1)).sync_rndv_thresh) ∧
    ((ucp_ep_config_init worker (ucp_ep_config_set_key c k2)).max_eager_short =
        (ucp_ep_config_init worker (ucp_ep_config_set_key c k1)).max_eager_short ∧
     (ucp_ep_config_init worker (ucp_ep_config_set_key c k2)).max_am_short =
        (ucp_ep_config_init worker (ucp_ep_config_set_key c k1)).max_am_short ∧
     (ucp_ep_config_init worker (ucp_ep_config_set_key c k2)).max_am_bcopy =
        (ucp_ep_config_init worker (ucp_ep_config_set_key c k1)).max_am_bcopy ∧
     (ucp_ep_config_init worker (ucp_ep_config_set_key c k2)).max_am_zcopy =
        (ucp_ep_config_init worker (ucp_ep_config_set_key c k1)).max_am_zcopy ∧
     (ucp_ep_config_init worker (ucp_ep_config_set_key c k2)).max_put_short =
        (ucp_ep_config_init worker (ucp_ep_config_set_key c k1)).max_put_short ∧
     (ucp_ep_config_init worker (ucp_ep_config_set_key c k2)).max_put_bcopy =
        (ucp_ep_config_init worker (ucp_ep_config_set_key c k1)).max_put_bcopy ∧
     (ucp_ep_config_init worker (ucp_ep_config_set_key c k2)).max_get_bcopy =
        (ucp_ep_config_init worker (ucp_ep_config_set_key c k1)).max_get_bcopy) ∧
    (∀ tail : Nat → Nat,
      ucp_ep_config_init worker (ucp_ep_config_set_key c
          { k1 with lanes := fun i => if i < k1.num_lanes then k1.lanes i else tail i }) =
        ucp_ep_config_set_key (ucp_ep_config_init worker (ucp_ep_config_set_key c k1))
          { k1 with lanes := fun i => if i < k1.num_lanes then k1.lanes i else tail i }) := by
  obtain ⟨hnum, hamlane, _, hrmamap, hamomap, hlanes⟩ :=
    (ucp_ep_config_is_equal_iff k1 k2).1 heq
  have hmain : ucp_ep_config_init worker (ucp_ep_config_set_key c k2) =
      ucp_ep_config_set_key (ucp_ep_config_init worker (ucp_ep_config_set_key c k1)) k2 := by
    refine ucp_ep_config_init_congr worker c k1 k2 hnum hamlane hrmamap hamomap ?_ ?_
    · intro hne
      rw [← hamlane]
      rcases ham with h | h
      · exact hlanes _ h
      · exact absurd h hne
    · intro lane hl
      unfold set_bits at hl
      exact hlanes lane (hrma lane (List.mem_filter.1 hl).2)
  refine ⟨hmain, ?_, ?_, ?_, ?_⟩
  · rw [hmain]; exact ⟨rfl, rfl⟩
  · rw [hmain]; exact ⟨rfl, rfl, rfl, rfl, rfl⟩
  · rw [hmain]; exact ⟨rfl, rfl, rfl, rfl, rfl, rfl, rfl⟩
  · intro tail
    refine ucp_ep_config_init_congr worker c k1 _ rfl rfl rfl rfl ?_ ?_
    · intro hne
      rcases ham with h | h
      · show k1.lanes k1.am_lane = if k1.am_lane < k1.num_lanes then _ else _
        rw [if_pos h]
      · exact absurd h hne
    · intro lane hl
      unfold set_bits at hl
      show k1.lanes lane = if lane < k1.num_lanes then _ else _
      rw [if_pos (hrma lane (List.mem_filter.1 hl).2)]

/-- Witness of C16: the key of `example_rma_config` and `example_rma_key_tail` compare
equal although their `lanes[]` differ at index 5, and `ucp_ep_config_init` derives the
same `max_put_bcopy` for both. -/
theorem C16_init_respects_key_equality_witness :
    ucp_ep_config_is_equal example_rma_config.key example_rma_key_tail = 1 ∧
    example_rma_config.key.lanes 5 ≠ example_rma_key_tail.lanes 5 ∧
    (ucp_ep_config_init example_rma_worker
        (ucp_ep_config_set_key example_rma_config example_rma_key_tail)).max_put_bcopy =
      (ucp_ep_config_init example_rma_worker
        (ucp_ep_config_set_key example_rma_config example_rma_config.key)).max_put_bcopy :=
  ⟨by decide, by decide,
   (C16_init_respects_key_equality example_rma_worker example_rma_config
      example_rma_config.key example_rma_key_tail (by decide) (Or.inl (by decide))
      (fun i hi => testBit_bound 3 2 i (by decide) hi)).2.2.2.1.2.2.2.2.2.1⟩

end UCX
